import Mathlib

/-!
# Nokia 1202 (STE2007) display driver: transaction buffer and protocol engine

A shallow embedding of `src/nokia1202/spitxn.c` and `src/nokia1202/ste2007.c`.

Conventions of the embedding:

* `uint8_t`, `uint16_t`, `uint32_t` values are natural numbers; every place where the
  C arithmetic can wrap carries its reduction (`% 256`, `% 65536`, `% 4294967296`).
* The storage a `uint16_t *` points to is a function from the index to the word stored
  there.
* A `(pointer, length)` pair of source bytes is the list of the bytes it designates.
* Calls that drive a pin, the bus or the semaphore (`GPIO_write`, `SPI_transfer`,
  `SemaphoreP_pend`, `SemaphoreP_post`) are appended to a trace of events; initialisation
  and configuration calls are not recorded.
-/

namespace Nokia1202

/-! ## spitxn.h / spitxn.c -/

/-- Storage behind a `uint16_t *`: the word found at each index. -/
abbrev Storage := Nat → Nat

/-- The assignment `buf[i] = v` on a storage. -/
def Storage.write (m : Storage) (i v : Nat) : Storage :=
  fun j => if j = i then v else m j

/-- The struct `SpiTxn_buffer` of spitxn.h: `len` and `cap` are `uint32_t`. -/
structure SpiTxn_buffer where
  len : Nat
  cap : Nat
  buf : Storage

/-- The words a transfer of `count` words starting at `buf` puts on the wire. -/
def Storage.words (m : Storage) (count : Nat) : List Nat :=
  (List.range count).map m

/-- Body of the `for` loop of `spitxn_erase`: `for (i=0; i < buf->cap; i++) buf->buf[i] = 0`,
entered with the current `i`. -/
def spitxn_erase_loop (cap : Nat) (i : Nat) (m : Storage) : Storage :=
  if i < cap then spitxn_erase_loop cap (i + 1) (m.write i 0) else m
termination_by cap - i

/-- The function `spitxn_erase`. -/
def spitxn_erase (b : SpiTxn_buffer) : SpiTxn_buffer :=
  let m := if b.cap > 0 then spitxn_erase_loop b.cap 0 b.buf else b.buf
  { b with buf := m, len := 0 }

/-- The function `spitxn_reset`. -/
def spitxn_reset (b : SpiTxn_buffer) : SpiTxn_buffer :=
  { b with len := 0 }

/-- The word stored by `spitxn_push`:
`(uint16_t)(data[c]) | ((uint16_t)highTag << 8)`, assigned to a `uint16_t`. -/
def pushWord (highTag d : Nat) : Nat :=
  ((d % 65536) ||| ((highTag % 65536) <<< 8)) % 65536

/-- The `while` loop of `spitxn_push`. The list is `data[c .. len-1]`, so `c < len` holds
exactly when it is not empty; `i` and `c` are the C locals. -/
def spitxn_push_loop (highTag : Nat) :
    List Nat → Nat → Nat → SpiTxn_buffer → Nat × SpiTxn_buffer
  | [], _, c, b => (c, b)
  | d :: rest, i, c, b =>
    if (b.cap + 4294967296 - i) % 4294967296 > 0 then
      spitxn_push_loop highTag rest ((i + 1) % 4294967296) (c + 1)
        { b with buf := b.buf.write i (pushWord highTag d), len := (b.len + 1) % 4294967296 }
    else (c, b)

/-- The function `spitxn_push`: the returned count and the buffer afterwards. -/
def spitxn_push (b : SpiTxn_buffer) (highTag : Nat) (data : List Nat) : Nat × SpiTxn_buffer :=
  if b.cap > 0 then spitxn_push_loop highTag data b.len 0 b else (0, b)

/-- Conversion of a `uint32_t` value to `int32_t` (two's complement). -/
def toInt32 (x : Nat) : Int :=
  if x % 4294967296 < 2147483648 then (x % 4294967296 : Nat) else ((x % 4294967296 : Nat) : Int) - 4294967296

/-- The `while` loop of `spitxn_pop`. The first argument is `len - c`, so `c < len` holds
exactly when it is not zero; `i` (an `int32_t`) and `c` are the C locals. -/
def spitxn_pop_loop : Nat → Int → Nat → SpiTxn_buffer → Nat × SpiTxn_buffer
  | 0, _, c, b => (c, b)
  | k + 1, i, c, b =>
    if i > -1 then
      spitxn_pop_loop k (i - 1) (c + 1)
        { b with buf := b.buf.write i.toNat 0, len := (b.len + 4294967296 - 1) % 4294967296 }
    else (c, b)

/-- The function `spitxn_pop`: the returned count and the buffer afterwards. -/
def spitxn_pop (b : SpiTxn_buffer) (len : Nat) : Nat × SpiTxn_buffer :=
  if b.cap > 0 then
    spitxn_pop_loop len (toInt32 ((b.len + 4294967296 - 1) % 4294967296)) 0 b
  else (0, b)

/-! ## ste2007.h -/

def STE2007_CMD_ONOFF : Nat := 0xAE
def STE2007_MASK_ONOFF : Nat := 0x01
def STE2007_CMD_DPYREV : Nat := 0xA6
def STE2007_MASK_DPYREV : Nat := 0x01
def STE2007_CMD_DPYALLPTS : Nat := 0xA4
def STE2007_MASK_DPYALLPTS : Nat := 0x01
def STE2007_CMD_LINE : Nat := 0xB0
def STE2007_MASK_LINE : Nat := 0x0F
def STE2007_CMD_COLMSB : Nat := 0x10
def STE2007_MASK_COLMSB : Nat := 0x07
def STE2007_CMD_COLLSB : Nat := 0x00
def STE2007_MASK_COLLSB : Nat := 0x0F
def STE2007_CMD_SEGMENTDIR : Nat := 0xA0
def STE2007_MASK_SEGMENTDIR : Nat := 0x01
def STE2007_CMD_COMDIR : Nat := 0xC0
def STE2007_MASK_COMDIR : Nat := 0x08
def STE2007_CMD_PWRCTL : Nat := 0x28
def STE2007_MASK_PWRCTL : Nat := 0x07
def STE2007_CMD_ELECTVOL : Nat := 0x80
def STE2007_MASK_ELECTVOL : Nat := 0x1F
def STE2007_CMD_RESET : Nat := 0xE2
def STE2007_MASK_RESET : Nat := 0x00
def STE2007_CMD_VOP : Nat := 0xE1
def STE2007_MASK_VOP : Nat := 0xFF
def STE2007_CMD_CHARGEPUMP : Nat := 0x3D
def STE2007_MASK_CHARGEPUMP : Nat := 0x03
def STE2007_CMD_REFRESHRATE : Nat := 0xEF
def STE2007_MASK_REFRESHRATE : Nat := 0x03
def STE2007_CMD_SETBIAS : Nat := 0x30
def STE2007_MASK_SETBIAS : Nat := 0x07

/-- The struct `DisplayNokia1202_HWAttrsV1`. -/
structure DisplayNokia1202_HWAttrsV1 where
  spiBus : Nat
  csPin : Nat
  backlightPin : Nat
  useBacklight : Bool

/-- The enum `Display_LineClearMode` of the host display framework. -/
inductive Display_LineClearMode where
  | DISPLAY_CLEAR_NONE
  | DISPLAY_CLEAR_LEFT
  | DISPLAY_CLEAR_RIGHT
  | DISPLAY_CLEAR_BOTH
  deriving DecidableEq, Repr

/-- The struct `DisplayNokia1202_Object`. After `ste2007_init` the pointers `cmdBuf.buf` and
`rowbuffer.buf` designate the arrays `_cmdBuffer` and `_rowBuf`; each array is kept once, as
the storage of its buffer. `bus` is the SPI handle (`none` is `NULL`); `mutex` is the binary
semaphore, `true` when it is available. -/
structure DisplayNokia1202_Object where
  cmdBuf : SpiTxn_buffer
  rowbuffer : SpiTxn_buffer
  bus : Option Nat
  lineClearMode : Display_LineClearMode
  mutex : Bool

/-- A call that leaves the driver. -/
inductive Event where
  | GPIO_write (index : Nat) (value : Nat)
  | SPI_transfer (words : List Nat)
  | SemaphoreP_pend
  | SemaphoreP_post
  deriving DecidableEq, Repr

/-- What a `Display_Handle` reaches (`hwAttrs`, `object`), with the calls made so far. -/
structure Display_Handle where
  hwAttrs : DisplayNokia1202_HWAttrsV1
  object : DisplayNokia1202_Object
  trace : List Event

/-! ## ste2007.c -/

/-- The call `GPIO_write(index, value)`. -/
def GPIO_write (dpyH : Display_Handle) (index value : Nat) : Display_Handle :=
  { dpyH with trace := dpyH.trace ++ [Event.GPIO_write index value] }

/-- The call `SPI_transfer(o->bus, &txn)` with `txn.count = count` and `txn.txBuf = txBuf`:
the first `count` words of the storage go on the wire. Its result is read at no call site. -/
def SPI_transfer (dpyH : Display_Handle) (count : Nat) (txBuf : Storage) : Display_Handle :=
  { dpyH with trace := dpyH.trace ++ [Event.SPI_transfer (txBuf.words count)] }

/-- The call `SemaphoreP_pend(o->mutex, SemaphoreP_WAIT_FOREVER)` with no other thread:
`none` when the semaphore is taken, since the call then never returns. -/
def SemaphoreP_pend (dpyH : Display_Handle) : Option Display_Handle :=
  if dpyH.object.mutex then
    some { dpyH with object := { dpyH.object with mutex := false },
                     trace := dpyH.trace ++ [Event.SemaphoreP_pend] }
  else none

/-- The call `SemaphoreP_post(o->mutex)`. -/
def SemaphoreP_post (dpyH : Display_Handle) : Display_Handle :=
  { dpyH with object := { dpyH.object with mutex := true },
              trace := dpyH.trace ++ [Event.SemaphoreP_post] }

/-- The function `ste2007_chipselect`. -/
def ste2007_chipselect (dpyH : Display_Handle) (onoff : Nat) : Display_Handle :=
  GPIO_write dpyH dpyH.hwAttrs.csPin onoff

/-- The function `ste2007_issuecmd`. -/
def ste2007_issuecmd (dpyH : Display_Handle) (cmd arg argmask : Nat) : Display_Handle :=
  let c := (cmd ||| (arg &&& argmask)) % 256
  let cmdBuf := (spitxn_push (spitxn_reset dpyH.object.cmdBuf) 0 [c]).2
  let dpyH := { dpyH with object := { dpyH.object with cmdBuf := cmdBuf } }
  let count := dpyH.object.cmdBuf.len
  let dpyH := ste2007_chipselect dpyH 0
  let dpyH := SPI_transfer dpyH count dpyH.object.cmdBuf.buf
  ste2007_chipselect dpyH 1

/-- The function `ste2007_issue_compoundcmd`. -/
def ste2007_issue_compoundcmd (dpyH : Display_Handle) (cmd arg argmask : Nat) : Display_Handle :=
  let c0 := cmd % 256
  let c1 := (arg &&& argmask) % 256
  let cmdBuf := (spitxn_push (spitxn_reset dpyH.object.cmdBuf) 0 [c0, c1]).2
  let dpyH := { dpyH with object := { dpyH.object with cmdBuf := cmdBuf } }
  let count := dpyH.object.cmdBuf.len
  let dpyH := ste2007_chipselect dpyH 0
  let dpyH := SPI_transfer dpyH count dpyH.object.cmdBuf.buf
  ste2007_chipselect dpyH 1

/-- The function `ste2007_init`. -/
def ste2007_init (dpyH : Display_Handle) : Display_Handle :=
  { dpyH with object :=
      { dpyH.object with
        cmdBuf := { dpyH.object.cmdBuf with cap := 4, len := 0 },
        rowbuffer := { dpyH.object.rowbuffer with cap := 16 * 6, len := 0 } } }

/-- The function `ste2007_setxy`; `x >> 4` is converted to `uint8_t` at the call. -/
def ste2007_setxy (dpyH : Display_Handle) (x y : Nat) : Display_Handle :=
  let dpyH := ste2007_issuecmd dpyH STE2007_CMD_LINE y STE2007_MASK_LINE
  let dpyH := ste2007_issuecmd dpyH STE2007_CMD_COLMSB ((x >>> 4) % 256) STE2007_MASK_COLMSB
  ste2007_issuecmd dpyH STE2007_CMD_COLLSB x STE2007_MASK_COLLSB

/-- The loop `for(i=0; i < 16*6; i++) o->_rowBuf[i] = 0x0100;` of `ste2007_clear` and
`ste2007_clearLines`, entered with the current `i`. -/
def ste2007_blankRow_loop (i : Nat) (m : Storage) : Storage :=
  if i < 16 * 6 then ste2007_blankRow_loop (i + 1) (m.write i 0x0100) else m
termination_by 16 * 6 - i

/-- The loop `for (i=0; i < 9; i++) SPI_transfer(o->bus, &txn);` of `ste2007_clear`;
`count` is `txn.count`, and `txn.txBuf` is the row buffer's storage. -/
def ste2007_clear_loop (count : Nat) (i : Nat) (dpyH : Display_Handle) : Display_Handle :=
  if i < 9 then
    ste2007_clear_loop count (i + 1) (SPI_transfer dpyH count dpyH.object.rowbuffer.buf)
  else dpyH
termination_by 9 - i

/-- The function `ste2007_clear`. -/
def ste2007_clear (dpyH : Display_Handle) : Option Display_Handle :=
  match SemaphoreP_pend dpyH with
  | none => none
  | some dpyH =>
    let rowbuffer : SpiTxn_buffer :=
      { dpyH.object.rowbuffer with
        buf := ste2007_blankRow_loop 0 dpyH.object.rowbuffer.buf, len := 16 * 6 }
    let dpyH := { dpyH with object := { dpyH.object with rowbuffer := rowbuffer } }
    let count := dpyH.object.rowbuffer.len
    let dpyH := ste2007_setxy dpyH 0 0
    let dpyH := ste2007_chipselect dpyH 0
    let dpyH := ste2007_clear_loop count 0 dpyH
    let dpyH := ste2007_chipselect dpyH 1
    some (SemaphoreP_post dpyH)

/-- The loop `for (i=start; i <= end; i++)` of `ste2007_clearLines`, entered with the
current `i` (an `int`, converted to `uint8_t` when passed to `ste2007_setxy`). -/
def ste2007_clearLines_loop (count : Nat) (end_ : Nat) (i : Nat) (dpyH : Display_Handle) :
    Display_Handle :=
  if i ≤ end_ then
    let dpyH := ste2007_setxy dpyH 0 (i % 256)
    let dpyH := ste2007_chipselect dpyH 0
    let dpyH := SPI_transfer dpyH count dpyH.object.rowbuffer.buf
    let dpyH := ste2007_chipselect dpyH 1
    ste2007_clearLines_loop count end_ (i + 1) dpyH
  else dpyH
termination_by end_ + 1 - i

/-- The function `ste2007_clearLines`. -/
def ste2007_clearLines (dpyH : Display_Handle) (start end_ : Nat) : Option Display_Handle :=
  match SemaphoreP_pend dpyH with
  | none => none
  | some dpyH =>
    let rowbuffer : SpiTxn_buffer :=
      { dpyH.object.rowbuffer with
        buf := ste2007_blankRow_loop 0 dpyH.object.rowbuffer.buf, len := 16 * 6 }
    let dpyH := { dpyH with object := { dpyH.object with rowbuffer := rowbuffer } }
    let count := dpyH.object.rowbuffer.len
    let end_ := if end_ < start then start else end_
    let dpyH := ste2007_clearLines_loop count end_ start dpyH
    some (SemaphoreP_post dpyH)

/-- The `while (ttl < len)` loop of `ste2007_write` on the bytes `ubuf[0 .. len-1]`, with
`ttl` the C local (`uint32_t`). The first argument bounds the number of iterations; `none`
when it is used up before the loop ends. -/
def ste2007_write_loop (ubuf : List Nat) : Nat → Nat → Display_Handle → Option Display_Handle
  | 0, _, _ => none
  | fuel + 1, ttl, dpyH =>
    if ttl < ubuf.length then
      let rowbuffer := spitxn_reset dpyH.object.rowbuffer
      let n := if ubuf.length - ttl > rowbuffer.cap then rowbuffer.cap else ubuf.length - ttl
      let rowbuffer := (spitxn_push rowbuffer 0x01 ((ubuf.drop ttl).take n)).2
      let dpyH := { dpyH with object := { dpyH.object with rowbuffer := rowbuffer } }
      let dpyH := SPI_transfer dpyH dpyH.object.rowbuffer.len dpyH.object.rowbuffer.buf
      ste2007_write_loop ubuf fuel ((ttl + dpyH.object.rowbuffer.len) % 4294967296) dpyH
    else some dpyH

/-- The function `ste2007_write` on the bytes `buf[0 .. len-1]` (`len` is a `uint16_t`). -/
def ste2007_write (fuel : Nat) (dpyH : Display_Handle) (buf : List Nat) : Option Display_Handle :=
  ste2007_write_loop buf fuel 0 dpyH

/-- The function `ste2007_invert`. -/
def ste2007_invert (dpyH : Display_Handle) (onoff : Nat) : Display_Handle :=
  ste2007_issuecmd dpyH STE2007_CMD_DPYREV onoff STE2007_MASK_DPYREV

/-- The function `ste2007_powersave`; `!onoff` is 1 when `onoff` is 0 and 0 otherwise. -/
def ste2007_powersave (dpyH : Display_Handle) (onoff : Nat) : Display_Handle :=
  let dpyH := ste2007_issuecmd dpyH STE2007_CMD_DPYALLPTS onoff STE2007_MASK_DPYALLPTS
  ste2007_issuecmd dpyH STE2007_CMD_ONOFF (if onoff = 0 then 1 else 0) STE2007_MASK_ONOFF

/-- The function `ste2007_contrast`. -/
def ste2007_contrast (dpyH : Display_Handle) (val : Nat) : Display_Handle :=
  ste2007_issuecmd dpyH STE2007_CMD_ELECTVOL val STE2007_MASK_ELECTVOL

/-- The function `ste2007_refreshrate`. -/
def ste2007_refreshrate (dpyH : Display_Handle) (val : Nat) : Display_Handle :=
  if val = 80 then
    ste2007_issue_compoundcmd dpyH STE2007_CMD_REFRESHRATE 0 STE2007_MASK_REFRESHRATE
  else if val = 75 then
    ste2007_issue_compoundcmd dpyH STE2007_CMD_REFRESHRATE 1 STE2007_MASK_REFRESHRATE
  else if val = 70 then
    ste2007_issue_compoundcmd dpyH STE2007_CMD_REFRESHRATE 2 STE2007_MASK_REFRESHRATE
  else
    ste2007_issue_compoundcmd dpyH STE2007_CMD_REFRESHRATE 3 STE2007_MASK_REFRESHRATE

/-- The constants that ste2007.c and ste2007.h take from the host framework header
`ti/display/Display.h`, which is not part of the repository: parameters of the embedding. -/
structure Display_h where
  DISPLAY_CMD_RESERVED : Nat
  DISPLAY_STATUS_RESERVED : Int
  DISPLAY_STATUS_SUCCESS : Int
  DISPLAY_STATUS_ERROR : Int
  DISPLAY_STATUS_UNDEFINEDCMD : Int

def NOKIA1202_CMD_CONTRAST (K : Display_h) : Nat := K.DISPLAY_CMD_RESERVED + 0
def NOKIA1202_CONTRAST_OUT_OF_RANGE (K : Display_h) : Int := K.DISPLAY_STATUS_RESERVED - 0
def NOKIA1202_CMD_REFRESHRATE (K : Display_h) : Nat := K.DISPLAY_CMD_RESERVED + 1
def NOKIA1202_REFRESHRATE_INVALID (K : Display_h) : Int := K.DISPLAY_STATUS_RESERVED - 1
def NOKIA1202_CMD_INVERT (K : Display_h) : Nat := K.DISPLAY_CMD_RESERVED + 2
def NOKIA1202_CMD_POWERSAVE (K : Display_h) : Nat := K.DISPLAY_CMD_RESERVED + 3
def NOKIA1202_CMD_BACKLIGHT (K : Display_h) : Nat := K.DISPLAY_CMD_RESERVED + 4

/-- The function `ste2007_control`: the returned status and the session afterwards. The
argument `void *arg` is `none` for a null pointer and `some v` for a pointer to the byte
`v`; the `switch` is the chain of tests of `cmd` against its five case labels. -/
def ste2007_control (K : Display_h) (dpyH : Display_Handle) (cmd : Nat) (arg : Option Nat) :
    Int × Display_Handle :=
  if cmd = NOKIA1202_CMD_CONTRAST K then
    match arg with
    | none => (K.DISPLAY_STATUS_ERROR, dpyH)
    | some v =>
      if v > 31 then (NOKIA1202_CONTRAST_OUT_OF_RANGE K, dpyH)
      else (K.DISPLAY_STATUS_SUCCESS, ste2007_contrast dpyH v)
  else if cmd = NOKIA1202_CMD_REFRESHRATE K then
    match arg with
    | none => (K.DISPLAY_STATUS_ERROR, dpyH)
    | some v =>
      if v ≠ 65 ∧ v ≠ 70 ∧ v ≠ 75 ∧ v ≠ 80 then (NOKIA1202_REFRESHRATE_INVALID K, dpyH)
      else (K.DISPLAY_STATUS_SUCCESS, ste2007_refreshrate dpyH v)
  else if cmd = NOKIA1202_CMD_INVERT K then
    match arg with
    | none => (K.DISPLAY_STATUS_ERROR, dpyH)
    | some v =>
      if v ≠ 0 then (K.DISPLAY_STATUS_SUCCESS, ste2007_invert dpyH 1)
      else (K.DISPLAY_STATUS_SUCCESS, ste2007_invert dpyH 0)
  else if cmd = NOKIA1202_CMD_POWERSAVE K then
    match arg with
    | none => (K.DISPLAY_STATUS_ERROR, dpyH)
    | some v =>
      if v ≠ 0 then (K.DISPLAY_STATUS_SUCCESS, ste2007_powersave dpyH 1)
      else (K.DISPLAY_STATUS_SUCCESS, ste2007_powersave dpyH 0)
  else if cmd = NOKIA1202_CMD_BACKLIGHT K then
    match arg with
    | none => (K.DISPLAY_STATUS_ERROR, dpyH)
    | some v =>
      if dpyH.hwAttrs.useBacklight = false then (K.DISPLAY_STATUS_SUCCESS, dpyH)
      else if v ≠ 0 then
        (K.DISPLAY_STATUS_SUCCESS, GPIO_write dpyH dpyH.hwAttrs.backlightPin 1)
      else (K.DISPLAY_STATUS_SUCCESS, GPIO_write dpyH dpyH.hwAttrs.backlightPin 0)
  else (K.DISPLAY_STATUS_UNDEFINEDCMD, dpyH)

/-- The struct `Display_Params` of the host framework, reduced to the field that
`ste2007_open` reads. -/
structure Display_Params where
  lineClearMode : Display_LineClearMode

/-- What the collaborators answer during `ste2007_open`: whether `SemaphoreP_createBinary`
returns a semaphore (`false`: `NULL`), the handle `SPI_open` returns (`none`: `NULL`), and
the result of the `k`-th `SPI_transfer` (`true`: success). -/
structure Collaborators where
  SemaphoreP_createBinary : Bool
  SPI_open : Option Nat
  SPI_transfer : Nat → Bool

/-- The function `ste2007_open`: `none` when it never returns, otherwise whether it returns
`dpyH` (`true`) or `NULL` (`false`), and the session afterwards. The initialisation and
configuration calls (`GPIO_init`, `SPI_init`, `GPIO_setConfig`, `SPI_Params_init`,
`System_printf`) are not recorded in the trace. The semaphore is created with count 1. No
statement of the function reads the result of an `SPI_transfer`. -/
def ste2007_open (env : Collaborators) (dpyH : Display_Handle) (params : Display_Params) :
    Option (Bool × Display_Handle) :=
  let dpyH := { dpyH with object := { dpyH.object with mutex := env.SemaphoreP_createBinary } }
  if env.SemaphoreP_createBinary = false then some (false, dpyH)
  else
    match SemaphoreP_pend dpyH with
    | none => none
    | some dpyH =>
      let dpyH := { dpyH with object := { dpyH.object with bus := env.SPI_open } }
      if env.SPI_open = none then some (false, dpyH)
      else
        let dpyH := ste2007_issuecmd dpyH STE2007_CMD_RESET 0 STE2007_MASK_RESET
        let dpyH := ste2007_issuecmd dpyH STE2007_CMD_DPYALLPTS 0 STE2007_MASK_DPYALLPTS
        let dpyH := ste2007_issuecmd dpyH STE2007_CMD_PWRCTL 7 STE2007_MASK_PWRCTL
        let dpyH := ste2007_issuecmd dpyH STE2007_CMD_ONOFF 1 STE2007_MASK_ONOFF
        let dpyH := ste2007_issuecmd dpyH STE2007_CMD_COMDIR 0 STE2007_MASK_COMDIR
        let dpyH := ste2007_issuecmd dpyH STE2007_CMD_SEGMENTDIR 0 STE2007_MASK_SEGMENTDIR
        let dpyH := ste2007_issuecmd dpyH STE2007_CMD_ELECTVOL 16 STE2007_MASK_ELECTVOL
        let dpyH := SemaphoreP_post dpyH
        match ste2007_clear dpyH with
        | none => none
        | some dpyH =>
          match SemaphoreP_pend dpyH with
          | none => none
          | some dpyH =>
            let dpyH := ste2007_issue_compoundcmd dpyH STE2007_CMD_REFRESHRATE 3
              STE2007_MASK_REFRESHRATE
            let dpyH := ste2007_issue_compoundcmd dpyH STE2007_CMD_CHARGEPUMP 0
              STE2007_MASK_CHARGEPUMP
            let dpyH := ste2007_issuecmd dpyH STE2007_CMD_SETBIAS 6 STE2007_MASK_SETBIAS
            let dpyH := ste2007_issue_compoundcmd dpyH STE2007_CMD_VOP 0 STE2007_MASK_VOP
            let dpyH := ste2007_issuecmd dpyH STE2007_CMD_DPYREV 0 STE2007_MASK_DPYREV
            let dpyH :=
              { dpyH with object := { dpyH.object with lineClearMode := params.lineClearMode } }
            some (true, SemaphoreP_post dpyH)

/-- The loops `for(i=0; i < n; i++)` of `ste2007_vprintf` that store the NUL character in
`dispStr[i]`, entered with the
current `i`; the bound `n` is an `int` (`col` or `16-col`). `none` when the loop stores past
the end of the array, which the C language leaves undefined. -/
def ste2007_vprintf_zero_loop (n : Int) (i : Nat) (dispStr : List Nat) : Option (List Nat) :=
  if (i : Int) < n then
    if i < dispStr.length then ste2007_vprintf_zero_loop n (i + 1) (dispStr.set i 0)
    else none
  else some dispStr
termination_by (n - i).toNat
decreasing_by omega

/-- The call `ste2007_write(dpyH, dispStr, len)` of `ste2007_vprintf`: the bytes
`dispStr[0 .. len-1]`. `none` when `len` exceeds the array (undefined in C), or when the
write does not return. -/
def ste2007_write_dispStr (fuel : Nat) (dpyH : Display_Handle) (dispStr : List Nat)
    (len : Nat) : Option Display_Handle :=
  if len ≤ dispStr.length then ste2007_write fuel dpyH (dispStr.take len) else none

/-- The first part of `ste2007_vprintf` (between taking the semaphore and the call of
`SystemP_vsnprintf`): the line-clear policy. `dispStr` is the content of the local array
`char dispStr[32]` on entry; `16-col` is an `int`, converted to `uint16_t` when passed as the
length of the write. -/
def ste2007_vprintf_clear (fuel : Nat) (dpyH : Display_Handle) (line col : Nat)
    (dispStr : List Nat) : Option Display_Handle :=
  match dpyH.object.lineClearMode with
  | Display_LineClearMode.DISPLAY_CLEAR_NONE => some dpyH
  | Display_LineClearMode.DISPLAY_CLEAR_LEFT =>
    match ste2007_vprintf_zero_loop (col : Int) 0 dispStr with
    | none => none
    | some dispStr =>
      let dpyH := ste2007_setxy dpyH 0 line
      let dpyH := ste2007_chipselect dpyH 0
      match ste2007_write_dispStr fuel dpyH dispStr col with
      | none => none
      | some dpyH => some (ste2007_chipselect dpyH 1)
  | Display_LineClearMode.DISPLAY_CLEAR_RIGHT =>
    match ste2007_vprintf_zero_loop (16 - (col : Int)) 0 dispStr with
    | none => none
    | some dispStr =>
      let dpyH := ste2007_setxy dpyH col line
      let dpyH := ste2007_chipselect dpyH 0
      match ste2007_write_dispStr fuel dpyH dispStr ((16 - (col : Int)) % 65536).toNat with
      | none => none
      | some dpyH => some (ste2007_chipselect dpyH 1)
  | Display_LineClearMode.DISPLAY_CLEAR_BOTH =>
    let dpyH := SemaphoreP_post dpyH
    match ste2007_clearLines dpyH line line with
    | none => none
    | some dpyH => SemaphoreP_pend dpyH

/-- The loop `while (*c) { ste2007_write(dpyH, font_5x7[(unsigned int)*c - 32], 6); c++; }`
of `ste2007_vprintf`, on the bytes from `*c` to the end of `dispStr`. The glyph table of
font_5x7.h is not part of the repository: `font_5x7 k` stands for the bytes of its row `k`.
`none` when the array ends before a zero byte is met, or when a write does not return. -/
def ste2007_vprintf_loop (font_5x7 : Nat → List Nat) (fuel : Nat) :
    List Nat → Display_Handle → Option Display_Handle
  | [], _ => none
  | c :: rest, dpyH =>
    if c ≠ 0 then
      match ste2007_write fuel dpyH
          ((font_5x7 ((c + 4294967296 - 32) % 4294967296)).take 6) with
      | none => none
      | some dpyH => ste2007_vprintf_loop font_5x7 fuel rest dpyH
    else some dpyH

/-- The second part of `ste2007_vprintf` (after `SystemP_vsnprintf`, before the semaphore is
released): `dispStr` is the content of the array as `SystemP_vsnprintf` leaves it. -/
def ste2007_vprintf_render (font_5x7 : Nat → List Nat) (fuel : Nat) (dpyH : Display_Handle)
    (line col : Nat) (dispStr : List Nat) : Option Display_Handle :=
  let dpyH := ste2007_setxy dpyH col line
  let dpyH := ste2007_chipselect dpyH 0
  match ste2007_vprintf_loop font_5x7 fuel dispStr dpyH with
  | none => none
  | some dpyH => some (ste2007_chipselect dpyH 1)

/-- The function `ste2007_vprintf`: `dispStr` is the local array on entry and `formatted`
its content after `SystemP_vsnprintf(dispStr, sizeof(dispStr), fmt, va)`. -/
def ste2007_vprintf (font_5x7 : Nat → List Nat) (fuel : Nat) (dpyH : Display_Handle)
    (line col : Nat) (dispStr formatted : List Nat) : Option Display_Handle :=
  match SemaphoreP_pend dpyH with
  | none => none
  | some dpyH =>
    match ste2007_vprintf_clear fuel dpyH line col dispStr with
    | none => none
    | some dpyH =>
      match ste2007_vprintf_render font_5x7 fuel dpyH line col formatted with
      | none => none
      | some dpyH => some (SemaphoreP_post dpyH)

/-- The function `ste2007_control_mutexwrapped`: `none` when it never returns. -/
def ste2007_control_mutexwrapped (K : Display_h) (dpyH : Display_Handle) (cmd : Nat)
    (arg : Option Nat) : Option (Int × Display_Handle) :=
  match SemaphoreP_pend dpyH with
  | none => none
  | some dpyH =>
    let r := ste2007_control K dpyH cmd arg
    some (r.1, SemaphoreP_post r.2)

/-- The function `ste2007_close`; `SPI_close` is not recorded in the trace, `o->bus = NULL`
is. -/
def ste2007_close (dpyH : Display_Handle) : Option Display_Handle :=
  match SemaphoreP_pend dpyH with
  | none => none
  | some dpyH =>
    let dpyH := ste2007_chipselect dpyH 1
    let dpyH := { dpyH with object := { dpyH.object with bus := none } }
    some (SemaphoreP_post dpyH)

/-! ## ste2007.c: a second thread in the window of ClearBoth -/

/-- The statements of `ste2007_vprintf` on its ClearBoth path, with the run of another
thread placed where the nested `ste2007_clearLines` has returned and the lock is not yet
taken again: `between` is what the other thread does to the session there (`some` when no
other thread runs). -/
def ste2007_vprintf_clearBoth_with (between : Display_Handle → Option Display_Handle)
    (font_5x7 : Nat → List Nat) (fuel : Nat) (dpyH : Display_Handle) (line col : Nat)
    (formatted : List Nat) : Option Display_Handle :=
  match SemaphoreP_pend dpyH with
  | none => none
  | some dpyH =>
    let dpyH := SemaphoreP_post dpyH
    match ste2007_clearLines dpyH line line with
    | none => none
    | some dpyH =>
      match between dpyH with
      | none => none
      | some dpyH =>
        match SemaphoreP_pend dpyH with
        | none => none
        | some dpyH =>
          match ste2007_vprintf_render font_5x7 fuel dpyH line col formatted with
          | none => none
          | some dpyH => some (SemaphoreP_post dpyH)

/-! ## Shapes of traces -/

/-- The events of one simple command: a chip-select bracket around a one-word transfer. -/
def simpleCommand (csPin w : Nat) : List Event :=
  [Event.GPIO_write csPin 0, Event.SPI_transfer [w], Event.GPIO_write csPin 1]

/-- The events of one compound command: a chip-select bracket around a two-word transfer. -/
def compoundCommand (csPin w0 w1 : Nat) : List Event :=
  [Event.GPIO_write csPin 0, Event.SPI_transfer [w0, w1], Event.GPIO_write csPin 1]

/-- The cursor sequence for `(x, y)`: line select, column MSB, column LSB. -/
def cursorSequence (csPin x y : Nat) : List Event :=
  simpleCommand csPin (0xB0 ||| (y &&& 0x0F)) ++
  simpleCommand csPin (0x10 ||| ((x >>> 4) &&& 0x07)) ++
  simpleCommand csPin (x &&& 0x0F)

/-- One blank row: 96 data words `0x0100`. -/
def blankRow : List Nat := List.replicate 96 0x0100

/-- The events of clearing one line: the cursor sequence for `(0, line)`, then one
chip-select bracket around one transfer of one blank row. -/
def lineClearEvents (csPin line : Nat) : List Event :=
  cursorSequence csPin 0 line ++
  [Event.GPIO_write csPin 0, Event.SPI_transfer blankRow, Event.GPIO_write csPin 1]

/-- The events of `ste2007_clear`: the lock taken, the cursor sequence for `(0, 0)`, one
chip-select bracket around 9 transfers of one blank row, the lock released. -/
def fullClearEvents (csPin : Nat) : List Event :=
  [Event.SemaphoreP_pend] ++ cursorSequence csPin 0 0 ++ [Event.GPIO_write csPin 0] ++
  List.replicate 9 (Event.SPI_transfer blankRow) ++ [Event.GPIO_write csPin 1] ++
  [Event.SemaphoreP_post]

/-- The events of a successful `ste2007_open`, in order. -/
def bringUpEvents (csPin : Nat) : List Event :=
  [Event.SemaphoreP_pend] ++
  simpleCommand csPin 0xE2 ++ simpleCommand csPin 0xA4 ++ simpleCommand csPin 0x2F ++
  simpleCommand csPin 0xAF ++ simpleCommand csPin 0xC0 ++ simpleCommand csPin 0xA0 ++
  simpleCommand csPin 0x90 ++
  [Event.SemaphoreP_post] ++
  fullClearEvents csPin ++
  [Event.SemaphoreP_pend] ++
  compoundCommand csPin 0xEF 0x03 ++ compoundCommand csPin 0x3D 0x00 ++
  simpleCommand csPin 0x36 ++ compoundCommand csPin 0xE1 0x00 ++ simpleCommand csPin 0xA6 ++
  [Event.SemaphoreP_post]

/-- The word sequences handed to the transport, in order. -/
def transfersOf : List Event → List (List Nat)
  | [] => []
  | Event.SPI_transfer words :: rest => words :: transfersOf rest
  | _ :: rest => transfersOf rest

/-- The events of rendering the characters `s` at `(col, line)`: the cursor sequence, then
one chip-select bracket around one transfer per character, of the bytes of its glyph (row
`c - 32` of the table) as data words `0x0100 | byte`. -/
def renderEvents (csPin : Nat) (font_5x7 : Nat → List Nat) (col line : Nat) (s : List Nat) :
    List Event :=
  cursorSequence csPin col line ++ [Event.GPIO_write csPin 0] ++
  s.map (fun c => Event.SPI_transfer ((font_5x7 (c - 32)).map (fun b => 0x0100 ||| b))) ++
  [Event.GPIO_write csPin 1]

/-- The events of a whole `ste2007_vprintf` under the ClearBoth policy: the lock taken and
released at once, the events of the nested `ste2007_clearLines` of the line, the lock taken
again, the rendering, the lock released. -/
def clearBothDrawEvents (csPin : Nat) (font_5x7 : Nat → List Nat) (col line : Nat)
    (s : List Nat) : List Event :=
  [Event.SemaphoreP_pend, Event.SemaphoreP_post] ++
  ([Event.SemaphoreP_pend] ++ lineClearEvents csPin line ++ [Event.SemaphoreP_post]) ++
  [Event.SemaphoreP_pend] ++ renderEvents csPin font_5x7 col line s ++
  [Event.SemaphoreP_post]

/-- Going from `d` to `d'` appended exactly the events `evs` and left the wiring, the two
capacities, the policy and the bus handle as they were. -/
def Emits (d d' : Display_Handle) (evs : List Event) : Prop :=
  d'.trace = d.trace ++ evs ∧ d'.hwAttrs = d.hwAttrs ∧
  d'.object.cmdBuf.cap = d.object.cmdBuf.cap ∧
  d'.object.rowbuffer.cap = d.object.rowbuffer.cap ∧
  d'.object.lineClearMode = d.object.lineClearMode ∧
  d'.object.bus = d.object.bus

/-- The property of the state `d1` in which `ste2007_clear` and `ste2007_clearLines` start
their transfers, relative to the state `dpyH` they were called in. -/
def RowBlanked (dpyH d1 : Display_Handle) : Prop :=
  d1.trace = dpyH.trace ++ [Event.SemaphoreP_pend] ∧ d1.hwAttrs = dpyH.hwAttrs ∧
  d1.object.cmdBuf = dpyH.object.cmdBuf ∧ d1.object.rowbuffer.len = 96 ∧
  d1.object.rowbuffer.cap = dpyH.object.rowbuffer.cap ∧
  d1.object.rowbuffer.buf.words 96 = blankRow ∧
  (∀ i, i < 96 → d1.object.rowbuffer.buf i = 0x0100) ∧
  d1.object.lineClearMode = dpyH.object.lineClearMode ∧ d1.object.bus = dpyH.object.bus

/-- The buffer invariant of spitxn.h: the length does not exceed the capacity. -/
def SpiTxn_buffer.lengthWithinCapacity (b : SpiTxn_buffer) : Prop := b.len ≤ b.cap

/-- The session lock followed along a sequence of events, as a boolean (`true`: held).
`none` as soon as the lock is taken while held, released while free, or a transfer is made
while it is free; otherwise the state of the lock after the last event. -/
def lockDiscipline : Bool → List Event → Option Bool
  | held, [] => some held
  | held, Event.SemaphoreP_pend :: rest => if held then none else lockDiscipline true rest
  | held, Event.SemaphoreP_post :: rest => if held then lockDiscipline false rest else none
  | held, Event.SPI_transfer _ :: rest => if held then lockDiscipline true rest else none
  | held, Event.GPIO_write _ _ :: rest => lockDiscipline held rest

/-- Going from `d` to `d'` with the lock held keeps the discipline: the events appended,
followed from a held lock, break no rule and end with the lock held; the semaphore and the
row buffer capacity are as before. -/
def WhileHeld (d d' : Display_Handle) : Prop :=
  (∃ evs, d'.trace = d.trace ++ evs ∧ lockDiscipline true evs = some true) ∧
  d'.object.mutex = d.object.mutex ∧
  d'.object.rowbuffer.cap = d.object.rowbuffer.cap

/-- The outcome `r` of an operation started in `d` with the lock free: the operation
returns, the events it appended keep the discipline when followed from a free lock and end
with the lock free, and the semaphore is available in the session it leaves. -/
def ReturnsUnlocked (d : Display_Handle) (r : Option Display_Handle) : Prop :=
  ∃ d' evs, r = some d' ∧ d'.trace = d.trace ++ evs ∧
    lockDiscipline false evs = some false ∧ d'.object.mutex = true

/-- The position the controller reads back from the three words of a cursor sequence: the
line from the low 4 bits of the first, the column from the low 3 bits of the second
(shifted by 4) and the low 4 bits of the third. -/
def decodeCursor (w1 w2 w3 : Nat) : Nat × Nat :=
  (w1 &&& 0x0F, ((w2 &&& 0x07) <<< 4) ||| (w3 &&& 0x0F))

/-- A transport on which every transfer reports failure, with the semaphore created and the
bus opened: the concrete collaborators of the worked instances on bring-up. -/
def failingTransport : Collaborators :=
  { SemaphoreP_createBinary := true, SPI_open := some 0, SPI_transfer := fun _ => false }

/-- Collaborators of a bring-up on which the semaphore is created and `SPI_open` returns
`NULL`. -/
def busUnavailable : Collaborators :=
  { SemaphoreP_createBinary := true, SPI_open := none, SPI_transfer := fun _ => true }

/-- A choice of the framework constants for the worked instances (the values customary in
the SimpleLink SDK: commands reserved from 32 upwards, statuses from -32 downwards). -/
def sampleDisplay_h : Display_h :=
  { DISPLAY_CMD_RESERVED := 32, DISPLAY_STATUS_RESERVED := -32, DISPLAY_STATUS_SUCCESS := 0,
    DISPLAY_STATUS_ERROR := -1, DISPLAY_STATUS_UNDEFINEDCMD := -2 }

/-- The session of the worked instances with the line-clear policy set to `mode`. -/
def staleSessionWith (mode : Display_LineClearMode) : Display_Handle :=
  { hwAttrs := { spiBus := 0, csPin := 5, backlightPin := 6, useBacklight := false },
    object :=
      { cmdBuf := { len := 2, cap := 4, buf := fun _ => 0xEF },
        rowbuffer := { len := 96, cap := 96, buf := fun _ => 0x0141 },
        bus := some 0,
        lineClearMode := mode,
        mutex := false },
    trace := [] }

/-- A stand-in for the glyph table in the worked instances: six bytes per row. -/
def sampleFont (k : Nat) : List Nat := [0x7E, k, k + 1, k + 2, 0x7E, 0x00]

/-- A session as `ste2007_init` leaves it (capacities 4 and 96) in which both buffers still
hold words of earlier transfers: the concrete input of the worked instances below. -/
def staleSession : Display_Handle :=
  { hwAttrs := { spiBus := 0, csPin := 5, backlightPin := 6, useBacklight := false },
    object :=
      { cmdBuf := { len := 2, cap := 4, buf := fun _ => 0xEF },
        rowbuffer := { len := 96, cap := 96, buf := fun _ => 0x0141 },
        bus := some 0,
        lineClearMode := Display_LineClearMode.DISPLAY_CLEAR_NONE,
        mutex := true },
    trace := [] }

/-- The session of the worked instances on ClearBoth: the lock free, the policy ClearBoth. -/
def clearBothSession : Display_Handle :=
  { hwAttrs := { spiBus := 0, csPin := 5, backlightPin := 6, useBacklight := false },
    object :=
      { cmdBuf := { len := 2, cap := 4, buf := fun _ => 0xEF },
        rowbuffer := { len := 96, cap := 96, buf := fun _ => 0x0141 },
        bus := some 0,
        lineClearMode := Display_LineClearMode.DISPLAY_CLEAR_BOTH,
        mutex := true },
    trace := [] }

/-! ## Transaction buffer: lemmas -/

theorem Storage.write_same (m : Storage) (i v : Nat) : m.write i v i = v := by
  simp [Storage.write]

theorem Storage.write_other (m : Storage) (i v k : Nat) (h : k ≠ i) : m.write i v k = m k := by
  simp [Storage.write, h]

theorem Storage.words_length (m : Storage) (n : Nat) : (m.words n).length = n := by
  simp [Storage.words]

theorem pushWord_eq (tag d : Nat) (ht : tag < 256) (hd : d < 256) :
    pushWord tag d = (tag <<< 8) ||| d := by
  unfold pushWord
  have h1 : d % 65536 = d := Nat.mod_eq_of_lt (by omega)
  have h2 : tag % 65536 = tag := Nat.mod_eq_of_lt (by omega)
  rw [h1, h2, Nat.or_comm]
  apply Nat.mod_eq_of_lt
  have h3 : tag <<< 8 < 2 ^ 16 := by rw [Nat.shiftLeft_eq]; omega
  have h4 : d < 2 ^ 16 := by omega
  exact Nat.or_lt_two_pow h3 h4

/-- Invariant of the `while` loop of `spitxn_push`, entered with `i = buf->len <= buf->cap`. -/
theorem spitxn_push_loop_spec (tag : Nat) (data : List Nat) :
    ∀ (i c : Nat) (b : SpiTxn_buffer), b.len = i → i ≤ b.cap → b.cap < 4294967296 →
      (spitxn_push_loop tag data i c b).1 = c + min data.length (b.cap - i) ∧
      (spitxn_push_loop tag data i c b).2.len = i + min data.length (b.cap - i) ∧
      (spitxn_push_loop tag data i c b).2.cap = b.cap ∧
      (∀ k, k < i ∨ i + min data.length (b.cap - i) ≤ k →
        (spitxn_push_loop tag data i c b).2.buf k = b.buf k) ∧
      (∀ j, j < min data.length (b.cap - i) →
        (spitxn_push_loop tag data i c b).2.buf (i + j) = pushWord tag (data.getD j 0)) := by
  induction data with
  | nil =>
    intro i c b hlen _ _
    simp [spitxn_push_loop, hlen]
  | cons d rest ih =>
    intro i c b hlen hle hcap
    by_cases hfull : i = b.cap
    · have hg : ¬ ((b.cap + 4294967296 - i) % 4294967296 > 0) := by omega
      simp only [spitxn_push_loop, hg, if_false]
      subst hfull
      simp [hlen]
    · have hg : (b.cap + 4294967296 - i) % 4294967296 > 0 := by omega
      have hi : (i + 1) % 4294967296 = i + 1 := by omega
      have hl : (b.len + 1) % 4294967296 = i + 1 := by omega
      simp only [spitxn_push_loop, hg, if_true, hi, hl]
      obtain ⟨r1, r2, r3, r4, r5⟩ :=
        ih (i + 1) (c + 1) { b with buf := b.buf.write i (pushWord tag d), len := i + 1 }
          rfl (by show i + 1 ≤ b.cap; omega) hcap
      simp only at r1 r2 r3 r4 r5
      have hmin : min (rest.length + 1) (b.cap - i) = 1 + min rest.length (b.cap - (i + 1)) := by
        omega
      refine ⟨?_, ?_, r3, ?_, ?_⟩
      · rw [r1, List.length_cons, hmin]; omega
      · rw [r2, List.length_cons, hmin]; omega
      · intro k hk
        rw [List.length_cons, hmin] at hk
        rw [r4 k (by omega)]
        exact Storage.write_other _ _ _ _ (by omega)
      · intro j hj
        rw [List.length_cons, hmin] at hj
        cases j with
        | zero =>
          rw [r4 (i + 0) (by omega)]
          simp [Storage.write]
        | succ j =>
          have := r5 j (by omega)
          rw [show i + (j + 1) = i + 1 + j by omega, this]
          simp

/-- Invariant of the `while` loop of `spitxn_pop`, entered with `i = buf->len - 1` exactly. -/
theorem spitxn_pop_loop_spec :
    ∀ (n : Nat) (i : Int) (c : Nat) (b : SpiTxn_buffer), i = (b.len : Int) - 1 →
      b.len < 4294967296 →
      (spitxn_pop_loop n i c b).1 = c + min n b.len ∧
      (spitxn_pop_loop n i c b).2.len = b.len - min n b.len ∧
      (spitxn_pop_loop n i c b).2.cap = b.cap ∧
      (∀ k, (spitxn_pop_loop n i c b).2.buf k =
        if b.len - min n b.len ≤ k ∧ k < b.len then 0 else b.buf k) := by
  intro n
  induction n with
  | zero =>
    intro i c b _ _
    refine ⟨by simp [spitxn_pop_loop], by simp [spitxn_pop_loop], by simp [spitxn_pop_loop], ?_⟩
    intro k
    rw [if_neg (by omega)]
    simp [spitxn_pop_loop]
  | succ n ih =>
    intro i c b hi hlen
    by_cases hz : b.len = 0
    · have hg : ¬ (i > -1) := by omega
      simp [spitxn_pop_loop, hg, hz]
    · have hg : i > -1 := by omega
      have hl : (b.len + 4294967296 - 1) % 4294967296 = b.len - 1 := by omega
      have hn : i.toNat = b.len - 1 := by omega
      simp only [spitxn_pop_loop, hg, if_true, hl, hn]
      obtain ⟨r1, r2, r3, r4⟩ :=
        ih (i - 1) (c + 1) { b with buf := b.buf.write (b.len - 1) 0, len := b.len - 1 }
          (by show i - 1 = ((b.len - 1 : Nat) : Int) - 1; omega) (by show b.len - 1 < _; omega)
      simp only at r1 r2 r3 r4
      refine ⟨by rw [r1]; omega, by rw [r2]; omega, r3, ?_⟩
      intro k
      rw [r4 k]
      by_cases hk : k = b.len - 1
      · subst hk
        have h1 : b.len - min (n + 1) b.len ≤ b.len - 1 ∧ b.len - 1 < b.len := by omega
        rw [if_pos h1]
        simp [Storage.write]
      · rw [Storage.write_other _ _ _ _ hk]
        by_cases h2 : b.len - min (n + 1) b.len ≤ k ∧ k < b.len
        · rw [if_pos h2, if_pos (by omega)]
        · rw [if_neg h2, if_neg (by omega)]

/-- The conversion of `buf->len - 1` to `int32_t` is exact up to a length of `2^31`. -/
theorem toInt32_len_pred (len : Nat) (h : len ≤ 2147483648) :
    toInt32 ((len + 4294967296 - 1) % 4294967296) = (len : Int) - 1 := by
  unfold toInt32
  split <;> omega

/-- Contract of `spitxn_pop` on a buffer of at most `2^31` words. -/
theorem spitxn_pop_spec (b : SpiTxn_buffer) (n : Nat) (hcap : 0 < b.cap)
    (hlen : b.len ≤ 2147483648) :
    (spitxn_pop b n).1 = min n b.len ∧
    (spitxn_pop b n).2.len = b.len - min n b.len ∧
    (spitxn_pop b n).2.cap = b.cap ∧
    (∀ k, (spitxn_pop b n).2.buf k =
      if b.len - min n b.len ≤ k ∧ k < b.len then 0 else b.buf k) := by
  have h := spitxn_pop_loop_spec n _ 0 b (toInt32_len_pred b.len hlen) (by omega)
  simp only [spitxn_pop, hcap, if_true]
  simpa using h

/-- Invariant of the `for` loop of `spitxn_erase`. -/
theorem spitxn_erase_loop_spec (cap : Nat) :
    ∀ (d i : Nat) (m : Storage), cap - i = d →
      ∀ k, spitxn_erase_loop cap i m k = if i ≤ k ∧ k < cap then 0 else m k := by
  intro d
  induction d with
  | zero =>
    intro i m hd k
    rw [spitxn_erase_loop, if_neg (by omega), if_neg (by omega)]
  | succ d ih =>
    intro i m hd k
    rw [spitxn_erase_loop, if_pos (by omega), ih (i + 1) _ (by omega) k]
    by_cases hk : k = i
    · subst hk
      rw [if_neg (by omega), if_pos (by omega)]
      simp [Storage.write]
    · rw [Storage.write_other _ _ _ _ hk]
      by_cases h2 : i ≤ k ∧ k < cap
      · rw [if_pos h2, if_pos (by omega)]
      · rw [if_neg h2, if_neg (by omega)]

/-- A push of at most `cap` bytes into a buffer just reset: all of them are taken, and the
buffer then reads as the bytes, each composed with the tag. -/
theorem spitxn_push_reset_spec (b : SpiTxn_buffer) (tag : Nat) (data : List Nat)
    (hcap : 0 < b.cap) (hcap32 : b.cap < 4294967296) (hn : data.length ≤ b.cap) :
    (spitxn_push (spitxn_reset b) tag data).1 = data.length ∧
    (spitxn_push (spitxn_reset b) tag data).2.len = data.length ∧
    (spitxn_push (spitxn_reset b) tag data).2.cap = b.cap ∧
    (spitxn_push (spitxn_reset b) tag data).2.buf.words data.length =
      data.map (pushWord tag) := by
  have hp : spitxn_push (spitxn_reset b) tag data =
      spitxn_push_loop tag data 0 0 (spitxn_reset b) := by
    have h0 : (spitxn_reset b).cap > 0 := hcap
    simp only [spitxn_push, h0, if_true]
    rfl
  obtain ⟨r1, r2, r3, -, r5⟩ :=
    spitxn_push_loop_spec tag data 0 0 (spitxn_reset b) rfl (Nat.zero_le _) hcap32
  have hc : (spitxn_reset b).cap = b.cap := rfl
  rw [hc] at r1 r2 r3 r5
  rw [hp]
  refine ⟨by rw [r1]; omega, by rw [r2]; omega, r3, ?_⟩
  apply List.ext_getElem
  · simp [Storage.words]
  · intro j h1 h2
    have hj : j < data.length := by simpa [Storage.words] using h1
    have := r5 j (by omega)
    rw [Nat.zero_add] at this
    simp only [Storage.words, List.getElem_map, List.getElem_range]
    rw [this, List.getD_eq_getElem _ _ hj]

/-! ## Transaction buffer: contracts -/

/-- C1: on a buffer with capacity `C > 0` and length at most `C`, `spitxn_push` of `n` bytes
returns `min n (C - length)`, leaves the length at `min (length + n) C`, keeps the capacity,
changes no word outside the appended range (so none below the old length), and stores
`(tag << 8) | bytes[j]` at index `old length + j` for every `j` below the returned count. -/
theorem spitxn_push_contract (b : SpiTxn_buffer) (tag : Nat) (data : List Nat)
    (hcap : 0 < b.cap) (hcap32 : b.cap < 4294967296) (hlen : b.len ≤ b.cap)
    (htag : tag < 256) (hdata : ∀ d ∈ data, d < 256) :
    (spitxn_push b tag data).1 = min data.length (b.cap - b.len) ∧
    (spitxn_push b tag data).2.len = min (b.len + data.length) b.cap ∧
    (spitxn_push b tag data).2.cap = b.cap ∧
    (∀ k, k < b.len ∨ b.len + (spitxn_push b tag data).1 ≤ k →
      (spitxn_push b tag data).2.buf k = b.buf k) ∧
    (∀ j, j < (spitxn_push b tag data).1 →
      (spitxn_push b tag data).2.buf (b.len + j) = (tag <<< 8) ||| data.getD j 0) := by
  obtain ⟨r1, r2, r3, r4, r5⟩ := spitxn_push_loop_spec tag data b.len 0 b rfl hlen hcap32
  have hp : spitxn_push b tag data = spitxn_push_loop tag data b.len 0 b := by
    simp [spitxn_push, hcap]
  rw [hp]
  refine ⟨by rw [r1]; omega, by rw [r2]; omega, r3, ?_, ?_⟩
  · intro k hk
    rw [r1] at hk
    exact r4 k (by omega)
  · intro j hj
    rw [r1] at hj
    have hj2 : j < min data.length (b.cap - b.len) := by omega
    rw [r5 j hj2]
    have hjn : j < data.length := by omega
    apply pushWord_eq tag _ htag
    rw [List.getD_eq_getElem _ _ hjn]
    exact hdata _ (List.getElem_mem hjn)

/-- C1, at the scenario of the specification: six bytes pushed with tag 0 into an empty
buffer of capacity 4. -/
theorem spitxn_push_contract_witness :
    (0 < 4 ∧ 4 < 4294967296 ∧ 0 ≤ 4 ∧ 0 < 256 ∧ ∀ d ∈ [10, 11, 12, 13, 14, 15], d < 256) ∧
    (spitxn_push ⟨0, 4, fun _ => 0⟩ 0 [10, 11, 12, 13, 14, 15]).1 = min 6 (4 - 0) ∧
    (spitxn_push ⟨0, 4, fun _ => 0⟩ 0 [10, 11, 12, 13, 14, 15]).2.len = min (0 + 6) 4 :=
  have h := spitxn_push_contract ⟨0, 4, fun _ => 0⟩ 0 [10, 11, 12, 13, 14, 15]
    (by decide) (by decide) (by decide) (by decide) (by decide)
  ⟨by decide, h.1, h.2.1⟩

/-- C2: at a length above `2^31` the signed index of `spitxn_pop` starts negative, so a
request to remove one word from a buffer of `2^31 + 1` words returns 0 instead of
`min 1 length = 1` and leaves the length as it was. -/
theorem spitxn_pop_above_int32_removes_nothing :
    (spitxn_pop ⟨2147483649, 4294967295, fun _ => 7⟩ 1).1 = 0 ∧
    (spitxn_pop ⟨2147483649, 4294967295, fun _ => 7⟩ 1).1 ≠ min 1 2147483649 ∧
    (spitxn_pop ⟨2147483649, 4294967295, fun _ => 7⟩ 1).2.len = 2147483649 ∧
    (spitxn_pop ⟨2147483649, 4294967295, fun _ => 7⟩ 1).2.buf 2147483648 = 7 := by
  decide

/-- C3: whatever the buffer held, `spitxn_erase` leaves length 0, every slot at an index
below the capacity equal to 0, and the capacity as it was. -/
theorem spitxn_erase_contract (b : SpiTxn_buffer) :
    (spitxn_erase b).len = 0 ∧
    (∀ i, i < b.cap → (spitxn_erase b).buf i = 0) ∧
    (spitxn_erase b).cap = b.cap := by
  refine ⟨rfl, ?_, rfl⟩
  intro i hi
  have hcap : b.cap > 0 := by omega
  simp only [spitxn_erase, hcap, if_true]
  rw [spitxn_erase_loop_spec b.cap (b.cap - 0) 0 b.buf rfl i, if_pos (by omega)]

/-- C4: `spitxn_reset` leaves length 0 and keeps every storage slot and the capacity. -/
theorem spitxn_reset_contract (b : SpiTxn_buffer) :
    (spitxn_reset b).len = 0 ∧
    (∀ i, (spitxn_reset b).buf i = b.buf i) ∧
    (spitxn_reset b).cap = b.cap :=
  ⟨rfl, fun _ => rfl, rfl⟩

/-- C5: on a buffer of capacity 0, `spitxn_push` and `spitxn_pop` return 0 and leave the
buffer (length and storage) as it was. -/
theorem spitxn_zero_capacity (b : SpiTxn_buffer) (tag : Nat) (data : List Nat) (n : Nat)
    (hcap : b.cap = 0) :
    spitxn_push b tag data = (0, b) ∧ spitxn_pop b n = (0, b) := by
  simp [spitxn_push, spitxn_pop, hcap]

/-- C5, on an unconfigured buffer holding stale words. -/
theorem spitxn_zero_capacity_witness :
    (0 = 0) ∧
    (spitxn_push ⟨0, 0, fun _ => 7⟩ 1 [65, 66]).1 = 0 ∧
    (spitxn_pop ⟨0, 0, fun _ => 7⟩ 3).1 = 0 :=
  have h := spitxn_zero_capacity ⟨0, 0, fun _ => 7⟩ 1 [65, 66] 3 rfl
  ⟨rfl, congrArg Prod.fst h.1, congrArg Prod.fst h.2⟩

/-! ## Protocol engine: command issuance -/

theorem pushWord_zero_tag (c : Nat) (hc : c < 256) : pushWord 0 c = c := by
  rw [pushWord_eq 0 c (by omega) hc]
  simp

theorem cmd_byte_lt (cmd arg argmask : Nat) (hcmd : cmd < 256) (harg : arg < 256) :
    cmd ||| (arg &&& argmask) < 256 := by
  have h1 : cmd < 2 ^ 8 := by omega
  have h2 : arg &&& argmask < 2 ^ 8 := by
    have := @Nat.and_le_left arg argmask
    omega
  exact Nat.or_lt_two_pow h1 h2

/-- Effect of `ste2007_issuecmd` on a command buffer of usable capacity: the three events
it appends, and what it leaves alone. -/
theorem ste2007_issuecmd_spec (dpyH : Display_Handle) (cmd arg argmask : Nat)
    (hcap : 0 < dpyH.object.cmdBuf.cap) (hcap32 : dpyH.object.cmdBuf.cap < 4294967296) :
    (ste2007_issuecmd dpyH cmd arg argmask).trace =
      dpyH.trace ++ [Event.GPIO_write dpyH.hwAttrs.csPin 0,
        Event.SPI_transfer [pushWord 0 ((cmd ||| (arg &&& argmask)) % 256)],
        Event.GPIO_write dpyH.hwAttrs.csPin 1] ∧
    (ste2007_issuecmd dpyH cmd arg argmask).hwAttrs = dpyH.hwAttrs ∧
    (ste2007_issuecmd dpyH cmd arg argmask).object.cmdBuf.cap = dpyH.object.cmdBuf.cap ∧
    (ste2007_issuecmd dpyH cmd arg argmask).object.rowbuffer = dpyH.object.rowbuffer ∧
    (ste2007_issuecmd dpyH cmd arg argmask).object.mutex = dpyH.object.mutex := by
  have hm : dpyH.object.cmdBuf.cap % 4294967296 = dpyH.object.cmdBuf.cap :=
    Nat.mod_eq_of_lt hcap32
  simp [ste2007_issuecmd, ste2007_chipselect, GPIO_write, SPI_transfer, spitxn_push,
    spitxn_push_loop, spitxn_reset, hcap, hm, Storage.words, Storage.write, List.range_succ]

theorem cmdWord_eq (cmd arg argmask : Nat) (hcmd : cmd < 256) (harg : arg < 256) :
    pushWord 0 ((cmd ||| (arg &&& argmask)) % 256) = cmd ||| (arg &&& argmask) := by
  have h := cmd_byte_lt cmd arg argmask hcmd harg
  rw [Nat.mod_eq_of_lt h, pushWord_zero_tag _ h]

/-- Masking the argument before the call changes nothing: the command masks it again. -/
theorem ste2007_issuecmd_masked_arg (dpyH : Display_Handle) (cmd arg argmask : Nat) :
    ste2007_issuecmd dpyH cmd (arg &&& argmask) argmask =
      ste2007_issuecmd dpyH cmd arg argmask := by
  simp [ste2007_issuecmd, Nat.and_assoc]

/-- Effect of `ste2007_issue_compoundcmd` on a command buffer with room for two words. -/
theorem ste2007_issue_compoundcmd_spec (dpyH : Display_Handle) (cmd arg argmask : Nat)
    (hcap : 1 < dpyH.object.cmdBuf.cap) (hcap32 : dpyH.object.cmdBuf.cap < 4294967296) :
    (ste2007_issue_compoundcmd dpyH cmd arg argmask).trace =
      dpyH.trace ++ [Event.GPIO_write dpyH.hwAttrs.csPin 0,
        Event.SPI_transfer [pushWord 0 (cmd % 256), pushWord 0 ((arg &&& argmask) % 256)],
        Event.GPIO_write dpyH.hwAttrs.csPin 1] ∧
    (ste2007_issue_compoundcmd dpyH cmd arg argmask).hwAttrs = dpyH.hwAttrs ∧
    (ste2007_issue_compoundcmd dpyH cmd arg argmask).object.cmdBuf.cap =
      dpyH.object.cmdBuf.cap ∧
    (ste2007_issue_compoundcmd dpyH cmd arg argmask).object.rowbuffer =
      dpyH.object.rowbuffer ∧
    (ste2007_issue_compoundcmd dpyH cmd arg argmask).object.mutex = dpyH.object.mutex := by
  have hpos : 0 < dpyH.object.cmdBuf.cap := by omega
  obtain ⟨-, hl, hc, hw⟩ := spitxn_push_reset_spec dpyH.object.cmdBuf 0
    [cmd % 256, (arg &&& argmask) % 256] hpos hcap32 (by simp only [List.length]; omega)
  refine ⟨?_, rfl, hc, rfl, rfl⟩
  simp only [ste2007_issue_compoundcmd, ste2007_chipselect, GPIO_write, SPI_transfer, hl]
  rw [hw]
  simp

/-- C6: whatever the command buffer (capacity 4) holds and whatever its length,
`ste2007_issuecmd` appends exactly chip-select 0, one transfer of the single word
`cmd | (arg & argmask)`, chip-select 1; the high byte of that word is zero. -/
theorem ste2007_issuecmd_events (dpyH : Display_Handle) (cmd arg argmask : Nat)
    (hcmd : cmd < 256) (harg : arg < 256) (hcap : dpyH.object.cmdBuf.cap = 4) :
    (ste2007_issuecmd dpyH cmd arg argmask).trace =
      dpyH.trace ++ [Event.GPIO_write dpyH.hwAttrs.csPin 0,
        Event.SPI_transfer [cmd ||| (arg &&& argmask)],
        Event.GPIO_write dpyH.hwAttrs.csPin 1] ∧
    (cmd ||| (arg &&& argmask)) >>> 8 = 0 := by
  have h := (ste2007_issuecmd_spec dpyH cmd arg argmask (by omega) (by omega)).1
  rw [cmdWord_eq cmd arg argmask hcmd harg] at h
  refine ⟨h, ?_⟩
  have hlt := cmd_byte_lt cmd arg argmask hcmd harg
  rw [Nat.shiftRight_eq_div_pow]
  omega

/-- C6, at the scenario of the specification (base 0x80, mask 0x1F, argument 16), on a
command buffer that still holds the two words of a compound command. -/
theorem ste2007_issuecmd_events_witness :
    (0x80 < 256 ∧ 16 < 256 ∧ staleSession.object.cmdBuf.cap = 4) ∧
    (ste2007_issuecmd staleSession 0x80 16 0x1F).trace =
      staleSession.trace ++ [Event.GPIO_write staleSession.hwAttrs.csPin 0,
        Event.SPI_transfer [0x80 ||| (16 &&& 0x1F)],
        Event.GPIO_write staleSession.hwAttrs.csPin 1] ∧
    (0x80 ||| (16 &&& 0x1F)) >>> 8 = 0 :=
  ⟨by decide, ste2007_issuecmd_events staleSession 0x80 16 0x1F (by decide) (by decide) rfl⟩

/-- C7: whatever the command buffer (capacity 4) holds, `ste2007_issue_compoundcmd` appends
exactly one chip-select bracket around one transfer of two words, `cmd` itself and then
`arg & argmask`, each with a zero high byte. -/
theorem ste2007_issue_compoundcmd_events (dpyH : Display_Handle) (cmd arg argmask : Nat)
    (hcmd : cmd < 256) (harg : arg < 256) (hcap : dpyH.object.cmdBuf.cap = 4) :
    (ste2007_issue_compoundcmd dpyH cmd arg argmask).trace =
      dpyH.trace ++ [Event.GPIO_write dpyH.hwAttrs.csPin 0,
        Event.SPI_transfer [cmd, arg &&& argmask],
        Event.GPIO_write dpyH.hwAttrs.csPin 1] ∧
    cmd >>> 8 = 0 ∧ (arg &&& argmask) >>> 8 = 0 := by
  have h := (ste2007_issue_compoundcmd_spec dpyH cmd arg argmask (by omega) (by omega)).1
  have hlt : arg &&& argmask < 256 := by
    have := @Nat.and_le_left arg argmask
    omega
  rw [Nat.mod_eq_of_lt hcmd, Nat.mod_eq_of_lt hlt, pushWord_zero_tag _ hcmd,
    pushWord_zero_tag _ hlt] at h
  refine ⟨h, ?_, ?_⟩
  · rw [Nat.shiftRight_eq_div_pow]; omega
  · rw [Nat.shiftRight_eq_div_pow]; omega

/-- C7, at the scenario of the specification (base 0xEF, mask 0x03, argument 3). -/
theorem ste2007_issue_compoundcmd_events_witness :
    (0xEF < 256 ∧ 3 < 256 ∧ staleSession.object.cmdBuf.cap = 4) ∧
    (ste2007_issue_compoundcmd staleSession 0xEF 3 0x03).trace =
      staleSession.trace ++ [Event.GPIO_write staleSession.hwAttrs.csPin 0,
        Event.SPI_transfer [0xEF, 3 &&& 0x03],
        Event.GPIO_write staleSession.hwAttrs.csPin 1] ∧
    0xEF >>> 8 = 0 ∧ (3 &&& 0x03) >>> 8 = 0 :=
  ⟨by decide,
    ste2007_issue_compoundcmd_events staleSession 0xEF 3 0x03 (by decide) (by decide) rfl⟩

/-! ## Protocol engine: cursor addressing -/

/-- C8: `ste2007_setxy x y` is three simple commands in this order, line select with
argument `y`, column MSB with argument `x >> 4`, column LSB with argument `x & mask`, and
its events are three chip-select brackets, each around one transfer of one word:
`0xB0 | (y & 0x0F)`, `0x10 | ((x >> 4) & 0x07)`, `x & 0x0F`. -/
theorem ste2007_setxy_events (dpyH : Display_Handle) (x y : Nat)
    (hx : x < 256) (hy : y < 256) (hcap : dpyH.object.cmdBuf.cap = 4) :
    ste2007_setxy dpyH x y =
      ste2007_issuecmd
        (ste2007_issuecmd
          (ste2007_issuecmd dpyH STE2007_CMD_LINE y STE2007_MASK_LINE)
          STE2007_CMD_COLMSB (x >>> 4) STE2007_MASK_COLMSB)
        STE2007_CMD_COLLSB (x &&& STE2007_MASK_COLLSB) STE2007_MASK_COLLSB ∧
    (ste2007_setxy dpyH x y).trace =
      dpyH.trace ++ [
        Event.GPIO_write dpyH.hwAttrs.csPin 0,
        Event.SPI_transfer [0xB0 ||| (y &&& 0x0F)],
        Event.GPIO_write dpyH.hwAttrs.csPin 1,
        Event.GPIO_write dpyH.hwAttrs.csPin 0,
        Event.SPI_transfer [0x10 ||| ((x >>> 4) &&& 0x07)],
        Event.GPIO_write dpyH.hwAttrs.csPin 1,
        Event.GPIO_write dpyH.hwAttrs.csPin 0,
        Event.SPI_transfer [x &&& 0x0F],
        Event.GPIO_write dpyH.hwAttrs.csPin 1] := by
  have hx4 : x >>> 4 < 256 := by rw [Nat.shiftRight_eq_div_pow]; omega
  have hmod : (x >>> 4) % 256 = x >>> 4 := Nat.mod_eq_of_lt hx4
  have hdef : ste2007_setxy dpyH x y =
      ste2007_issuecmd
        (ste2007_issuecmd
          (ste2007_issuecmd dpyH STE2007_CMD_LINE y STE2007_MASK_LINE)
          STE2007_CMD_COLMSB (x >>> 4) STE2007_MASK_COLMSB)
        STE2007_CMD_COLLSB x STE2007_MASK_COLLSB := by
    simp only [ste2007_setxy, hmod]
  refine ⟨by rw [hdef, ste2007_issuecmd_masked_arg], ?_⟩
  rw [hdef]
  obtain ⟨t1, a1, c1, -, -⟩ :=
    ste2007_issuecmd_spec dpyH STE2007_CMD_LINE y STE2007_MASK_LINE (by omega) (by omega)
  obtain ⟨t2, a2, c2, -, -⟩ :=
    ste2007_issuecmd_spec (ste2007_issuecmd dpyH STE2007_CMD_LINE y STE2007_MASK_LINE)
      STE2007_CMD_COLMSB (x >>> 4) STE2007_MASK_COLMSB (by omega) (by omega)
  obtain ⟨t3, -, -, -, -⟩ :=
    ste2007_issuecmd_spec
      (ste2007_issuecmd (ste2007_issuecmd dpyH STE2007_CMD_LINE y STE2007_MASK_LINE)
        STE2007_CMD_COLMSB (x >>> 4) STE2007_MASK_COLMSB)
      STE2007_CMD_COLLSB x STE2007_MASK_COLLSB (by omega) (by omega)
  rw [t3, t2, t1, a2, a1,
    cmdWord_eq STE2007_CMD_LINE y STE2007_MASK_LINE (by decide) hy,
    cmdWord_eq STE2007_CMD_COLMSB (x >>> 4) STE2007_MASK_COLMSB (by decide) hx4,
    cmdWord_eq STE2007_CMD_COLLSB x STE2007_MASK_COLLSB (by decide) hx]
  simp [STE2007_CMD_LINE, STE2007_MASK_LINE, STE2007_CMD_COLMSB, STE2007_MASK_COLMSB,
    STE2007_CMD_COLLSB, STE2007_MASK_COLLSB]

/-- C8, at column 37 of line 5. -/
theorem ste2007_setxy_events_witness :
    (37 < 256 ∧ 5 < 256 ∧ staleSession.object.cmdBuf.cap = 4) ∧
    (ste2007_setxy staleSession 37 5).trace =
      staleSession.trace ++ [
        Event.GPIO_write staleSession.hwAttrs.csPin 0,
        Event.SPI_transfer [0xB0 ||| (5 &&& 0x0F)],
        Event.GPIO_write staleSession.hwAttrs.csPin 1,
        Event.GPIO_write staleSession.hwAttrs.csPin 0,
        Event.SPI_transfer [0x10 ||| ((37 >>> 4) &&& 0x07)],
        Event.GPIO_write staleSession.hwAttrs.csPin 1,
        Event.GPIO_write staleSession.hwAttrs.csPin 0,
        Event.SPI_transfer [37 &&& 0x0F],
        Event.GPIO_write staleSession.hwAttrs.csPin 1] :=
  ⟨by decide, (ste2007_setxy_events staleSession 37 5 (by decide) (by decide) rfl).2⟩

/-! ## Protocol engine: line clear -/

/-- With the semaphore available, `ste2007_clearLines` returns. -/
theorem ste2007_clearLines_returns (dpyH : Display_Handle) (start end_ : Nat)
    (h : dpyH.object.mutex = true) : (ste2007_clearLines dpyH start end_).isSome = true := by
  simp [ste2007_clearLines, SemaphoreP_pend, h]

/-- C10: with `end < start`, `ste2007_clearLines start end` yields the very result (trace
and session state) of `ste2007_clearLines start start`. -/
theorem ste2007_clearLines_end_before_start (dpyH : Display_Handle) (start end_ : Nat)
    (h : end_ < start) :
    ste2007_clearLines dpyH start end_ = ste2007_clearLines dpyH start start := by
  simp [ste2007_clearLines, h]

/-- C10, at the scenario of the specification: lines (5, 2) against (5, 5). -/
theorem ste2007_clearLines_end_before_start_witness :
    2 < 5 ∧ ste2007_clearLines staleSession 5 2 = ste2007_clearLines staleSession 5 5 ∧
    (ste2007_clearLines staleSession 5 2).isSome = true :=
  ⟨by decide, ste2007_clearLines_end_before_start staleSession 5 2 (by decide),
    ste2007_clearLines_returns staleSession 5 2 rfl⟩

/-! ## Protocol engine: bulk data write -/

/-- Invariant of the `while` loop of `ste2007_write`, entered with `ttl <= len`: with more
iterations allowed than bytes left, the loop ends, and what it hands to the transport is a
sequence of non-empty chunks of at most `cap` words whose concatenation is the rest of the
source, each byte composed with tag 1. -/
theorem ste2007_write_loop_spec (ubuf : List Nat) (hlen : ubuf.length < 65536) :
    ∀ (fuel ttl : Nat) (dpyH : Display_Handle),
      0 < dpyH.object.rowbuffer.cap → dpyH.object.rowbuffer.cap < 4294967296 →
      ttl ≤ ubuf.length → ubuf.length - ttl < fuel →
      ∃ (d' : Display_Handle) (chunks : List (List Nat)),
        ste2007_write_loop ubuf fuel ttl dpyH = some d' ∧
        d'.trace = dpyH.trace ++ chunks.map Event.SPI_transfer ∧
        chunks.flatten = (ubuf.drop ttl).map (pushWord 1) ∧
        (∀ c ∈ chunks, 0 < c.length ∧ c.length ≤ dpyH.object.rowbuffer.cap) ∧
        d'.hwAttrs = dpyH.hwAttrs ∧
        d'.object.cmdBuf = dpyH.object.cmdBuf ∧
        d'.object.mutex = dpyH.object.mutex ∧
        d'.object.rowbuffer.cap = dpyH.object.rowbuffer.cap := by
  intro fuel
  induction fuel with
  | zero =>
    intro ttl dpyH _ _ _ hf
    omega
  | succ fuel ih =>
    intro ttl dpyH hcap hcap32 httl hf
    by_cases hlt : ttl < ubuf.length
    · -- one more chunk
      let n := if ubuf.length - ttl > dpyH.object.rowbuffer.cap
        then dpyH.object.rowbuffer.cap else ubuf.length - ttl
      have hn1 : 0 < n := by
        show 0 < (if ubuf.length - ttl > dpyH.object.rowbuffer.cap
          then dpyH.object.rowbuffer.cap else ubuf.length - ttl)
        split <;> omega
      have hn2 : n ≤ dpyH.object.rowbuffer.cap := by
        show (if ubuf.length - ttl > dpyH.object.rowbuffer.cap
          then dpyH.object.rowbuffer.cap else ubuf.length - ttl) ≤ _
        split <;> omega
      have hn3 : n ≤ ubuf.length - ttl := by
        show (if ubuf.length - ttl > dpyH.object.rowbuffer.cap
          then dpyH.object.rowbuffer.cap else ubuf.length - ttl) ≤ _
        split <;> omega
      have hdl : ((ubuf.drop ttl).take n).length = n := by
        rw [List.length_take, List.length_drop]; omega
      obtain ⟨-, pl, pc, pw⟩ := spitxn_push_reset_spec dpyH.object.rowbuffer 1
        ((ubuf.drop ttl).take n) hcap hcap32 (by rw [hdl]; exact hn2)
      rw [hdl] at pl pw
      have hmod : (ttl + n) % 4294967296 = ttl + n := by omega
      obtain ⟨d', chunks, e1, e2, e3, e4, e5, e6, e7, e8⟩ :=
        ih (ttl + n)
          (SPI_transfer
            { dpyH with object := { dpyH.object with
                rowbuffer := (spitxn_push (spitxn_reset dpyH.object.rowbuffer) 1
                  ((ubuf.drop ttl).take n)).2 } }
            n (spitxn_push (spitxn_reset dpyH.object.rowbuffer) 1
                  ((ubuf.drop ttl).take n)).2.buf)
          (by show 0 < (spitxn_push _ _ _).2.cap; rw [pc]; exact hcap)
          (by show (spitxn_push _ _ _).2.cap < _; rw [pc]; exact hcap32)
          (by omega) (by omega)
      have hstep : ste2007_write_loop ubuf (fuel + 1) ttl dpyH =
          ste2007_write_loop ubuf fuel
            ((ttl + (spitxn_push (spitxn_reset dpyH.object.rowbuffer) 1
              ((ubuf.drop ttl).take n)).2.len) % 4294967296)
            (SPI_transfer
              { dpyH with object := { dpyH.object with
                  rowbuffer := (spitxn_push (spitxn_reset dpyH.object.rowbuffer) 1
                    ((ubuf.drop ttl).take n)).2 } }
              (spitxn_push (spitxn_reset dpyH.object.rowbuffer) 1
                ((ubuf.drop ttl).take n)).2.len
              (spitxn_push (spitxn_reset dpyH.object.rowbuffer) 1
                ((ubuf.drop ttl).take n)).2.buf) := by
        simp only [ste2007_write_loop, hlt, if_true]
        rfl
      have hrun : ste2007_write_loop ubuf (fuel + 1) ttl dpyH = some d' := by
        rw [hstep, pl, hmod]
        exact e1
      refine ⟨d', ((ubuf.drop ttl).take n).map (pushWord 1) :: chunks, hrun, ?_, ?_, ?_,
        e5, e6, e7, ?_⟩
      · rw [e2]
        simp only [SPI_transfer, pw, List.map_cons, List.append_assoc, List.singleton_append]
      · rw [List.flatten_cons, e3, ← List.map_append]
        congr 1
        rw [← List.drop_drop]
        exact List.take_append_drop n (ubuf.drop ttl)
      · intro c hc
        rcases List.mem_cons.mp hc with h | h
        · subst h
          rw [List.length_map, hdl]
          exact ⟨hn1, hn2⟩
        · have := e4 c h
          have hc2 : (spitxn_push (spitxn_reset dpyH.object.rowbuffer) 1
              ((ubuf.drop ttl).take n)).2.cap = dpyH.object.rowbuffer.cap := pc
          simp only [SPI_transfer] at this
          rw [hc2] at this
          exact this
      · rw [e8]
        exact pc
    · -- nothing left
      refine ⟨dpyH, [], ?_, by simp, ?_, by simp, rfl, rfl, rfl, rfl⟩
      · simp [ste2007_write_loop, hlt]
      · have : ubuf.drop ttl = [] := List.drop_eq_nil_of_le (by omega)
        simp [this]

/-- C9: on a row buffer of capacity `cap > 0`, `ste2007_write` of `len < 65536` bytes
returns once it is allowed more than `len` iterations; the events it appends are transfers
only (no chip-select event), each of at most `cap` words, and the words transferred, in
call order, are the source bytes in order, each as `0x0100 | byte`. -/
theorem ste2007_write_streams_all (fuel : Nat) (dpyH : Display_Handle) (buf : List Nat)
    (hcap : 0 < dpyH.object.rowbuffer.cap) (hcap32 : dpyH.object.rowbuffer.cap < 4294967296)
    (hlen : buf.length < 65536) (hbytes : ∀ d ∈ buf, d < 256) (hfuel : buf.length < fuel) :
    ∃ (d' : Display_Handle) (chunks : List (List Nat)),
      ste2007_write fuel dpyH buf = some d' ∧
      d'.trace = dpyH.trace ++ chunks.map Event.SPI_transfer ∧
      chunks.flatten = buf.map (fun d => 0x0100 ||| d) ∧
      (∀ c ∈ chunks, c.length ≤ dpyH.object.rowbuffer.cap) ∧
      (∀ e ∈ chunks.map Event.SPI_transfer, ∀ index value, e ≠ Event.GPIO_write index value) := by
  obtain ⟨d', chunks, e1, e2, e3, e4, -⟩ :=
    ste2007_write_loop_spec buf hlen fuel 0 dpyH hcap hcap32 (Nat.zero_le _) (by omega)
  refine ⟨d', chunks, e1, e2, ?_, fun c hc => (e4 c hc).2, ?_⟩
  swap
  · intro e he index value
    obtain ⟨c, -, rfl⟩ := List.mem_map.mp he
    simp
  rw [e3, List.drop_zero]
  apply List.map_congr_left
  intro d hd
  rw [pushWord_eq 1 d (by omega) (hbytes d hd)]
  rfl

/-- C9, at a write of 200 bytes through the 96-word row buffer (three chunks). -/
theorem ste2007_write_streams_all_witness :
    (0 < staleSession.object.rowbuffer.cap ∧ staleSession.object.rowbuffer.cap < 4294967296 ∧
      (List.range 200).length < 65536 ∧ (∀ d ∈ List.range 200, d < 256) ∧
      (List.range 200).length < 201) ∧
    ∃ (d' : Display_Handle) (chunks : List (List Nat)),
      ste2007_write 201 staleSession (List.range 200) = some d' ∧
      d'.trace = staleSession.trace ++ chunks.map Event.SPI_transfer ∧
      chunks.flatten = (List.range 200).map (fun d => 0x0100 ||| d) ∧
      (∀ c ∈ chunks, c.length ≤ staleSession.object.rowbuffer.cap) ∧
      (∀ e ∈ chunks.map Event.SPI_transfer, ∀ index value, e ≠ Event.GPIO_write index value) :=
  have h1 : 0 < staleSession.object.rowbuffer.cap := by decide
  have h2 : staleSession.object.rowbuffer.cap < 4294967296 := by decide
  have h3 : (List.range 200).length < 65536 := by simp
  have h4 : ∀ d ∈ List.range 200, d < 256 := by
    intro d hd
    have := List.mem_range.mp hd
    omega
  have h5 : (List.range 200).length < 201 := by simp
  ⟨⟨h1, h2, h3, h4, h5⟩,
    ste2007_write_streams_all 201 staleSession (List.range 200) h1 h2 h3 h4 h5⟩

/-! ## Protocol engine: frames of the building blocks -/

theorem Emits.refl (d : Display_Handle) : Emits d d [] :=
  ⟨by simp, rfl, rfl, rfl, rfl, rfl⟩

theorem Emits.trans {a b c : Display_Handle} {e1 e2 : List Event}
    (h1 : Emits a b e1) (h2 : Emits b c e2) : Emits a c (e1 ++ e2) := by
  obtain ⟨t1, a1, c1, r1, l1, b1⟩ := h1
  obtain ⟨t2, a2, c2, r2, l2, b2⟩ := h2
  exact ⟨by rw [t2, t1, List.append_assoc], a2.trans a1, c2.trans c1, r2.trans r1,
    l2.trans l1, b2.trans b1⟩

theorem ste2007_chipselect_emits (d : Display_Handle) (onoff : Nat) :
    Emits d (ste2007_chipselect d onoff) [Event.GPIO_write d.hwAttrs.csPin onoff] ∧
    (ste2007_chipselect d onoff).object = d.object :=
  ⟨⟨rfl, rfl, rfl, rfl, rfl, rfl⟩, rfl⟩

theorem SPI_transfer_emits (d : Display_Handle) (count : Nat) (txBuf : Storage) :
    Emits d (SPI_transfer d count txBuf) [Event.SPI_transfer (txBuf.words count)] ∧
    (SPI_transfer d count txBuf).object = d.object :=
  ⟨⟨rfl, rfl, rfl, rfl, rfl, rfl⟩, rfl⟩

theorem ste2007_issuecmd_emits (d : Display_Handle) (cmd arg argmask : Nat)
    (hcmd : cmd < 256) (harg : arg < 256) (hcap : d.object.cmdBuf.cap = 4) :
    Emits d (ste2007_issuecmd d cmd arg argmask)
      (simpleCommand d.hwAttrs.csPin (cmd ||| (arg &&& argmask))) ∧
    (ste2007_issuecmd d cmd arg argmask).object.rowbuffer = d.object.rowbuffer := by
  obtain ⟨t, a, c, r, m⟩ := ste2007_issuecmd_spec d cmd arg argmask (by omega) (by omega)
  rw [cmdWord_eq cmd arg argmask hcmd harg] at t
  exact ⟨⟨t, a, c, congrArg SpiTxn_buffer.cap r, rfl, rfl⟩, r⟩

theorem ste2007_issue_compoundcmd_emits (d : Display_Handle) (cmd arg argmask : Nat)
    (hcmd : cmd < 256) (harg : arg < 256) (hcap : d.object.cmdBuf.cap = 4) :
    Emits d (ste2007_issue_compoundcmd d cmd arg argmask)
      (compoundCommand d.hwAttrs.csPin cmd (arg &&& argmask)) ∧
    (ste2007_issue_compoundcmd d cmd arg argmask).object.rowbuffer = d.object.rowbuffer := by
  obtain ⟨t, a, c, r, m⟩ :=
    ste2007_issue_compoundcmd_spec d cmd arg argmask (by omega) (by omega)
  have hlt : arg &&& argmask < 256 := by
    have := @Nat.and_le_left arg argmask
    omega
  rw [Nat.mod_eq_of_lt hcmd, Nat.mod_eq_of_lt hlt, pushWord_zero_tag _ hcmd,
    pushWord_zero_tag _ hlt] at t
  exact ⟨⟨t, a, c, congrArg SpiTxn_buffer.cap r, rfl, rfl⟩, r⟩

theorem ste2007_setxy_emits (d : Display_Handle) (x y : Nat)
    (hx : x < 256) (hy : y < 256) (hcap : d.object.cmdBuf.cap = 4) :
    Emits d (ste2007_setxy d x y) (cursorSequence d.hwAttrs.csPin x y) ∧
    (ste2007_setxy d x y).object.rowbuffer = d.object.rowbuffer := by
  have hx4 : x >>> 4 < 256 := by rw [Nat.shiftRight_eq_div_pow]; omega
  have hmod : (x >>> 4) % 256 = x >>> 4 := Nat.mod_eq_of_lt hx4
  obtain ⟨e1, r1⟩ := ste2007_issuecmd_emits d STE2007_CMD_LINE y STE2007_MASK_LINE
    (by decide) hy hcap
  obtain ⟨e2, r2⟩ := ste2007_issuecmd_emits
    (ste2007_issuecmd d STE2007_CMD_LINE y STE2007_MASK_LINE)
    STE2007_CMD_COLMSB (x >>> 4) STE2007_MASK_COLMSB (by decide) hx4 (e1.2.2.1.trans hcap)
  obtain ⟨e3, r3⟩ := ste2007_issuecmd_emits
    (ste2007_issuecmd (ste2007_issuecmd d STE2007_CMD_LINE y STE2007_MASK_LINE)
      STE2007_CMD_COLMSB (x >>> 4) STE2007_MASK_COLMSB)
    STE2007_CMD_COLLSB x STE2007_MASK_COLLSB (by decide) hx
    ((e2.2.2.1.trans e1.2.2.1).trans hcap)
  have hdef : ste2007_setxy d x y =
      ste2007_issuecmd
        (ste2007_issuecmd (ste2007_issuecmd d STE2007_CMD_LINE y STE2007_MASK_LINE)
          STE2007_CMD_COLMSB (x >>> 4) STE2007_MASK_COLMSB)
        STE2007_CMD_COLLSB x STE2007_MASK_COLLSB := by
    simp only [ste2007_setxy, hmod]
  rw [hdef]
  rw [e2.2.1, e1.2.1] at e3
  rw [e1.2.1] at e2
  have h := (e1.trans e2).trans e3
  refine ⟨?_, (r3.trans r2).trans r1⟩
  have hs : cursorSequence d.hwAttrs.csPin x y =
      simpleCommand d.hwAttrs.csPin (STE2007_CMD_LINE ||| (y &&& STE2007_MASK_LINE)) ++
      simpleCommand d.hwAttrs.csPin (STE2007_CMD_COLMSB ||| ((x >>> 4) &&& STE2007_MASK_COLMSB)) ++
      simpleCommand d.hwAttrs.csPin (STE2007_CMD_COLLSB ||| (x &&& STE2007_MASK_COLLSB)) := by
    simp [cursorSequence, STE2007_CMD_LINE, STE2007_MASK_LINE, STE2007_CMD_COLMSB,
      STE2007_MASK_COLMSB, STE2007_CMD_COLLSB, STE2007_MASK_COLLSB]
  rw [hs]
  exact h

theorem Emits.issuecmd {a d : Display_Handle} {e : List Event} (h : Emits a d e)
    (hcap : a.object.cmdBuf.cap = 4) (cmd arg argmask : Nat) (hcmd : cmd < 256)
    (harg : arg < 256) :
    Emits a (ste2007_issuecmd d cmd arg argmask)
      (e ++ simpleCommand a.hwAttrs.csPin (cmd ||| (arg &&& argmask))) := by
  have h2 := (ste2007_issuecmd_emits d cmd arg argmask hcmd harg (h.2.2.1.trans hcap)).1
  rw [h.2.1] at h2
  exact h.trans h2

theorem Emits.compoundcmd {a d : Display_Handle} {e : List Event} (h : Emits a d e)
    (hcap : a.object.cmdBuf.cap = 4) (cmd arg argmask : Nat) (hcmd : cmd < 256)
    (harg : arg < 256) :
    Emits a (ste2007_issue_compoundcmd d cmd arg argmask)
      (e ++ compoundCommand a.hwAttrs.csPin cmd (arg &&& argmask)) := by
  have h2 := (ste2007_issue_compoundcmd_emits d cmd arg argmask hcmd harg
    (h.2.2.1.trans hcap)).1
  rw [h.2.1] at h2
  exact h.trans h2

theorem Emits.setxy {a d : Display_Handle} {e : List Event} (h : Emits a d e)
    (hcap : a.object.cmdBuf.cap = 4) (x y : Nat) (hx : x < 256) (hy : y < 256) :
    Emits a (ste2007_setxy d x y) (e ++ cursorSequence a.hwAttrs.csPin x y) := by
  have h2 := (ste2007_setxy_emits d x y hx hy (h.2.2.1.trans hcap)).1
  rw [h.2.1] at h2
  exact h.trans h2

theorem Emits.chipselect {a d : Display_Handle} {e : List Event} (h : Emits a d e)
    (onoff : Nat) :
    Emits a (ste2007_chipselect d onoff) (e ++ [Event.GPIO_write a.hwAttrs.csPin onoff]) := by
  have h2 := (ste2007_chipselect_emits d onoff).1
  rw [h.2.1] at h2
  exact h.trans h2

theorem Emits.post {a d : Display_Handle} {e : List Event} (h : Emits a d e) :
    Emits a (SemaphoreP_post d) (e ++ [Event.SemaphoreP_post]) :=
  h.trans ⟨rfl, rfl, rfl, rfl, rfl, rfl⟩

theorem Emits.pend {a d : Display_Handle} {e : List Event} (h : Emits a d e)
    (hm : d.object.mutex = true) :
    ∃ d', SemaphoreP_pend d = some d' ∧ Emits a d' (e ++ [Event.SemaphoreP_pend]) ∧
      d'.object.mutex = false ∧ d'.object.cmdBuf = d.object.cmdBuf ∧
      d'.object.rowbuffer = d.object.rowbuffer := by
  refine ⟨{ d with object := { d.object with mutex := false },
                   trace := d.trace ++ [Event.SemaphoreP_pend] },
    by simp only [SemaphoreP_pend, hm, if_true], ?_, rfl, rfl, rfl⟩
  exact h.trans ⟨rfl, rfl, rfl, rfl, rfl, rfl⟩

/-! ## Protocol engine: full clear and line clear -/

/-- Invariant of the loop that fills `_rowBuf` with `0x0100`. -/
theorem ste2007_blankRow_loop_spec :
    ∀ (d i : Nat) (m : Storage), 96 - i = d →
      ∀ k, ste2007_blankRow_loop i m k = if i ≤ k ∧ k < 96 then 0x0100 else m k := by
  intro d
  induction d with
  | zero =>
    intro i m hd k
    rw [ste2007_blankRow_loop, if_neg (by omega), if_neg (by omega)]
  | succ d ih =>
    intro i m hd k
    rw [ste2007_blankRow_loop, if_pos (by omega), ih (i + 1) _ (by omega) k]
    by_cases hk : k = i
    · subst hk
      rw [if_neg (by omega), if_pos (by omega)]
      simp [Storage.write]
    · rw [Storage.write_other _ _ _ _ hk]
      by_cases h2 : i ≤ k ∧ k < 96
      · rw [if_pos h2, if_pos (by omega)]
      · rw [if_neg h2, if_neg (by omega)]

theorem ste2007_blankRow_words (m : Storage) :
    (ste2007_blankRow_loop 0 m).words 96 = blankRow := by
  unfold blankRow
  rw [List.eq_replicate_iff]
  refine ⟨by simp [Storage.words], ?_⟩
  intro b hb
  simp only [Storage.words, List.mem_map, List.mem_range] at hb
  obtain ⟨k, hk, rfl⟩ := hb
  rw [ste2007_blankRow_loop_spec 96 0 m rfl k, if_pos ⟨Nat.zero_le _, hk⟩]

/-- Invariant of the loop of `ste2007_clear` that repeats the row transfer. -/
theorem ste2007_clear_loop_spec (count : Nat) :
    ∀ (k i : Nat) (d : Display_Handle), 9 - i = k →
      Emits d (ste2007_clear_loop count i d)
        (List.replicate k (Event.SPI_transfer (d.object.rowbuffer.buf.words count))) ∧
      (ste2007_clear_loop count i d).object = d.object := by
  intro k
  induction k with
  | zero =>
    intro i d hk
    rw [ste2007_clear_loop, if_neg (by omega)]
    exact ⟨Emits.refl d, rfl⟩
  | succ k ih =>
    intro i d hk
    rw [ste2007_clear_loop, if_pos (by omega)]
    obtain ⟨e1, o1⟩ := SPI_transfer_emits d count d.object.rowbuffer.buf
    obtain ⟨e2, o2⟩ := ih (i + 1) (SPI_transfer d count d.object.rowbuffer.buf) (by omega)
    rw [o1] at e2
    exact ⟨e1.trans e2, o2.trans o1⟩

/-- Invariant of the loop of `ste2007_clearLines`, for lines that fit a `uint8_t`. -/
theorem ste2007_clearLines_loop_spec (count end_ : Nat) (hend : end_ < 256) :
    ∀ (k i : Nat) (d : Display_Handle), end_ + 1 - i = k → d.object.cmdBuf.cap = 4 →
      Emits d (ste2007_clearLines_loop count end_ i d)
        ((List.range' i k).flatMap (fun line =>
          cursorSequence d.hwAttrs.csPin 0 line ++
          [Event.GPIO_write d.hwAttrs.csPin 0,
           Event.SPI_transfer (d.object.rowbuffer.buf.words count),
           Event.GPIO_write d.hwAttrs.csPin 1])) ∧
      (ste2007_clearLines_loop count end_ i d).object.rowbuffer = d.object.rowbuffer := by
  intro k
  induction k with
  | zero =>
    intro i d hk _
    rw [ste2007_clearLines_loop, if_neg (by omega)]
    exact ⟨Emits.refl d, rfl⟩
  | succ k ih =>
    intro i d hk hcap
    rw [ste2007_clearLines_loop, if_pos (by omega)]
    have hi : i % 256 = i := Nat.mod_eq_of_lt (by omega)
    simp only [hi]
    obtain ⟨e1, r1⟩ := ste2007_setxy_emits d 0 i (by omega) (by omega) hcap
    obtain ⟨e2, o2⟩ := ste2007_chipselect_emits (ste2007_setxy d 0 i) 0
    obtain ⟨e3, o3⟩ := SPI_transfer_emits (ste2007_chipselect (ste2007_setxy d 0 i) 0) count
      (ste2007_chipselect (ste2007_setxy d 0 i) 0).object.rowbuffer.buf
    obtain ⟨e4, o4⟩ := ste2007_chipselect_emits
      (SPI_transfer (ste2007_chipselect (ste2007_setxy d 0 i) 0) count
        (ste2007_chipselect (ste2007_setxy d 0 i) 0).object.rowbuffer.buf) 1
    have e14 := ((e1.trans e2).trans e3).trans e4
    obtain ⟨e5, r5⟩ := ih (i + 1) _ (by omega) (e14.2.2.1.trans hcap)
    have hrow : (ste2007_chipselect
        (SPI_transfer (ste2007_chipselect (ste2007_setxy d 0 i) 0) count
          (ste2007_chipselect (ste2007_setxy d 0 i) 0).object.rowbuffer.buf) 1).object.rowbuffer
        = d.object.rowbuffer := by
      rw [o4, o3, o2, r1]
    rw [e14.2.1, hrow] at e5
    have h := e14.trans e5
    refine ⟨?_, r5.trans hrow⟩
    rw [List.range'_succ, List.flatMap_cons]
    have hw : (ste2007_chipselect (ste2007_setxy d 0 i) 0).object.rowbuffer.buf =
        d.object.rowbuffer.buf := by rw [o2, r1]
    have hp1 : (ste2007_setxy d 0 i).hwAttrs.csPin = d.hwAttrs.csPin := by rw [e1.2.1]
    have hp2 : (SPI_transfer (ste2007_chipselect (ste2007_setxy d 0 i) 0) count
        (ste2007_chipselect (ste2007_setxy d 0 i) 0).object.rowbuffer.buf).hwAttrs.csPin =
        d.hwAttrs.csPin := by rw [(e1.trans e2).trans e3 |>.2.1]
    rw [hp2, hp1, hw] at h
    simpa [List.append_assoc] using h

/-- The state in which `ste2007_clear` and `ste2007_clearLines` start their transfers: the
semaphore taken, `_rowBuf` filled with `0x0100` and the row buffer's length set to 96. -/
theorem ste2007_clear_prologue (dpyH d1 : Display_Handle)
    (h1 : d1 = { hwAttrs := dpyH.hwAttrs,
                 object := { dpyH.object with
                   mutex := false,
                   rowbuffer := { dpyH.object.rowbuffer with
                     buf := ste2007_blankRow_loop 0 dpyH.object.rowbuffer.buf, len := 16 * 6 } },
                 trace := dpyH.trace ++ [Event.SemaphoreP_pend] }) :
    d1.trace = dpyH.trace ++ [Event.SemaphoreP_pend] ∧ d1.hwAttrs = dpyH.hwAttrs ∧
    d1.object.cmdBuf = dpyH.object.cmdBuf ∧ d1.object.rowbuffer.len = 96 ∧
    d1.object.rowbuffer.cap = dpyH.object.rowbuffer.cap ∧
    d1.object.rowbuffer.buf.words 96 = blankRow ∧
    (∀ i, i < 96 → d1.object.rowbuffer.buf i = 0x0100) ∧
    d1.object.lineClearMode = dpyH.object.lineClearMode ∧ d1.object.bus = dpyH.object.bus := by
  subst h1
  refine ⟨rfl, rfl, rfl, rfl, rfl, ste2007_blankRow_words _, ?_, rfl, rfl⟩
  intro i hi
  show ste2007_blankRow_loop 0 dpyH.object.rowbuffer.buf i = 0x0100
  rw [ste2007_blankRow_loop_spec 96 0 _ rfl i, if_pos ⟨Nat.zero_le _, hi⟩]

theorem ste2007_clearLines_unfold (dpyH : Display_Handle) (start end_ : Nat)
    (hmutex : dpyH.object.mutex = true) :
    ∃ d1, RowBlanked dpyH d1 ∧
      ste2007_clearLines dpyH start end_ =
        some (SemaphoreP_post (ste2007_clearLines_loop 96
          (if end_ < start then start else end_) start d1)) := by
  refine ⟨_, ste2007_clear_prologue dpyH _ rfl, ?_⟩
  simp only [ste2007_clearLines, SemaphoreP_pend, hmutex, if_true]

theorem ste2007_clear_unfold (dpyH : Display_Handle) (hmutex : dpyH.object.mutex = true) :
    ∃ d1, RowBlanked dpyH d1 ∧
      ste2007_clear dpyH =
        some (SemaphoreP_post (ste2007_chipselect
          (ste2007_clear_loop 96 0 (ste2007_chipselect (ste2007_setxy d1 0 0) 0)) 1)) := by
  refine ⟨_, ste2007_clear_prologue dpyH _ rfl, ?_⟩
  simp only [ste2007_clear, SemaphoreP_pend, hmutex, if_true]

theorem lineClearEvents_count (csPin : Nat) (l : List Nat) :
    List.count (Event.SPI_transfer blankRow) (l.flatMap (lineClearEvents csPin)) = l.length := by
  induction l with
  | nil => simp
  | cons a l ih =>
    rw [List.flatMap_cons, List.count_append, ih]
    have h1 : List.count (Event.SPI_transfer blankRow) (lineClearEvents csPin a) = 1 := by
      simp [lineClearEvents, cursorSequence, simpleCommand, blankRow, List.count_cons,
        List.replicate]
    rw [h1, List.length_cons]
    omega

/-- C11: for `start <= end <= 255` and the lock free, `ste2007_clearLines start end`
returns, and between taking and releasing the lock its events are, for each line from
`start` to `end` in increasing order, the cursor sequence for `(0, line)` followed by one
chip-select bracket around one transfer of one blank row (96 words `0x0100`); the blank row
is transferred exactly `end - start + 1` times. -/
theorem ste2007_clearLines_trace (dpyH : Display_Handle) (start end_ : Nat)
    (hse : start ≤ end_) (hend : end_ < 256) (hmutex : dpyH.object.mutex = true)
    (hcap : dpyH.object.cmdBuf.cap = 4) :
    ∃ d', ste2007_clearLines dpyH start end_ = some d' ∧
      d'.trace = dpyH.trace ++ [Event.SemaphoreP_pend] ++
        (List.range' start (end_ - start + 1)).flatMap (lineClearEvents dpyH.hwAttrs.csPin) ++
        [Event.SemaphoreP_post] ∧
      List.count (Event.SPI_transfer blankRow)
        ((List.range' start (end_ - start + 1)).flatMap (lineClearEvents dpyH.hwAttrs.csPin))
        = end_ - start + 1 := by
  obtain ⟨d1, ⟨p1, p2, p3, -, -, p6, -⟩, heq⟩ := ste2007_clearLines_unfold dpyH start end_ hmutex
  have hnot : ¬ end_ < start := by omega
  rw [if_neg hnot] at heq
  obtain ⟨e, -⟩ := ste2007_clearLines_loop_spec 96 end_ hend (end_ - start + 1) start d1
    (by omega) ((congrArg SpiTxn_buffer.cap p3).trans hcap)
  rw [p6, p2] at e
  refine ⟨_, heq, ?_, ?_⟩
  · show (ste2007_clearLines_loop 96 end_ start d1).trace ++ [Event.SemaphoreP_post] = _
    rw [e.1, p1]
    rfl
  · rw [lineClearEvents_count]
    simp

/-- C11, for lines 7 to 8 of the session of the worked instances. -/
theorem ste2007_clearLines_trace_witness :
    (7 ≤ 8 ∧ 8 < 256 ∧ staleSession.object.mutex = true ∧ staleSession.object.cmdBuf.cap = 4) ∧
    ∃ d', ste2007_clearLines staleSession 7 8 = some d' ∧
      d'.trace = staleSession.trace ++ [Event.SemaphoreP_pend] ++
        (List.range' 7 (8 - 7 + 1)).flatMap (lineClearEvents staleSession.hwAttrs.csPin) ++
        [Event.SemaphoreP_post] ∧
      List.count (Event.SPI_transfer blankRow)
        ((List.range' 7 (8 - 7 + 1)).flatMap (lineClearEvents staleSession.hwAttrs.csPin))
        = 8 - 7 + 1 :=
  ⟨by decide, ste2007_clearLines_trace staleSession 7 8 (by decide) (by decide) rfl rfl⟩

/-- Effect of `ste2007_clear` called with the semaphore available. -/
theorem ste2007_clear_spec (dpyH : Display_Handle) (hmutex : dpyH.object.mutex = true)
    (hcap : dpyH.object.cmdBuf.cap = 4) :
    ∃ d', ste2007_clear dpyH = some d' ∧
      Emits dpyH d' ([Event.SemaphoreP_pend] ++
        cursorSequence dpyH.hwAttrs.csPin 0 0 ++
        [Event.GPIO_write dpyH.hwAttrs.csPin 0] ++
        List.replicate 9 (Event.SPI_transfer blankRow) ++
        [Event.GPIO_write dpyH.hwAttrs.csPin 1] ++ [Event.SemaphoreP_post]) ∧
      d'.object.mutex = true ∧
      d'.object.rowbuffer.len = 96 ∧
      (∀ i, i < 96 → d'.object.rowbuffer.buf i = 0x0100) := by
  obtain ⟨d1, ⟨p1, p2, p3, p4, p5, p6, p7, p8, p9⟩, heq⟩ := ste2007_clear_unfold dpyH hmutex
  have hpro : Emits dpyH d1 [Event.SemaphoreP_pend] :=
    ⟨p1, p2, congrArg SpiTxn_buffer.cap p3, p5, p8, p9⟩
  obtain ⟨e1, r1⟩ := ste2007_setxy_emits d1 0 0 (by decide) (by decide)
    ((congrArg SpiTxn_buffer.cap p3).trans hcap)
  obtain ⟨e2, o2⟩ := ste2007_chipselect_emits (ste2007_setxy d1 0 0) 0
  obtain ⟨e3, o3⟩ := ste2007_clear_loop_spec 96 9 0 (ste2007_chipselect (ste2007_setxy d1 0 0) 0)
    rfl
  obtain ⟨e4, o4⟩ := ste2007_chipselect_emits
    (ste2007_clear_loop 96 0 (ste2007_chipselect (ste2007_setxy d1 0 0) 0)) 1
  have hrow : (ste2007_chipselect
      (ste2007_clear_loop 96 0 (ste2007_chipselect (ste2007_setxy d1 0 0) 0)) 1).object.rowbuffer
      = d1.object.rowbuffer := by
    rw [o4, o3, o2, r1]
  have hp3 : (ste2007_clear_loop 96 0 (ste2007_chipselect (ste2007_setxy d1 0 0) 0)).hwAttrs
      = dpyH.hwAttrs := by rw [((e1.trans e2).trans e3).2.1, p2]
  have hp1 : (ste2007_setxy d1 0 0).hwAttrs = dpyH.hwAttrs := by rw [e1.2.1, p2]
  have hw : (ste2007_chipselect (ste2007_setxy d1 0 0) 0).object.rowbuffer.buf.words 96
      = blankRow := by rw [o2, r1, p6]
  have h := (((e1.trans e2).trans e3).trans e4).post
  rw [hp3, hp1, hw, p2] at h
  have hall := hpro.trans h
  refine ⟨_, heq, ?_, rfl, ?_, ?_⟩
  · simpa [List.append_assoc] using hall
  · show (ste2007_chipselect _ 1).object.rowbuffer.len = 96
    rw [hrow, p4]
  · intro i hi
    show (ste2007_chipselect _ 1).object.rowbuffer.buf i = 0x0100
    rw [hrow]
    exact p7 i hi

/-- C12: with the lock free, whatever the row buffer held, `ste2007_clear` returns, and
between taking and releasing the lock its events are the cursor sequence for `(0, 0)` and
then one chip-select bracket around exactly 9 transfers, each of 96 words `0x0100`;
afterwards the row buffer has length 96 and each of its 96 words is `0x0100`. -/
theorem ste2007_clear_trace (dpyH : Display_Handle) (hmutex : dpyH.object.mutex = true)
    (hcap : dpyH.object.cmdBuf.cap = 4) :
    ∃ d', ste2007_clear dpyH = some d' ∧
      d'.trace = dpyH.trace ++ [Event.SemaphoreP_pend] ++
        cursorSequence dpyH.hwAttrs.csPin 0 0 ++
        [Event.GPIO_write dpyH.hwAttrs.csPin 0] ++
        List.replicate 9 (Event.SPI_transfer blankRow) ++
        [Event.GPIO_write dpyH.hwAttrs.csPin 1] ++ [Event.SemaphoreP_post] ∧
      d'.object.rowbuffer.len = 96 ∧
      (∀ i, i < 96 → d'.object.rowbuffer.buf i = 0x0100) := by
  obtain ⟨d', h1, h2, -, h4, h5⟩ := ste2007_clear_spec dpyH hmutex hcap
  refine ⟨d', h1, ?_, h4, h5⟩
  rw [h2.1]
  simp [List.append_assoc]

/-- C12, on the session of the worked instances, whose row buffer holds other words. -/
theorem ste2007_clear_trace_witness :
    (staleSession.object.mutex = true ∧ staleSession.object.cmdBuf.cap = 4) ∧
    ∃ d', ste2007_clear staleSession = some d' ∧
      d'.trace = staleSession.trace ++ [Event.SemaphoreP_pend] ++
        cursorSequence staleSession.hwAttrs.csPin 0 0 ++
        [Event.GPIO_write staleSession.hwAttrs.csPin 0] ++
        List.replicate 9 (Event.SPI_transfer blankRow) ++
        [Event.GPIO_write staleSession.hwAttrs.csPin 1] ++ [Event.SemaphoreP_post] ∧
      d'.object.rowbuffer.len = 96 ∧
      (∀ i, i < 96 → d'.object.rowbuffer.buf i = 0x0100) :=
  ⟨⟨rfl, rfl⟩, ste2007_clear_trace staleSession rfl rfl⟩

/-! ## Protocol engine: controller bring-up -/

theorem Emits.clear {a d : Display_Handle} {e : List Event} (h : Emits a d e)
    (hcap : a.object.cmdBuf.cap = 4) (hm : d.object.mutex = true) :
    ∃ d', ste2007_clear d = some d' ∧ Emits a d' (e ++ fullClearEvents a.hwAttrs.csPin) ∧
      d'.object.mutex = true := by
  obtain ⟨d', h1, h2, h3, -⟩ := ste2007_clear_spec d hm (h.2.2.1.trans hcap)
  rw [h.2.1] at h2
  exact ⟨d', h1, h.trans h2, h3⟩

theorem SemaphoreP_pend_free (d : Display_Handle) (h : d.object.mutex = true) :
    SemaphoreP_pend d =
      some { d with object := { d.object with mutex := false },
                    trace := d.trace ++ [Event.SemaphoreP_pend] } := by
  simp only [SemaphoreP_pend, h, if_true]

/-- The last two statements of `ste2007_open`: the policy is stored, the lock released. -/
theorem Emits.finish {a d : Display_Handle} {e : List Event} (h : Emits a d e)
    (mode : Display_LineClearMode) :
    (SemaphoreP_post
      { d with object := { d.object with lineClearMode := mode } }).trace =
        a.trace ++ (e ++ [Event.SemaphoreP_post]) ∧
    (SemaphoreP_post
      { d with object := { d.object with lineClearMode := mode } }).object.bus =
        a.object.bus ∧
    (SemaphoreP_post
      { d with object := { d.object with lineClearMode := mode } }).hwAttrs = a.hwAttrs ∧
    (SemaphoreP_post
      { d with object := { d.object with lineClearMode := mode } }).object.cmdBuf.cap =
        a.object.cmdBuf.cap ∧
    (SemaphoreP_post
      { d with object := { d.object with lineClearMode := mode } }).object.rowbuffer.cap =
        a.object.rowbuffer.cap := by
  obtain ⟨t, a1, c, r, -, b⟩ := h
  refine ⟨?_, b, a1, c, r⟩
  show d.trace ++ [Event.SemaphoreP_post] = _
  rw [t, List.append_assoc]

/-- Effect of `ste2007_open` when the semaphore is created and the bus opens. -/
theorem ste2007_open_spec (env : Collaborators) (dpyH : Display_Handle)
    (params : Display_Params) (hsem : env.SemaphoreP_createBinary = true)
    (hspi : env.SPI_open ≠ none) (hcap : dpyH.object.cmdBuf.cap = 4) :
    ∃ d', ste2007_open env dpyH params = some (true, d') ∧
      d'.trace = dpyH.trace ++ bringUpEvents dpyH.hwAttrs.csPin ∧
      d'.object.lineClearMode = params.lineClearMode ∧
      d'.object.mutex = true ∧ d'.object.bus = env.SPI_open ∧
      d'.hwAttrs = dpyH.hwAttrs ∧ d'.object.cmdBuf.cap = 4 ∧
      d'.object.rowbuffer.cap = dpyH.object.rowbuffer.cap := by
  obtain ⟨d0, hd0⟩ : ∃ d0 : Display_Handle, d0 =
      { hwAttrs := dpyH.hwAttrs,
        object := { dpyH.object with mutex := false, bus := env.SPI_open },
        trace := dpyH.trace ++ [Event.SemaphoreP_pend] } := ⟨_, rfl⟩
  have hc0 : d0.object.cmdBuf.cap = 4 := by rw [hd0]; exact hcap
  have h1 := (Emits.refl d0).issuecmd hc0 STE2007_CMD_RESET 0 STE2007_MASK_RESET
    (by decide) (by decide)
  have h2 := h1.issuecmd hc0 STE2007_CMD_DPYALLPTS 0 STE2007_MASK_DPYALLPTS
    (by decide) (by decide)
  have h3 := h2.issuecmd hc0 STE2007_CMD_PWRCTL 7 STE2007_MASK_PWRCTL (by decide) (by decide)
  have h4 := h3.issuecmd hc0 STE2007_CMD_ONOFF 1 STE2007_MASK_ONOFF (by decide) (by decide)
  have h5 := h4.issuecmd hc0 STE2007_CMD_COMDIR 0 STE2007_MASK_COMDIR (by decide) (by decide)
  have h6 := h5.issuecmd hc0 STE2007_CMD_SEGMENTDIR 0 STE2007_MASK_SEGMENTDIR
    (by decide) (by decide)
  have h7 := (h6.issuecmd hc0 STE2007_CMD_ELECTVOL 16 STE2007_MASK_ELECTVOL
    (by decide) (by decide)).post
  obtain ⟨dc, hclear, h8, hm8⟩ := h7.clear hc0 rfl
  obtain ⟨dp, hpend, h9, -, -, -⟩ := h8.pend hm8
  have h10 := h9.compoundcmd hc0 STE2007_CMD_REFRESHRATE 3 STE2007_MASK_REFRESHRATE
    (by decide) (by decide)
  have h11 := h10.compoundcmd hc0 STE2007_CMD_CHARGEPUMP 0 STE2007_MASK_CHARGEPUMP
    (by decide) (by decide)
  have h12 := h11.issuecmd hc0 STE2007_CMD_SETBIAS 6 STE2007_MASK_SETBIAS
    (by decide) (by decide)
  have h13 := h12.compoundcmd hc0 STE2007_CMD_VOP 0 STE2007_MASK_VOP (by decide) (by decide)
  have h14 := h13.issuecmd hc0 STE2007_CMD_DPYREV 0 STE2007_MASK_DPYREV
    (by decide) (by decide)
  have hrun : ste2007_open env dpyH params = some (true, SemaphoreP_post
      { (ste2007_issuecmd (ste2007_issue_compoundcmd (ste2007_issuecmd
          (ste2007_issue_compoundcmd (ste2007_issue_compoundcmd dp
            STE2007_CMD_REFRESHRATE 3 STE2007_MASK_REFRESHRATE)
            STE2007_CMD_CHARGEPUMP 0 STE2007_MASK_CHARGEPUMP)
          STE2007_CMD_SETBIAS 6 STE2007_MASK_SETBIAS)
          STE2007_CMD_VOP 0 STE2007_MASK_VOP)
          STE2007_CMD_DPYREV 0 STE2007_MASK_DPYREV) with
        object := { (ste2007_issuecmd (ste2007_issue_compoundcmd (ste2007_issuecmd
          (ste2007_issue_compoundcmd (ste2007_issue_compoundcmd dp
            STE2007_CMD_REFRESHRATE 3 STE2007_MASK_REFRESHRATE)
            STE2007_CMD_CHARGEPUMP 0 STE2007_MASK_CHARGEPUMP)
          STE2007_CMD_SETBIAS 6 STE2007_MASK_SETBIAS)
          STE2007_CMD_VOP 0 STE2007_MASK_VOP)
          STE2007_CMD_DPYREV 0 STE2007_MASK_DPYREV).object with
          lineClearMode := params.lineClearMode } }) := by
    simp only [ste2007_open, hsem, hspi, if_false, Bool.true_eq_false]
    rw [SemaphoreP_pend_free _ rfl]
    simp only []
    rw [← hd0, hclear]
    simp only [hpend]
  obtain ⟨f1, f2, f3, f4, f5⟩ := h14.finish params.lineClearMode
  refine ⟨_, hrun, ?_, rfl, rfl, f2.trans (by rw [hd0]), f3.trans (by rw [hd0]),
    f4.trans hc0, f5.trans (by rw [hd0])⟩
  rw [f1, hd0]
  simp [bringUpEvents, STE2007_CMD_RESET, STE2007_MASK_RESET, STE2007_CMD_DPYALLPTS,
    STE2007_MASK_DPYALLPTS, STE2007_CMD_PWRCTL, STE2007_MASK_PWRCTL, STE2007_CMD_ONOFF,
    STE2007_MASK_ONOFF, STE2007_CMD_COMDIR, STE2007_MASK_COMDIR, STE2007_CMD_SEGMENTDIR,
    STE2007_MASK_SEGMENTDIR, STE2007_CMD_ELECTVOL, STE2007_MASK_ELECTVOL,
    STE2007_CMD_REFRESHRATE, STE2007_MASK_REFRESHRATE, STE2007_CMD_CHARGEPUMP,
    STE2007_MASK_CHARGEPUMP, STE2007_CMD_SETBIAS, STE2007_MASK_SETBIAS, STE2007_CMD_VOP,
    STE2007_MASK_VOP, STE2007_CMD_DPYREV, STE2007_MASK_DPYREV, List.append_assoc,
    (by decide : (128 ||| 16 &&& 31 : Nat) = 144), (by decide : (48 ||| 6 &&& 7 : Nat) = 54)]

theorem transfersOf_append (l1 l2 : List Event) :
    transfersOf (l1 ++ l2) = transfersOf l1 ++ transfersOf l2 := by
  induction l1 with
  | nil => rfl
  | cons e l ih => cases e <;> simp [transfersOf, ih]

theorem transfersOf_replicate (n : Nat) (w : List Nat) :
    transfersOf (List.replicate n (Event.SPI_transfer w)) = List.replicate n w := by
  induction n with
  | zero => rfl
  | succ n ih => simp [List.replicate_succ, transfersOf, ih]

theorem transfersOf_simpleCommand (csPin w : Nat) :
    transfersOf (simpleCommand csPin w) = [[w]] := rfl

theorem transfersOf_compoundCommand (csPin w0 w1 : Nat) :
    transfersOf (compoundCommand csPin w0 w1) = [[w0, w1]] := rfl

theorem transfersOf_fullClear (csPin : Nat) :
    transfersOf (fullClearEvents csPin) =
      [[0xB0], [0x10], [0x00]] ++ List.replicate 9 blankRow := by
  simp only [fullClearEvents, cursorSequence, transfersOf_append, transfersOf_replicate,
    transfersOf_simpleCommand]
  simp [transfersOf]

theorem transfersOf_bringUp (csPin : Nat) :
    transfersOf (bringUpEvents csPin) =
      [[0xE2], [0xA4], [0x2F], [0xAF], [0xC0], [0xA0], [0x90], [0xB0], [0x10], [0x00]] ++
      List.replicate 9 blankRow ++
      [[0xEF, 0x03], [0x3D, 0x00], [0x36], [0xE1, 0x00], [0xA6]] := by
  simp only [bringUpEvents, transfersOf_append, transfersOf_simpleCommand,
    transfersOf_compoundCommand, transfersOf_fullClear]
  simp [transfersOf]

/-- C13: when the semaphore is created and the bus opens, `ste2007_open` returns the handle;
its events are, in order: lock taken, the simple commands 0xE2, 0xA4, 0x2F, 0xAF, 0xC0, 0xA0,
0x90, lock released, the full clear, lock taken, compound [0xEF, 0x03], compound
[0x3D, 0x00], simple 0x36, compound [0xE1, 0x00], simple 0xA6, lock released; so the
transport receives exactly these transfers in this order, and the policy of the session is
the one of the parameters. -/
theorem ste2007_open_bring_up_order (env : Collaborators) (dpyH : Display_Handle)
    (params : Display_Params) (hsem : env.SemaphoreP_createBinary = true)
    (hspi : env.SPI_open ≠ none) (hcap : dpyH.object.cmdBuf.cap = 4) :
    ∃ d', ste2007_open env dpyH params = some (true, d') ∧
      d'.trace = dpyH.trace ++ bringUpEvents dpyH.hwAttrs.csPin ∧
      transfersOf (bringUpEvents dpyH.hwAttrs.csPin) =
        [[0xE2], [0xA4], [0x2F], [0xAF], [0xC0], [0xA0], [0x90], [0xB0], [0x10], [0x00]] ++
        List.replicate 9 blankRow ++
        [[0xEF, 0x03], [0x3D, 0x00], [0x36], [0xE1, 0x00], [0xA6]] ∧
      d'.object.lineClearMode = params.lineClearMode := by
  obtain ⟨d', h1, h2, h3, -⟩ := ste2007_open_spec env dpyH params hsem hspi hcap
  exact ⟨d', h1, h2, transfersOf_bringUp _, h3⟩

/-- C13, on the session of the worked instances, opened with the ClearBoth policy. -/
theorem ste2007_open_bring_up_order_witness :
    (failingTransport.SemaphoreP_createBinary = true ∧ failingTransport.SPI_open ≠ none ∧
      staleSession.object.cmdBuf.cap = 4) ∧
    ∃ d', ste2007_open failingTransport staleSession
        ⟨Display_LineClearMode.DISPLAY_CLEAR_BOTH⟩ = some (true, d') ∧
      d'.trace = staleSession.trace ++ bringUpEvents staleSession.hwAttrs.csPin ∧
      transfersOf (bringUpEvents staleSession.hwAttrs.csPin) =
        [[0xE2], [0xA4], [0x2F], [0xAF], [0xC0], [0xA0], [0x90], [0xB0], [0x10], [0x00]] ++
        List.replicate 9 blankRow ++
        [[0xEF, 0x03], [0x3D, 0x00], [0x36], [0xE1, 0x00], [0xA6]] ∧
      d'.object.lineClearMode = Display_LineClearMode.DISPLAY_CLEAR_BOTH :=
  ⟨⟨rfl, by decide, rfl⟩,
    ste2007_open_bring_up_order failingTransport staleSession
      ⟨Display_LineClearMode.DISPLAY_CLEAR_BOTH⟩ rfl (by decide) rfl⟩

/-- C14, as stated, fails: on a transport whose every transfer reports failure,
`ste2007_open` still returns the display handle. -/
theorem ste2007_open_returns_handle_on_failed_transfers :
    (∀ k, failingTransport.SPI_transfer k = false) ∧
    ∃ d', ste2007_open failingTransport staleSession
      ⟨Display_LineClearMode.DISPLAY_CLEAR_NONE⟩ = some (true, d') := by
  refine ⟨fun _ => rfl, ?_⟩
  obtain ⟨d', h1, -⟩ := ste2007_open_spec failingTransport staleSession
    ⟨Display_LineClearMode.DISPLAY_CLEAR_NONE⟩ rfl (by decide) rfl
  exact ⟨d', h1⟩

/-- C14, amended: `ste2007_open` returns, and it returns `NULL` exactly when the semaphore
cannot be created or the bus cannot be opened, whatever the transfers report. -/
theorem ste2007_open_result (env : Collaborators) (dpyH : Display_Handle)
    (params : Display_Params) (hcap : dpyH.object.cmdBuf.cap = 4) :
    ∃ r, ste2007_open env dpyH params = some r ∧
      (r.1 = false ↔ env.SemaphoreP_createBinary = false ∨ env.SPI_open = none) := by
  by_cases hsem : env.SemaphoreP_createBinary = true
  · by_cases hspi : env.SPI_open = none
    · have h : ∃ d, ste2007_open env dpyH params = some (false, d) := by
        simp only [ste2007_open, hsem, hspi, if_false, if_true, Bool.true_eq_false]
        rw [SemaphoreP_pend_free _ rfl]
        exact ⟨_, rfl⟩
      obtain ⟨d, hd⟩ := h
      exact ⟨(false, d), hd, by simp [hspi]⟩
    · obtain ⟨d', h1, -⟩ := ste2007_open_spec env dpyH params hsem hspi hcap
      exact ⟨(true, d'), h1, by simp [hsem, hspi]⟩
  · have hsem2 : env.SemaphoreP_createBinary = false := by simpa using hsem
    have h : ∃ d, ste2007_open env dpyH params = some (false, d) := by
      simp only [ste2007_open, hsem2, if_true]
      exact ⟨_, rfl⟩
    obtain ⟨d, hd⟩ := h
    exact ⟨(false, d), hd, by simp [hsem2]⟩

/-- C14 amended, on the transport whose every transfer fails. -/
theorem ste2007_open_result_witness :
    staleSession.object.cmdBuf.cap = 4 ∧
    ∃ r, ste2007_open failingTransport staleSession
        ⟨Display_LineClearMode.DISPLAY_CLEAR_NONE⟩ = some r ∧
      (r.1 = false ↔ failingTransport.SemaphoreP_createBinary = false ∨
        failingTransport.SPI_open = none) :=
  ⟨rfl, ste2007_open_result failingTransport staleSession
    ⟨Display_LineClearMode.DISPLAY_CLEAR_NONE⟩ rfl⟩

/-! ## Protocol engine: control commands -/

/-- C15: for the contrast command with a byte argument `v`, `ste2007_control` returns
`NOKIA1202_CONTRAST_OUT_OF_RANGE` exactly when `v > 31`, and then leaves the whole session
(trace and both buffers) as it was; when `v <= 31` it returns success and appends exactly one
simple command with the word `0x80 | v`. The framework's success code is taken to lie above
`DISPLAY_STATUS_RESERVED`, from which the driver's own codes are counted downwards. -/
theorem ste2007_control_contrast (K : Display_h) (dpyH : Display_Handle) (v : Nat)
    (hK : K.DISPLAY_STATUS_RESERVED < K.DISPLAY_STATUS_SUCCESS)
    (hv : v < 256) (hcap : dpyH.object.cmdBuf.cap = 4) :
    ((ste2007_control K dpyH (NOKIA1202_CMD_CONTRAST K) (some v)).1 =
        NOKIA1202_CONTRAST_OUT_OF_RANGE K ↔ v > 31) ∧
    (v > 31 → (ste2007_control K dpyH (NOKIA1202_CMD_CONTRAST K) (some v)).2 = dpyH) ∧
    (v ≤ 31 →
      (ste2007_control K dpyH (NOKIA1202_CMD_CONTRAST K) (some v)).1 =
        K.DISPLAY_STATUS_SUCCESS ∧
      (ste2007_control K dpyH (NOKIA1202_CMD_CONTRAST K) (some v)).2.trace =
        dpyH.trace ++ simpleCommand dpyH.hwAttrs.csPin (0x80 ||| v)) := by
  by_cases h : v > 31
  · have hr : ste2007_control K dpyH (NOKIA1202_CMD_CONTRAST K) (some v) =
        (NOKIA1202_CONTRAST_OUT_OF_RANGE K, dpyH) := by
      simp [ste2007_control, h]
    rw [hr]
    exact ⟨by simp [h], fun _ => rfl, fun h2 => absurd h (by omega)⟩
  · have hr : ste2007_control K dpyH (NOKIA1202_CMD_CONTRAST K) (some v) =
        (K.DISPLAY_STATUS_SUCCESS, ste2007_contrast dpyH v) := by
      simp [ste2007_control, h]
    rw [hr]
    have hne : K.DISPLAY_STATUS_SUCCESS ≠ NOKIA1202_CONTRAST_OUT_OF_RANGE K := by
      unfold NOKIA1202_CONTRAST_OUT_OF_RANGE
      omega
    refine ⟨by simp [h, hne], fun h2 => absurd h2 h, fun _ => ⟨rfl, ?_⟩⟩
    have hmask : ∀ w, w < 32 → w &&& 31 = w := by decide
    have ht := (ste2007_issuecmd_emits dpyH STE2007_CMD_ELECTVOL v STE2007_MASK_ELECTVOL
      (by decide) hv hcap).1.1
    rw [show STE2007_MASK_ELECTVOL = 31 from rfl, hmask v (by omega)] at ht
    exact ht

/-- C15, with the contrast value 32, the first one out of range. -/
theorem ste2007_control_contrast_witness :
    (sampleDisplay_h.DISPLAY_STATUS_RESERVED < sampleDisplay_h.DISPLAY_STATUS_SUCCESS ∧
      32 < 256 ∧ staleSession.object.cmdBuf.cap = 4) ∧
    ((ste2007_control sampleDisplay_h staleSession
        (NOKIA1202_CMD_CONTRAST sampleDisplay_h) (some 32)).1 =
        NOKIA1202_CONTRAST_OUT_OF_RANGE sampleDisplay_h ↔ 32 > 31) :=
  ⟨⟨by decide, by decide, rfl⟩,
    (ste2007_control_contrast sampleDisplay_h staleSession 32 (by decide) (by decide) rfl).1⟩

/-- C16: for the refresh-rate command with a byte argument `r`, `ste2007_control` returns
`NOKIA1202_REFRESHRATE_INVALID` exactly when `r` is none of 65, 70, 75, 80, and then leaves
the whole session as it was; for 65, 70, 75, 80 it returns success and appends exactly one
compound command `[0xEF, k]` with `k` = 3, 2, 1, 0. The framework's success code is taken to
lie above `DISPLAY_STATUS_RESERVED`. -/
theorem ste2007_control_refreshrate (K : Display_h) (dpyH : Display_Handle) (r : Nat)
    (hK : K.DISPLAY_STATUS_RESERVED < K.DISPLAY_STATUS_SUCCESS)
    (hcap : dpyH.object.cmdBuf.cap = 4) :
    ((ste2007_control K dpyH (NOKIA1202_CMD_REFRESHRATE K) (some r)).1 =
        NOKIA1202_REFRESHRATE_INVALID K ↔ (r ≠ 65 ∧ r ≠ 70 ∧ r ≠ 75 ∧ r ≠ 80)) ∧
    ((r ≠ 65 ∧ r ≠ 70 ∧ r ≠ 75 ∧ r ≠ 80) →
      (ste2007_control K dpyH (NOKIA1202_CMD_REFRESHRATE K) (some r)).2 = dpyH) ∧
    (∀ k, (r = 65 ∧ k = 3) ∨ (r = 70 ∧ k = 2) ∨ (r = 75 ∧ k = 1) ∨ (r = 80 ∧ k = 0) →
      (ste2007_control K dpyH (NOKIA1202_CMD_REFRESHRATE K) (some r)).1 =
        K.DISPLAY_STATUS_SUCCESS ∧
      (ste2007_control K dpyH (NOKIA1202_CMD_REFRESHRATE K) (some r)).2.trace =
        dpyH.trace ++ compoundCommand dpyH.hwAttrs.csPin 0xEF k) := by
  have hcmd : NOKIA1202_CMD_REFRESHRATE K ≠ NOKIA1202_CMD_CONTRAST K := by
    unfold NOKIA1202_CMD_REFRESHRATE NOKIA1202_CMD_CONTRAST
    omega
  have hne : K.DISPLAY_STATUS_SUCCESS ≠ NOKIA1202_REFRESHRATE_INVALID K := by
    unfold NOKIA1202_REFRESHRATE_INVALID
    omega
  have hc : ∀ k, k < 256 →
      (ste2007_issue_compoundcmd dpyH STE2007_CMD_REFRESHRATE k STE2007_MASK_REFRESHRATE).trace
        = dpyH.trace ++ compoundCommand dpyH.hwAttrs.csPin 0xEF (k &&& 3) := fun k hk =>
    (ste2007_issue_compoundcmd_emits dpyH STE2007_CMD_REFRESHRATE k STE2007_MASK_REFRESHRATE
      (by decide) hk hcap).1.1
  by_cases h : r ≠ 65 ∧ r ≠ 70 ∧ r ≠ 75 ∧ r ≠ 80
  · have hr : ste2007_control K dpyH (NOKIA1202_CMD_REFRESHRATE K) (some r) =
        (NOKIA1202_REFRESHRATE_INVALID K, dpyH) := by
      simp only [ste2007_control, hcmd, if_false, if_true]
      rw [if_pos h]
    rw [hr]
    refine ⟨by simp [h], fun _ => rfl, ?_⟩
    intro k hk
    omega
  · have hr : ste2007_control K dpyH (NOKIA1202_CMD_REFRESHRATE K) (some r) =
        (K.DISPLAY_STATUS_SUCCESS, ste2007_refreshrate dpyH r) := by
      simp only [ste2007_control, hcmd, if_false, if_true]
      rw [if_neg h]
    rw [hr]
    refine ⟨by simp only [hne, false_iff]; exact h, fun h2 => absurd h2 h, ?_⟩
    intro k hk
    refine ⟨rfl, ?_⟩
    rcases hk with ⟨rfl, rfl⟩ | ⟨rfl, rfl⟩ | ⟨rfl, rfl⟩ | ⟨rfl, rfl⟩
    · exact hc 3 (by decide)
    · exact hc 2 (by decide)
    · exact hc 1 (by decide)
    · exact hc 0 (by decide)

/-- C16, at 65 Hz. -/
theorem ste2007_control_refreshrate_witness :
    (sampleDisplay_h.DISPLAY_STATUS_RESERVED < sampleDisplay_h.DISPLAY_STATUS_SUCCESS ∧
      staleSession.object.cmdBuf.cap = 4) ∧
    (ste2007_control sampleDisplay_h staleSession
        (NOKIA1202_CMD_REFRESHRATE sampleDisplay_h) (some 65)).1 =
      sampleDisplay_h.DISPLAY_STATUS_SUCCESS ∧
    (ste2007_control sampleDisplay_h staleSession
        (NOKIA1202_CMD_REFRESHRATE sampleDisplay_h) (some 65)).2.trace =
      staleSession.trace ++ compoundCommand staleSession.hwAttrs.csPin 0xEF 3 :=
  ⟨⟨by decide, rfl⟩,
    (ste2007_control_refreshrate sampleDisplay_h staleSession 65 (by decide) rfl).2.2 3
      (Or.inl ⟨rfl, rfl⟩)⟩

/-- C17: for a command code that is none of the five recognised ones, and any argument,
`ste2007_control` returns `DISPLAY_STATUS_UNDEFINEDCMD` and leaves the whole session (trace
and buffers) as it was; that status differs from both argument-error statuses, the
framework's code being taken to lie above `DISPLAY_STATUS_RESERVED`. -/
theorem ste2007_control_undefined (K : Display_h) (dpyH : Display_Handle) (cmd : Nat)
    (arg : Option Nat)
    (hK : K.DISPLAY_STATUS_RESERVED < K.DISPLAY_STATUS_UNDEFINEDCMD)
    (h0 : cmd ≠ NOKIA1202_CMD_CONTRAST K) (h1 : cmd ≠ NOKIA1202_CMD_REFRESHRATE K)
    (h2 : cmd ≠ NOKIA1202_CMD_INVERT K) (h3 : cmd ≠ NOKIA1202_CMD_POWERSAVE K)
    (h4 : cmd ≠ NOKIA1202_CMD_BACKLIGHT K) :
    ste2007_control K dpyH cmd arg = (K.DISPLAY_STATUS_UNDEFINEDCMD, dpyH) ∧
    K.DISPLAY_STATUS_UNDEFINEDCMD ≠ NOKIA1202_CONTRAST_OUT_OF_RANGE K ∧
    K.DISPLAY_STATUS_UNDEFINEDCMD ≠ NOKIA1202_REFRESHRATE_INVALID K := by
  refine ⟨by simp only [ste2007_control, h0, h1, h2, h3, h4, if_false], ?_, ?_⟩
  · unfold NOKIA1202_CONTRAST_OUT_OF_RANGE
    omega
  · unfold NOKIA1202_REFRESHRATE_INVALID
    omega

/-- C17, at the command code 0 with a null argument. -/
theorem ste2007_control_undefined_witness :
    (sampleDisplay_h.DISPLAY_STATUS_RESERVED < sampleDisplay_h.DISPLAY_STATUS_UNDEFINEDCMD ∧
      0 ≠ NOKIA1202_CMD_CONTRAST sampleDisplay_h ∧
      0 ≠ NOKIA1202_CMD_REFRESHRATE sampleDisplay_h ∧
      0 ≠ NOKIA1202_CMD_INVERT sampleDisplay_h ∧
      0 ≠ NOKIA1202_CMD_POWERSAVE sampleDisplay_h ∧
      0 ≠ NOKIA1202_CMD_BACKLIGHT sampleDisplay_h) ∧
    (ste2007_control sampleDisplay_h staleSession 0 none).1 =
      sampleDisplay_h.DISPLAY_STATUS_UNDEFINEDCMD :=
  ⟨by decide,
    congrArg Prod.fst (ste2007_control_undefined sampleDisplay_h staleSession 0 none
      (by decide) (by decide) (by decide) (by decide) (by decide) (by decide)).1⟩

/-! ## Protocol engine: text drawing -/

/-- Invariant of the loops of `ste2007_vprintf` that store NUL characters in `dispStr`:
with a bound inside the array the loop ends, and the array then holds 0 from `i` up to the
bound and is unchanged elsewhere. -/
theorem ste2007_vprintf_zero_loop_spec (n : Int) :
    ∀ (k i : Nat) (ds : List Nat), (n - (i : Int)).toNat = k → n ≤ (ds.length : Int) →
      ∃ ds', ste2007_vprintf_zero_loop n i ds = some ds' ∧ ds'.length = ds.length ∧
        ∀ j, j < ds.length →
          ds'[j]? = if i ≤ j ∧ (j : Int) < n then some 0 else ds[j]? := by
  intro k
  induction k with
  | zero =>
    intro i ds hk _
    refine ⟨ds, ?_, rfl, ?_⟩
    · rw [ste2007_vprintf_zero_loop, if_neg (by omega)]
    · intro j _
      rw [if_neg (by omega)]
  | succ k ih =>
    intro i ds hk hn
    have hi : (i : Int) < n := by omega
    have hil : i < ds.length := by omega
    obtain ⟨ds', h1, h2, h3⟩ := ih (i + 1) (ds.set i 0) (by omega)
      (by rw [List.length_set]; exact hn)
    refine ⟨ds', ?_, by rw [h2, List.length_set], ?_⟩
    · rw [ste2007_vprintf_zero_loop, if_pos hi, if_pos hil]
      exact h1
    · intro j hj
      rw [h3 j (by rw [List.length_set]; exact hj), List.getElem?_set]
      by_cases hji : i = j
      · subst hji
        rw [if_neg (by omega), if_pos rfl, if_pos hil, if_pos ⟨Nat.le_refl _, hi⟩]
      · rw [if_neg hji]
        by_cases hc : i ≤ j ∧ (j : Int) < n
        · rw [if_pos hc, if_pos ⟨by omega, hc.2⟩]
        · rw [if_neg hc, if_neg (by omega)]

/-- After the zeroing loop with a bound `m` inside the array, the first `m` bytes of the
array are 0. -/
theorem ste2007_vprintf_zero_loop_take (m : Nat) (ds : List Nat) (hm : m ≤ ds.length) :
    ∃ ds', ste2007_vprintf_zero_loop (m : Int) 0 ds = some ds' ∧ ds'.length = ds.length ∧
      ds'.take m = List.replicate m 0 := by
  obtain ⟨ds', h1, h2, h3⟩ := ste2007_vprintf_zero_loop_spec (m : Int) _ 0 ds rfl
    (by exact_mod_cast hm)
  refine ⟨ds', h1, h2, ?_⟩
  apply List.ext_getElem?
  intro j
  rw [List.getElem?_take, List.getElem?_replicate]
  by_cases hj : j < m
  · rw [if_pos hj, if_pos hj, h3 j (by omega), if_pos ⟨Nat.zero_le _, by exact_mod_cast hj⟩]
  · rw [if_neg hj, if_neg hj]

/-- One turn of the loop of `ste2007_write`. -/
theorem ste2007_write_loop_step (ubuf : List Nat) (fuel ttl n : Nat) (d : Display_Handle)
    (hlt : ttl < ubuf.length)
    (hn : n = if ubuf.length - ttl > d.object.rowbuffer.cap then d.object.rowbuffer.cap
      else ubuf.length - ttl) :
    ste2007_write_loop ubuf (fuel + 1) ttl d =
      ste2007_write_loop ubuf fuel
        ((ttl + (spitxn_push (spitxn_reset d.object.rowbuffer) 1
          ((ubuf.drop ttl).take n)).2.len) % 4294967296)
        (SPI_transfer
          { d with object := { d.object with
              rowbuffer := (spitxn_push (spitxn_reset d.object.rowbuffer) 1
                ((ubuf.drop ttl).take n)).2 } }
          (spitxn_push (spitxn_reset d.object.rowbuffer) 1 ((ubuf.drop ttl).take n)).2.len
          (spitxn_push (spitxn_reset d.object.rowbuffer) 1 ((ubuf.drop ttl).take n)).2.buf) := by
  subst hn
  simp only [ste2007_write_loop, hlt, if_true]
  rfl

/-- The loop of `ste2007_write` ends when `ttl` has reached the length. -/
theorem ste2007_write_loop_done (ubuf : List Nat) (fuel ttl : Nat) (d : Display_Handle)
    (h : ¬ ttl < ubuf.length) : ste2007_write_loop ubuf (fuel + 1) ttl d = some d := by
  simp only [ste2007_write_loop, h, if_false]

/-- A write of no byte returns at once. -/
theorem ste2007_write_empty (fuel : Nat) (d : Display_Handle) (hfuel : 1 ≤ fuel) :
    ste2007_write fuel d [] = some d := by
  obtain ⟨f, rfl⟩ : ∃ f, fuel = f + 1 := ⟨fuel - 1, by omega⟩
  simp [ste2007_write, ste2007_write_loop]

/-- A write of at least one byte and at most `cap` bytes is one transfer of all of them. -/
theorem ste2007_write_single (fuel : Nat) (d : Display_Handle) (buf : List Nat)
    (hfuel : 2 ≤ fuel) (hpos : 0 < buf.length) (hle : buf.length ≤ d.object.rowbuffer.cap)
    (hcap32 : d.object.rowbuffer.cap < 4294967296) :
    ∃ d', ste2007_write fuel d buf = some d' ∧
      Emits d d' [Event.SPI_transfer (buf.map (pushWord 1))] ∧
      d'.object.cmdBuf = d.object.cmdBuf ∧ d'.object.mutex = d.object.mutex := by
  obtain ⟨f, rfl⟩ : ∃ f, fuel = f + 2 := ⟨fuel - 2, by omega⟩
  have hn : buf.length = if buf.length - 0 > d.object.rowbuffer.cap
      then d.object.rowbuffer.cap else buf.length - 0 := by
    rw [if_neg (by omega)]
    omega
  have hstep := ste2007_write_loop_step buf (f + 1) 0 buf.length d hpos hn
  have hdata : (buf.drop 0).take buf.length = buf := by
    rw [List.drop_zero, List.take_length]
  rw [hdata] at hstep
  obtain ⟨-, pl, pc, pw⟩ := spitxn_push_reset_spec d.object.rowbuffer 1 buf (by omega) hcap32 hle
  have hmod : (0 + buf.length) % 4294967296 = buf.length := by omega
  rw [pl, hmod, ste2007_write_loop_done buf f buf.length _ (Nat.lt_irrefl _)] at hstep
  refine ⟨_, hstep, ⟨?_, rfl, rfl, pc, rfl, rfl⟩, rfl, rfl⟩
  show d.trace ++ [Event.SPI_transfer
    ((spitxn_push (spitxn_reset d.object.rowbuffer) 1 buf).2.buf.words buf.length)] = _
  rw [pw]

theorem Emits.write_zeros {a d : Display_Handle} {e : List Event} (h : Emits a d e)
    (fuel m : Nat) (hfuel : 2 ≤ fuel) (hle : m ≤ a.object.rowbuffer.cap)
    (hcap32 : a.object.rowbuffer.cap < 4294967296) :
    ∃ d', ste2007_write fuel d (List.replicate m 0) = some d' ∧
      Emits a d' (e ++ if m = 0 then []
        else [Event.SPI_transfer (List.replicate m 0x0100)]) := by
  by_cases hm : m = 0
  · subst hm
    refine ⟨d, ste2007_write_empty fuel d (by omega), ?_⟩
    simpa using h
  · obtain ⟨d', h1, h2, -⟩ := ste2007_write_single fuel d (List.replicate m 0) hfuel
      (by rw [List.length_replicate]; omega)
      (by rw [List.length_replicate, h.2.2.2.1]; exact hle)
      (by rw [h.2.2.2.1]; exact hcap32)
    refine ⟨d', h1, ?_⟩
    rw [if_neg hm]
    have hw : List.map (pushWord 1) (List.replicate m 0) = List.replicate m 0x0100 := by
      rw [List.map_replicate]
      rfl
    rw [hw] at h2
    exact h.trans h2

/-- The policy step of `ste2007_vprintf` under ClearLeft, for a column inside `dispStr`. -/
theorem ste2007_vprintf_clear_left (fuel : Nat) (dpyH : Display_Handle) (line col : Nat)
    (dispStr : List Nat)
    (hmode : dpyH.object.lineClearMode = Display_LineClearMode.DISPLAY_CLEAR_LEFT)
    (hcol : col ≤ dispStr.length) (hline : line < 256) (hfuel : 2 ≤ fuel)
    (hcap : dpyH.object.cmdBuf.cap = 4) (hrow : col ≤ dpyH.object.rowbuffer.cap)
    (hrow32 : dpyH.object.rowbuffer.cap < 4294967296) :
    ∃ d', ste2007_vprintf_clear fuel dpyH line col dispStr = some d' ∧
      Emits dpyH d' (cursorSequence dpyH.hwAttrs.csPin 0 line ++
        [Event.GPIO_write dpyH.hwAttrs.csPin 0] ++
        (if col = 0 then [] else [Event.SPI_transfer (List.replicate col 0x0100)]) ++
        [Event.GPIO_write dpyH.hwAttrs.csPin 1]) := by
  obtain ⟨ds', hz, hlen, htake⟩ := ste2007_vprintf_zero_loop_take col dispStr hcol
  have e1 := ((Emits.refl dpyH).setxy hcap 0 line (by decide) hline).chipselect 0
  obtain ⟨d2, hw, e2⟩ := e1.write_zeros fuel col hfuel hrow hrow32
  have e3 := e2.chipselect 1
  have hcol2 : col ≤ ds'.length := by rw [hlen]; exact hcol
  refine ⟨_, ?_, by simpa [List.append_assoc] using e3⟩
  simp only [ste2007_vprintf_clear, hmode, hz, ste2007_write_dispStr, hcol2, if_true, htake,
    hw]

/-- The policy step of `ste2007_vprintf` under ClearRight, for a column up to 16: the
stream is `16 - col` blank words. -/
theorem ste2007_vprintf_clear_right (fuel : Nat) (dpyH : Display_Handle) (line col : Nat)
    (dispStr : List Nat)
    (hmode : dpyH.object.lineClearMode = Display_LineClearMode.DISPLAY_CLEAR_RIGHT)
    (hcol : col ≤ 16) (hstr : 16 ≤ dispStr.length) (hline : line < 256) (hfuel : 2 ≤ fuel)
    (hcap : dpyH.object.cmdBuf.cap = 4) (hrow : 16 ≤ dpyH.object.rowbuffer.cap)
    (hrow32 : dpyH.object.rowbuffer.cap < 4294967296) :
    ∃ d', ste2007_vprintf_clear fuel dpyH line col dispStr = some d' ∧
      Emits dpyH d' (cursorSequence dpyH.hwAttrs.csPin col line ++
        [Event.GPIO_write dpyH.hwAttrs.csPin 0] ++
        (if 16 - col = 0 then []
          else [Event.SPI_transfer (List.replicate (16 - col) 0x0100)]) ++
        [Event.GPIO_write dpyH.hwAttrs.csPin 1]) := by
  obtain ⟨ds', hz, hlen, htake⟩ :=
    ste2007_vprintf_zero_loop_take (16 - col) dispStr (by omega)
  have hI : (16 - (col : Int)) = ((16 - col : Nat) : Int) := by omega
  have hL : (((16 - col : Nat) : Int) % 65536).toNat = 16 - col := by omega
  have e1 := ((Emits.refl dpyH).setxy hcap col line (by omega) hline).chipselect 0
  obtain ⟨d2, hw, e2⟩ := e1.write_zeros fuel (16 - col) hfuel (by omega) hrow32
  have e3 := e2.chipselect 1
  have hcol2 : 16 - col ≤ ds'.length := by rw [hlen]; omega
  refine ⟨_, ?_, by simpa [List.append_assoc] using e3⟩
  simp only [ste2007_vprintf_clear, hmode, hI, hL, hz, ste2007_write_dispStr, hcol2, if_true,
    htake, hw]

/-- C18: under ClearRight at column 0 the policy step of `ste2007_vprintf` streams 16 blank
words, not the 96 of a whole row: columns 16 to 95 of the line are left as they were. -/
theorem ste2007_vprintf_clear_right_streams_16 :
    ∃ d', ste2007_vprintf_clear 2
        (staleSessionWith Display_LineClearMode.DISPLAY_CLEAR_RIGHT) 0 0
        (List.replicate 32 0x55) = some d' ∧
      d'.trace = cursorSequence 5 0 0 ++
        [Event.GPIO_write 5 0, Event.SPI_transfer (List.replicate 16 0x0100),
         Event.GPIO_write 5 1] ∧
      transfersOf d'.trace = [[0xB0], [0x10], [0x00], List.replicate 16 0x0100] ∧
      (List.replicate 16 0x0100 : List Nat) ≠ List.replicate (96 - 0) 0x0100 := by
  obtain ⟨d', h1, h2, -⟩ := ste2007_vprintf_clear_right 2
    (staleSessionWith Display_LineClearMode.DISPLAY_CLEAR_RIGHT) 0 0 (List.replicate 32 0x55)
    rfl (by decide) (by decide) (by decide) (by decide) rfl (by decide) (by decide)
  have ht : d'.trace = cursorSequence 5 0 0 ++
      [Event.GPIO_write 5 0, Event.SPI_transfer (List.replicate 16 0x0100),
       Event.GPIO_write 5 1] := by
    rw [h2]
    simp [staleSessionWith]
  refine ⟨d', h1, ht, ?_, by decide⟩
  rw [ht]
  simp only [cursorSequence, transfersOf_append, transfersOf_simpleCommand]
  simp [transfersOf]

/-- C19: under ClearLeft, for every line and every `col <= 32` (the size of `dispStr`),
the policy step of `ste2007_vprintf` returns and its events are the cursor sequence for
`(0, line)` and then one chip-select bracket that contains one transfer of exactly `col`
words `0x0100`, or no transfer when `col = 0`. -/
theorem ste2007_vprintf_clear_left_trace (fuel : Nat) (dpyH : Display_Handle)
    (line col : Nat) (dispStr : List Nat)
    (hmode : dpyH.object.lineClearMode = Display_LineClearMode.DISPLAY_CLEAR_LEFT)
    (hcol : col ≤ 32) (hstr : dispStr.length = 32) (hline : line < 256) (hfuel : 2 ≤ fuel)
    (hcap : dpyH.object.cmdBuf.cap = 4) (hrow : dpyH.object.rowbuffer.cap = 96) :
    ∃ d', ste2007_vprintf_clear fuel dpyH line col dispStr = some d' ∧
      d'.trace = dpyH.trace ++ cursorSequence dpyH.hwAttrs.csPin 0 line ++
        [Event.GPIO_write dpyH.hwAttrs.csPin 0] ++
        (if col = 0 then [] else [Event.SPI_transfer (List.replicate col 0x0100)]) ++
        [Event.GPIO_write dpyH.hwAttrs.csPin 1] := by
  obtain ⟨d', h1, h2, -⟩ := ste2007_vprintf_clear_left fuel dpyH line col dispStr hmode
    (by omega) hline hfuel hcap (by omega) (by omega)
  refine ⟨d', h1, ?_⟩
  rw [h2]
  simp only [List.append_assoc]

/-- C19, at column 10 of line 3. -/
theorem ste2007_vprintf_clear_left_trace_witness :
    ((staleSessionWith Display_LineClearMode.DISPLAY_CLEAR_LEFT).object.lineClearMode =
        Display_LineClearMode.DISPLAY_CLEAR_LEFT ∧
      10 ≤ 32 ∧ (List.replicate 32 0x55).length = 32 ∧ 3 < 256 ∧ 2 ≤ 2 ∧
      (staleSessionWith Display_LineClearMode.DISPLAY_CLEAR_LEFT).object.cmdBuf.cap = 4 ∧
      (staleSessionWith Display_LineClearMode.DISPLAY_CLEAR_LEFT).object.rowbuffer.cap = 96) ∧
    ∃ d', ste2007_vprintf_clear 2 (staleSessionWith Display_LineClearMode.DISPLAY_CLEAR_LEFT)
        3 10 (List.replicate 32 0x55) = some d' ∧
      d'.trace = (staleSessionWith Display_LineClearMode.DISPLAY_CLEAR_LEFT).trace ++
        cursorSequence (staleSessionWith Display_LineClearMode.DISPLAY_CLEAR_LEFT).hwAttrs.csPin
          0 3 ++
        [Event.GPIO_write
          (staleSessionWith Display_LineClearMode.DISPLAY_CLEAR_LEFT).hwAttrs.csPin 0] ++
        (if 10 = 0 then [] else [Event.SPI_transfer (List.replicate 10 0x0100)]) ++
        [Event.GPIO_write
          (staleSessionWith Display_LineClearMode.DISPLAY_CLEAR_LEFT).hwAttrs.csPin 1] :=
  ⟨⟨rfl, by decide, by decide, by decide, by decide, rfl, rfl⟩,
    ste2007_vprintf_clear_left_trace 2
      (staleSessionWith Display_LineClearMode.DISPLAY_CLEAR_LEFT) 3 10 (List.replicate 32 0x55)
      rfl (by decide) (by decide) (by decide) (by decide) rfl rfl⟩

theorem Emits.write_glyph {a d : Display_Handle} {e : List Event} (h : Emits a d e)
    (fuel : Nat) (glyph : List Nat) (hfuel : 2 ≤ fuel) (hlen : glyph.length = 6)
    (hbytes : ∀ b ∈ glyph, b < 256) (hrow : 6 ≤ a.object.rowbuffer.cap)
    (hcap32 : a.object.rowbuffer.cap < 4294967296) :
    ∃ d', ste2007_write fuel d (glyph.take 6) = some d' ∧
      Emits a d' (e ++ [Event.SPI_transfer (glyph.map (fun b => 0x0100 ||| b))]) := by
  have ht : glyph.take 6 = glyph := List.take_of_length_le (by omega)
  rw [ht]
  obtain ⟨d', h1, h2, -⟩ := ste2007_write_single fuel d glyph hfuel (by omega)
    (by rw [h.2.2.2.1]; omega) (by rw [h.2.2.2.1]; exact hcap32)
  refine ⟨d', h1, ?_⟩
  have hw : glyph.map (pushWord 1) = glyph.map (fun b => 0x0100 ||| b) := by
    apply List.map_congr_left
    intro b hb
    rw [pushWord_eq 1 b (by omega) (hbytes b hb)]
    rfl
  rw [hw] at h2
  exact h.trans h2

/-- Invariant of the character loop of `ste2007_vprintf`, on printable characters followed
by the terminating NUL. -/
theorem ste2007_vprintf_loop_spec (font_5x7 : Nat → List Nat) (fuel : Nat) (hfuel : 2 ≤ fuel)
    (rest : List Nat) (a : Display_Handle) (hrow : 6 ≤ a.object.rowbuffer.cap)
    (hcap32 : a.object.rowbuffer.cap < 4294967296) :
    ∀ (s : List Nat) (d : Display_Handle) (e : List Event), Emits a d e →
      (∀ c ∈ s, 32 ≤ c ∧ c ≤ 126) →
      (∀ c ∈ s, (font_5x7 (c - 32)).length = 6 ∧ ∀ b ∈ font_5x7 (c - 32), b < 256) →
      ∃ d', ste2007_vprintf_loop font_5x7 fuel (s ++ 0 :: rest) d = some d' ∧
        Emits a d' (e ++ s.map (fun c =>
          Event.SPI_transfer ((font_5x7 (c - 32)).map (fun b => 0x0100 ||| b)))) := by
  intro s
  induction s with
  | nil =>
    intro d e h _ _
    refine ⟨d, by simp [ste2007_vprintf_loop], by simpa using h⟩
  | cons c s ih =>
    intro d e h hp hf
    have hc := hp c (List.mem_cons_self _ _)
    have hg := hf c (List.mem_cons_self _ _)
    have hidx : (c + 4294967296 - 32) % 4294967296 = c - 32 := by omega
    obtain ⟨d1, w1, e1⟩ := h.write_glyph fuel (font_5x7 (c - 32)) hfuel hg.1 hg.2 hrow hcap32
    obtain ⟨d2, w2, e2⟩ := ih d1 _ e1 (fun x hx => hp x (List.mem_cons_of_mem _ hx))
      (fun x hx => hf x (List.mem_cons_of_mem _ hx))
    refine ⟨d2, ?_, by simpa [List.append_assoc] using e2⟩
    have hne : c ≠ 0 := by omega
    simp only [List.cons_append, ste2007_vprintf_loop, hne, ne_eq, not_false_eq_true, if_true,
      hidx, w1]
    exact w2

theorem Emits.render {a d : Display_Handle} {e : List Event} (h : Emits a d e)
    (font_5x7 : Nat → List Nat) (fuel line col : Nat) (s rest : List Nat) (hfuel : 2 ≤ fuel)
    (hcol : col < 256) (hline : line < 256) (hcap : a.object.cmdBuf.cap = 4)
    (hrow : 6 ≤ a.object.rowbuffer.cap) (hcap32 : a.object.rowbuffer.cap < 4294967296)
    (hp : ∀ c ∈ s, 32 ≤ c ∧ c ≤ 126)
    (hf : ∀ c ∈ s, (font_5x7 (c - 32)).length = 6 ∧ ∀ b ∈ font_5x7 (c - 32), b < 256) :
    ∃ d', ste2007_vprintf_render font_5x7 fuel d line col (s ++ 0 :: rest) = some d' ∧
      Emits a d' (e ++ renderEvents a.hwAttrs.csPin font_5x7 col line s) := by
  have e1 := (h.setxy hcap col line hcol hline).chipselect 0
  obtain ⟨d2, w2, e2⟩ := ste2007_vprintf_loop_spec font_5x7 fuel hfuel rest a hrow hcap32 s _ _
    e1 hp hf
  have e3 := e2.chipselect 1
  refine ⟨_, ?_, by simpa [renderEvents, List.append_assoc] using e3⟩
  simp only [ste2007_vprintf_render, w2]

theorem ste2007_vprintf_clear_none (fuel : Nat) (dpyH : Display_Handle) (line col : Nat)
    (dispStr : List Nat)
    (hmode : dpyH.object.lineClearMode = Display_LineClearMode.DISPLAY_CLEAR_NONE) :
    ste2007_vprintf_clear fuel dpyH line col dispStr = some dpyH := by
  simp only [ste2007_vprintf_clear, hmode]

/-- C20: for a formatted string `s` of printable characters (followed in `dispStr` by the
terminating NUL), the rendering part of `ste2007_vprintf` returns and its events are the
cursor sequence for `(col, line)` and then a single chip-select bracket holding, for each
character of `s` in order, one transfer of its 6 glyph bytes (row `c - 32` of the table) as
words `0x0100 | byte`. Under the None policy the policy step does nothing, so the whole call
is: lock taken, these events, lock released. -/
theorem ste2007_vprintf_render_trace (font_5x7 : Nat → List Nat) (fuel : Nat)
    (dpyH : Display_Handle) (line col : Nat) (s rest dispStr : List Nat)
    (hp : ∀ c ∈ s, 32 ≤ c ∧ c ≤ 126)
    (hf : ∀ c ∈ s, (font_5x7 (c - 32)).length = 6 ∧ ∀ b ∈ font_5x7 (c - 32), b < 256)
    (hcol : col < 256) (hline : line < 256) (hfuel : 2 ≤ fuel)
    (hcap : dpyH.object.cmdBuf.cap = 4) (hrow : dpyH.object.rowbuffer.cap = 96) :
    (∃ d', ste2007_vprintf_render font_5x7 fuel dpyH line col (s ++ 0 :: rest) = some d' ∧
      d'.trace = dpyH.trace ++ renderEvents dpyH.hwAttrs.csPin font_5x7 col line s) ∧
    (dpyH.object.lineClearMode = Display_LineClearMode.DISPLAY_CLEAR_NONE →
      ste2007_vprintf_clear fuel dpyH line col dispStr = some dpyH) ∧
    (dpyH.object.lineClearMode = Display_LineClearMode.DISPLAY_CLEAR_NONE →
      dpyH.object.mutex = true →
      ∃ d', ste2007_vprintf font_5x7 fuel dpyH line col dispStr (s ++ 0 :: rest) = some d' ∧
        d'.trace = dpyH.trace ++ [Event.SemaphoreP_pend] ++
          renderEvents dpyH.hwAttrs.csPin font_5x7 col line s ++ [Event.SemaphoreP_post]) := by
  refine ⟨?_, ste2007_vprintf_clear_none fuel dpyH line col dispStr, ?_⟩
  · obtain ⟨d', h1, h2⟩ := (Emits.refl dpyH).render font_5x7 fuel line col s rest hfuel hcol
      hline hcap (by omega) (by omega) hp hf
    exact ⟨d', h1, by simpa using h2.1⟩
  · intro hmode hmutex
    obtain ⟨d1, hpend, e1, -, -, -⟩ := (Emits.refl dpyH).pend hmutex
    have hclear := ste2007_vprintf_clear_none fuel d1 line col dispStr (e1.2.2.2.2.1.trans hmode)
    obtain ⟨d2, hrender, e2⟩ := e1.render font_5x7 fuel line col s rest hfuel hcol hline hcap
      (by omega) (by omega) hp hf
    have e3 := e2.post
    refine ⟨_, ?_, by simpa [List.append_assoc] using e3.1⟩
    simp only [ste2007_vprintf, hpend, hclear, hrender]

/-- C20, for the two characters of "Hi" at column 12 of line 2, with a stand-in table. -/
theorem ste2007_vprintf_render_trace_witness :
    ((∀ c ∈ [0x48, 0x69], 32 ≤ c ∧ c ≤ 126) ∧
      (∀ c ∈ [0x48, 0x69],
        (sampleFont (c - 32)).length = 6 ∧ ∀ b ∈ sampleFont (c - 32), b < 256) ∧
      12 < 256 ∧ 2 < 256 ∧ 2 ≤ 2 ∧ staleSession.object.cmdBuf.cap = 4 ∧
      staleSession.object.rowbuffer.cap = 96) ∧
    ∃ d', ste2007_vprintf_render sampleFont 2 staleSession 2 12
        ([0x48, 0x69] ++ 0 :: List.replicate 29 0) = some d' ∧
      d'.trace = staleSession.trace ++
        renderEvents staleSession.hwAttrs.csPin sampleFont 12 2 [0x48, 0x69] :=
  ⟨⟨by decide, by decide, by decide, by decide, by decide, rfl, rfl⟩,
    (ste2007_vprintf_render_trace sampleFont 2 staleSession 2 12 [0x48, 0x69]
      (List.replicate 29 0) (List.replicate 32 0x55) (by decide) (by decide) (by decide)
      (by decide) (by decide) rfl rfl).1⟩

/-! ## Transaction buffer: the signed index of pop, and the buffer invariant -/

/-- Above `2^31` the conversion of `buf->len - 1` to `int32_t` is negative. -/
theorem toInt32_len_pred_neg (len : Nat) (h1 : 2147483648 < len) (h2 : len < 4294967296) :
    toInt32 ((len + 4294967296 - 1) % 4294967296) < 0 := by
  unfold toInt32
  split <;> omega

/-- With a negative index the loop of `spitxn_pop` is left before its first turn. -/
theorem spitxn_pop_loop_neg (n : Nat) (i : Int) (c : Nat) (b : SpiTxn_buffer) (hi : i < 0) :
    spitxn_pop_loop n i c b = (c, b) := by
  cases n with
  | zero => rfl
  | succ k =>
    have hg : ¬ (i > -1) := by omega
    simp only [spitxn_pop_loop, hg, if_false]

/-- On a buffer of more than `2^31` words `spitxn_pop` does nothing. -/
theorem spitxn_pop_above (b : SpiTxn_buffer) (n : Nat) (h1 : 2147483648 < b.len)
    (h2 : b.len < 4294967296) : spitxn_pop b n = (0, b) := by
  unfold spitxn_pop
  split
  · exact spitxn_pop_loop_neg _ _ _ _ (toInt32_len_pred_neg _ h1 h2)
  · rfl

/-- C27: on a buffer of capacity above 0, with `i` the `int32_t` index that `spitxn_pop`
initialises from `buf->len - 1`: when the length exceeds `2^31` the index is negative and
`spitxn_pop(n)` returns 0 and leaves the buffer (length and storage) as it was, for every
`n`; when the length is at most `2^31` the index is exactly `length - 1`, and the loop makes
`min n length` turns: that is the count returned, the length goes down by it, and the words
it passed over are the ones set to 0. -/
theorem spitxn_pop_signed_index (b : SpiTxn_buffer) (n : Nat) (hcap : 0 < b.cap)
    (hlen32 : b.len < 4294967296) :
    (2147483648 < b.len →
      toInt32 ((b.len + 4294967296 - 1) % 4294967296) < 0 ∧ spitxn_pop b n = (0, b)) ∧
    (b.len ≤ 2147483648 →
      toInt32 ((b.len + 4294967296 - 1) % 4294967296) = (b.len : Int) - 1 ∧
      (spitxn_pop b n).1 = min n b.len ∧
      (spitxn_pop b n).2.len = b.len - min n b.len ∧
      (∀ k, (spitxn_pop b n).2.buf k =
        if b.len - min n b.len ≤ k ∧ k < b.len then 0 else b.buf k)) := by
  refine ⟨fun h => ⟨toInt32_len_pred_neg _ h hlen32, spitxn_pop_above b n h hlen32⟩, ?_⟩
  intro h
  obtain ⟨r1, r2, -, r4⟩ := spitxn_pop_spec b n hcap h
  exact ⟨toInt32_len_pred _ h, r1, r2, r4⟩

/-- C27, on a buffer of 3000000000 words and on a buffer of 3 words, five words asked for
each time. -/
theorem spitxn_pop_signed_index_witness :
    ((0 < 4294967295 ∧ 3000000000 < 4294967296 ∧ 2147483648 < 3000000000) ∧
      spitxn_pop ⟨3000000000, 4294967295, fun _ => 7⟩ 5 =
        (0, ⟨3000000000, 4294967295, fun _ => 7⟩)) ∧
    ((0 < 4 ∧ 3 < 4294967296 ∧ 3 ≤ 2147483648) ∧
      (spitxn_pop ⟨3, 4, fun _ => 7⟩ 5).1 = min 5 3 ∧
      (spitxn_pop ⟨3, 4, fun _ => 7⟩ 5).2.len = 3 - min 5 3) :=
  ⟨⟨by decide,
    ((spitxn_pop_signed_index ⟨3000000000, 4294967295, fun _ => 7⟩ 5 (by decide)
      (by decide)).1 (by decide)).2⟩,
   ⟨by decide,
    ((spitxn_pop_signed_index ⟨3, 4, fun _ => 7⟩ 5 (by decide) (by decide)).2
      (by decide)).2.1,
    ((spitxn_pop_signed_index ⟨3, 4, fun _ => 7⟩ 5 (by decide) (by decide)).2
      (by decide)).2.2.1⟩⟩

theorem ste2007_issuecmd_rowbuffer (d : Display_Handle) (cmd arg argmask : Nat) :
    (ste2007_issuecmd d cmd arg argmask).object.rowbuffer = d.object.rowbuffer := rfl

theorem ste2007_setxy_rowbuffer (d : Display_Handle) (x y : Nat) :
    (ste2007_setxy d x y).object.rowbuffer = d.object.rowbuffer := rfl

/-- The loop of `ste2007_clearLines` leaves the row buffer as it finds it. -/
theorem ste2007_clearLines_loop_rowbuffer (count end_ : Nat) :
    ∀ (k i : Nat) (d : Display_Handle), end_ + 1 - i = k →
      (ste2007_clearLines_loop count end_ i d).object.rowbuffer = d.object.rowbuffer := by
  intro k
  induction k with
  | zero =>
    intro i d hk
    rw [ste2007_clearLines_loop, if_neg (by omega)]
  | succ k ih =>
    intro i d hk
    rw [ste2007_clearLines_loop, if_pos (by omega)]
    exact ih (i + 1) _ (by omega)

/-- The row buffer after `ste2007_clear`: length 96, capacity as before. -/
theorem ste2007_clear_rowbuffer (s : Display_Handle) (hmutex : s.object.mutex = true) :
    ∃ d', ste2007_clear s = some d' ∧ d'.object.rowbuffer.len = 96 ∧
      d'.object.rowbuffer.cap = s.object.rowbuffer.cap := by
  obtain ⟨d1, ⟨-, -, -, p4, p5, -⟩, heq⟩ := ste2007_clear_unfold s hmutex
  have hrow : (SemaphoreP_post (ste2007_chipselect
      (ste2007_clear_loop 96 0 (ste2007_chipselect (ste2007_setxy d1 0 0) 0)) 1)).object.rowbuffer
      = d1.object.rowbuffer := by
    show (ste2007_clear_loop 96 0 (ste2007_chipselect (ste2007_setxy d1 0 0) 0)).object.rowbuffer
      = d1.object.rowbuffer
    rw [(ste2007_clear_loop_spec 96 9 0 _ rfl).2]
    rfl
  exact ⟨_, heq, by rw [hrow, p4], by rw [hrow, p5]⟩

/-- The row buffer after `ste2007_clearLines`: length 96, capacity as before. -/
theorem ste2007_clearLines_rowbuffer (s : Display_Handle) (start end_ : Nat)
    (hmutex : s.object.mutex = true) :
    ∃ d', ste2007_clearLines s start end_ = some d' ∧ d'.object.rowbuffer.len = 96 ∧
      d'.object.rowbuffer.cap = s.object.rowbuffer.cap := by
  obtain ⟨d1, ⟨-, -, -, p4, p5, -⟩, heq⟩ := ste2007_clearLines_unfold s start end_ hmutex
  have hrow : (SemaphoreP_post (ste2007_clearLines_loop 96
      (if end_ < start then start else end_) start d1)).object.rowbuffer
      = d1.object.rowbuffer :=
    ste2007_clearLines_loop_rowbuffer 96 _ _ start d1 rfl
  exact ⟨_, heq, by rw [hrow, p4], by rw [hrow, p5]⟩

/-- C24: the invariant `length <= capacity` (lengths are unsigned, so `0 <= length` always
holds), with the capacity unchanged. `ste2007_init` establishes it: command buffer capacity
4, row buffer capacity 96, both of length 0. On a buffer `b` that satisfies it,
`spitxn_erase`, `spitxn_reset`, `spitxn_push` (any tag, any bytes) and `spitxn_pop` (any
count) give a buffer that satisfies it, with the capacity of `b`. On a session whose row
buffer has the capacity 96 that `ste2007_init` gives it, `ste2007_clear` and
`ste2007_clearLines` return with the row buffer at length 96, within that same capacity. -/
theorem buffer_invariant (dpyH s : Display_Handle) (b : SpiTxn_buffer) (tag : Nat)
    (data : List Nat) (n start end_ : Nat)
    (hinv : b.lengthWithinCapacity) (hcap32 : b.cap < 4294967296)
    (hmutex : s.object.mutex = true) (hrow : s.object.rowbuffer.cap = 96) :
    ((ste2007_init dpyH).object.cmdBuf.cap = 4 ∧ (ste2007_init dpyH).object.cmdBuf.len = 0 ∧
      (ste2007_init dpyH).object.cmdBuf.lengthWithinCapacity ∧
      (ste2007_init dpyH).object.rowbuffer.cap = 96 ∧
      (ste2007_init dpyH).object.rowbuffer.len = 0 ∧
      (ste2007_init dpyH).object.rowbuffer.lengthWithinCapacity) ∧
    ((spitxn_erase b).lengthWithinCapacity ∧ (spitxn_erase b).cap = b.cap) ∧
    ((spitxn_reset b).lengthWithinCapacity ∧ (spitxn_reset b).cap = b.cap) ∧
    ((spitxn_push b tag data).2.lengthWithinCapacity ∧ (spitxn_push b tag data).2.cap = b.cap) ∧
    ((spitxn_pop b n).2.lengthWithinCapacity ∧ (spitxn_pop b n).2.cap = b.cap) ∧
    (∃ d', ste2007_clear s = some d' ∧ d'.object.rowbuffer.len = 96 ∧
      d'.object.rowbuffer.lengthWithinCapacity ∧
      d'.object.rowbuffer.cap = s.object.rowbuffer.cap) ∧
    (∃ d', ste2007_clearLines s start end_ = some d' ∧ d'.object.rowbuffer.len = 96 ∧
      d'.object.rowbuffer.lengthWithinCapacity ∧
      d'.object.rowbuffer.cap = s.object.rowbuffer.cap) := by
  have hle : b.len ≤ b.cap := hinv
  refine ⟨⟨rfl, rfl, ?_, rfl, rfl, ?_⟩, ⟨?_, rfl⟩, ⟨?_, rfl⟩, ?_, ?_, ?_, ?_⟩
  · show (0 : Nat) ≤ 4
    decide
  · show (0 : Nat) ≤ 16 * 6
    decide
  · show (0 : Nat) ≤ b.cap
    exact Nat.zero_le _
  · show (0 : Nat) ≤ b.cap
    exact Nat.zero_le _
  · by_cases hcap : b.cap > 0
    · obtain ⟨-, r2, r3, -⟩ := spitxn_push_loop_spec tag data b.len 0 b rfl hle hcap32
      have hp : spitxn_push b tag data = spitxn_push_loop tag data b.len 0 b := by
        simp only [spitxn_push, hcap, if_true]
      rw [hp]
      refine ⟨?_, r3⟩
      show (spitxn_push_loop tag data b.len 0 b).2.len ≤ (spitxn_push_loop tag data b.len 0 b).2.cap
      rw [r2, r3]
      omega
    · have hp : spitxn_push b tag data = (0, b) := by
        simp only [spitxn_push, hcap, if_false]
      rw [hp]
      exact ⟨hinv, rfl⟩
  · by_cases hcap : b.cap > 0
    · by_cases hlen : b.len ≤ 2147483648
      · obtain ⟨-, r2, r3, -⟩ := spitxn_pop_spec b n hcap hlen
        refine ⟨?_, r3⟩
        show (spitxn_pop b n).2.len ≤ (spitxn_pop b n).2.cap
        rw [r2, r3]
        omega
      · rw [spitxn_pop_above b n (by omega) (by omega)]
        exact ⟨hinv, rfl⟩
    · have hp : spitxn_pop b n = (0, b) := by
        simp only [spitxn_pop, hcap, if_false]
      rw [hp]
      exact ⟨hinv, rfl⟩
  · obtain ⟨d', h1, h2, h3⟩ := ste2007_clear_rowbuffer s hmutex
    refine ⟨d', h1, h2, ?_, h3⟩
    show d'.object.rowbuffer.len ≤ d'.object.rowbuffer.cap
    rw [h2, h3, hrow]
  · obtain ⟨d', h1, h2, h3⟩ := ste2007_clearLines_rowbuffer s start end_ hmutex
    refine ⟨d', h1, h2, ?_, h3⟩
    show d'.object.rowbuffer.len ≤ d'.object.rowbuffer.cap
    rw [h2, h3, hrow]

/-- C24, on a command buffer holding 3 of 4 words (two bytes pushed, five words popped) and
on the session of the worked instances. -/
theorem buffer_invariant_witness :
    ((⟨3, 4, fun _ => 7⟩ : SpiTxn_buffer).lengthWithinCapacity ∧ 4 < 4294967296 ∧
      staleSession.object.mutex = true ∧ staleSession.object.rowbuffer.cap = 96) ∧
    ((spitxn_push ⟨3, 4, fun _ => 7⟩ 1 [65, 66]).2.lengthWithinCapacity ∧
      (spitxn_push ⟨3, 4, fun _ => 7⟩ 1 [65, 66]).2.cap = 4) ∧
    ((spitxn_pop ⟨3, 4, fun _ => 7⟩ 5).2.lengthWithinCapacity ∧
      (spitxn_pop ⟨3, 4, fun _ => 7⟩ 5).2.cap = 4) ∧
    (∃ d', ste2007_clear staleSession = some d' ∧ d'.object.rowbuffer.len = 96 ∧
      d'.object.rowbuffer.lengthWithinCapacity ∧
      d'.object.rowbuffer.cap = staleSession.object.rowbuffer.cap) :=
  have h := buffer_invariant staleSession staleSession ⟨3, 4, fun _ => 7⟩ 1 [65, 66] 5 7 8
    (by show (3 : Nat) ≤ 4; decide) (by decide) rfl rfl
  ⟨⟨by show (3 : Nat) ≤ 4; decide, by decide, rfl, rfl⟩, h.2.2.2.1, h.2.2.2.2.1, h.2.2.2.2.2.1⟩

/-! ## Protocol engine: the cursor encoding read back -/

set_option maxRecDepth 100000 in
/-- The line field of the first cursor word, for every 8-bit line. -/
theorem cursor_line_field : ∀ y < 256, (0xB0 ||| (y &&& 0x0F)) &&& 0x0F = y % 16 := by
  decide

set_option maxRecDepth 100000 in
/-- The column fields of the second and third cursor words, for every 8-bit column. -/
theorem cursor_column_fields :
    ∀ x < 256, (((0x10 ||| ((x >>> 4) &&& 0x07)) &&& 0x07) <<< 4) ||| ((x &&& 0x0F) &&& 0x0F)
      = x % 128 := by
  decide

/-- The three words that `ste2007_setxy` hands to the transport. -/
theorem ste2007_setxy_transfers (dpyH : Display_Handle) (x y : Nat) (hx : x < 256)
    (hy : y < 256) (hcap : dpyH.object.cmdBuf.cap = 4) :
    transfersOf (ste2007_setxy dpyH x y).trace = transfersOf dpyH.trace ++
      [[0xB0 ||| (y &&& 0x0F)], [0x10 ||| ((x >>> 4) &&& 0x07)], [x &&& 0x0F]] := by
  rw [(ste2007_setxy_emits dpyH x y hx hy hcap).1.1, transfersOf_append]
  simp only [cursorSequence, transfersOf_append, transfersOf_simpleCommand]
  rfl

/-- C26: for every 8-bit `x` and `y`, `ste2007_setxy` hands three one-word transfers
`w1`, `w2`, `w3` to the transport, and these read back as the requested position modulo the
field widths: `w1 & 0x0F = y mod 16` and `((w2 & 0x07) << 4) | (w3 & 0x0F) = x mod 128`.
Hence for `x < 128` and `y < 16` the pair read back is exactly `(y, x)`, and a second
position in that range whose three words are the same is the same position. -/
theorem ste2007_setxy_decodes (dpyH : Display_Handle) (x y : Nat) (hx : x < 256)
    (hy : y < 256) (hcap : dpyH.object.cmdBuf.cap = 4) :
    ∃ w1 w2 w3,
      transfersOf (ste2007_setxy dpyH x y).trace =
        transfersOf dpyH.trace ++ [[w1], [w2], [w3]] ∧
      w1 &&& 0x0F = y % 16 ∧
      ((w2 &&& 0x07) <<< 4) ||| (w3 &&& 0x0F) = x % 128 ∧
      decodeCursor w1 w2 w3 = (y % 16, x % 128) ∧
      (x < 128 → y < 16 → decodeCursor w1 w2 w3 = (y, x)) ∧
      (∀ x2 y2, x < 128 → y < 16 → x2 < 128 → y2 < 16 →
        transfersOf (ste2007_setxy dpyH x2 y2).trace =
          transfersOf (ste2007_setxy dpyH x y).trace → x2 = x ∧ y2 = y) := by
  have hl := cursor_line_field y hy
  have hc := cursor_column_fields x hx
  refine ⟨_, _, _, ste2007_setxy_transfers dpyH x y hx hy hcap, hl, hc, ?_, ?_, ?_⟩
  · show (_, _) = _
    rw [hl, hc]
  · intro h1 h2
    show (_, _) = _
    rw [hl, hc, Nat.mod_eq_of_lt h1, Nat.mod_eq_of_lt h2]
  · intro x2 y2 h1 h2 h3 h4 heq
    rw [ste2007_setxy_transfers dpyH x y hx hy hcap,
      ste2007_setxy_transfers dpyH x2 y2 (by omega) (by omega) hcap] at heq
    have hw := List.append_cancel_left heq
    simp only [List.cons.injEq, and_true] at hw
    obtain ⟨e1, e2, e3⟩ := hw
    have hl2 := cursor_line_field y2 (by omega)
    have hc2 := cursor_column_fields x2 (by omega)
    rw [e1, hl] at hl2
    rw [e2, e3, hc] at hc2
    omega

/-- C26, at the last visible column and row, position (95, 8). -/
theorem ste2007_setxy_decodes_witness :
    (95 < 256 ∧ 8 < 256 ∧ staleSession.object.cmdBuf.cap = 4) ∧
    ∃ w1 w2 w3,
      transfersOf (ste2007_setxy staleSession 95 8).trace =
        transfersOf staleSession.trace ++ [[w1], [w2], [w3]] ∧
      w1 &&& 0x0F = 8 % 16 ∧
      ((w2 &&& 0x07) <<< 4) ||| (w3 &&& 0x0F) = 95 % 128 ∧
      decodeCursor w1 w2 w3 = (8 % 16, 95 % 128) ∧
      (95 < 128 → 8 < 16 → decodeCursor w1 w2 w3 = (8, 95)) ∧
      (∀ x2 y2, 95 < 128 → 8 < 16 → x2 < 128 → y2 < 16 →
        transfersOf (ste2007_setxy staleSession x2 y2).trace =
          transfersOf (ste2007_setxy staleSession 95 8).trace → x2 = 95 ∧ y2 = 8) :=
  ⟨⟨by decide, by decide, rfl⟩,
    ste2007_setxy_decodes staleSession 95 8 (by decide) (by decide) rfl⟩

/-! ## Protocol engine: the number and the sizes of the transfers of a write -/

/-- Invariant of the `while` loop of `ste2007_write` on a row buffer of capacity `cap > 0`,
entered with `ttl <= len`: with more iterations allowed than bytes left, the loop ends after
`ceil((len - ttl) / cap)` transfers, none of them empty, all of `cap` words except the last,
which carries what is left. -/
theorem ste2007_write_loop_chunks (ubuf : List Nat) (hlen : ubuf.length < 65536) (cap : Nat)
    (hcap : 0 < cap) (hcap32 : cap < 4294967296) :
    ∀ (fuel ttl : Nat) (dpyH : Display_Handle), dpyH.object.rowbuffer.cap = cap →
      ttl ≤ ubuf.length → ubuf.length - ttl < fuel →
      ∃ (d' : Display_Handle) (chunks : List (List Nat)),
        ste2007_write_loop ubuf fuel ttl dpyH = some d' ∧
        d'.trace = dpyH.trace ++ chunks.map Event.SPI_transfer ∧
        chunks.length = (ubuf.length - ttl + cap - 1) / cap ∧
        (∀ j, j < chunks.length → (chunks.getD j []).length =
          if j + 1 < chunks.length then cap
          else ubuf.length - ttl - cap * (chunks.length - 1)) ∧
        (∀ c ∈ chunks, 0 < c.length) := by
  intro fuel
  induction fuel with
  | zero =>
    intro ttl dpyH _ _ hf
    omega
  | succ fuel ih =>
    intro ttl dpyH hc httl hf
    by_cases hlt : ttl < ubuf.length
    · by_cases hbig : ubuf.length - ttl > cap
      · -- a full chunk, and more to come
        have hn : cap = if ubuf.length - ttl > dpyH.object.rowbuffer.cap
            then dpyH.object.rowbuffer.cap else ubuf.length - ttl := by
          rw [hc, if_pos hbig]
        have hstep := ste2007_write_loop_step ubuf fuel ttl cap dpyH hlt hn
        have hdl : ((ubuf.drop ttl).take cap).length = cap := by
          rw [List.length_take, List.length_drop]; omega
        obtain ⟨-, pl, pc, pw⟩ := spitxn_push_reset_spec dpyH.object.rowbuffer 1
          ((ubuf.drop ttl).take cap) (by omega) (by omega) (by rw [hdl, hc])
        rw [hdl] at pl pw
        have hmod : (ttl + cap) % 4294967296 = ttl + cap := by omega
        rw [pl, hmod] at hstep
        obtain ⟨d', chunks, e1, e2, e3, e4, e5⟩ := ih (ttl + cap)
          (SPI_transfer
            { dpyH with object := { dpyH.object with
                rowbuffer := (spitxn_push (spitxn_reset dpyH.object.rowbuffer) 1
                  ((ubuf.drop ttl).take cap)).2 } }
            cap (spitxn_push (spitxn_reset dpyH.object.rowbuffer) 1
                  ((ubuf.drop ttl).take cap)).2.buf)
          (by show (spitxn_push _ _ _).2.cap = cap; rw [pc, hc])
          (by omega) (by omega)
        have hk : (ubuf.length - ttl + cap - 1) / cap = chunks.length + 1 := by
          rw [e3, ← Nat.add_div_right _ hcap]
          congr 1
          omega
        have hpos : 0 < chunks.length := by
          rw [e3]
          apply Nat.div_pos _ hcap
          omega
        obtain ⟨m, hm⟩ : ∃ m, chunks.length = m + 1 := ⟨chunks.length - 1, by omega⟩
        refine ⟨d', ((ubuf.drop ttl).take cap).map (pushWord 1) :: chunks, hstep.trans e1,
          ?_, ?_, ?_, ?_⟩
        · rw [e2]
          simp only [SPI_transfer, pw, List.map_cons, List.append_assoc, List.singleton_append]
        · rw [List.length_cons, hk]
        · intro j hj
          rw [List.length_cons] at hj ⊢
          cases j with
          | zero =>
            rw [List.getD_cons_zero, List.length_map, hdl, if_pos (by omega)]
          | succ j =>
            rw [List.getD_cons_succ, e4 j (by omega)]
            by_cases hj2 : j + 1 < chunks.length
            · rw [if_pos hj2, if_pos (by omega)]
            · rw [if_neg hj2, if_neg (by omega), hm]
              have h1 : m + 1 - 1 = m := by omega
              have h2 : m + 1 + 1 - 1 = m + 1 := by omega
              rw [h1, h2, Nat.mul_succ]
              omega
        · intro c hcm
          rcases List.mem_cons.mp hcm with h | h
          · subst h
            rw [List.length_map, hdl]
            exact hcap
          · exact e5 c h
      · -- the last chunk
        have hn : ubuf.length - ttl = if ubuf.length - ttl > dpyH.object.rowbuffer.cap
            then dpyH.object.rowbuffer.cap else ubuf.length - ttl := by
          rw [hc, if_neg hbig]
        have hstep := ste2007_write_loop_step ubuf fuel ttl (ubuf.length - ttl) dpyH hlt hn
        have hdl : ((ubuf.drop ttl).take (ubuf.length - ttl)).length = ubuf.length - ttl := by
          rw [List.length_take, List.length_drop]; omega
        obtain ⟨-, pl, pc, pw⟩ := spitxn_push_reset_spec dpyH.object.rowbuffer 1
          ((ubuf.drop ttl).take (ubuf.length - ttl)) (by omega) (by omega)
          (by rw [hdl, hc]; omega)
        rw [hdl] at pl pw
        have hmod : (ttl + (ubuf.length - ttl)) % 4294967296 = ubuf.length := by omega
        obtain ⟨f, rfl⟩ : ∃ f, fuel = f + 1 := ⟨fuel - 1, by omega⟩
        rw [pl, hmod, ste2007_write_loop_done ubuf f ubuf.length _ (Nat.lt_irrefl _)] at hstep
        have hk : (ubuf.length - ttl + cap - 1) / cap = 1 :=
          Nat.div_eq_of_lt_le (by omega) (by omega)
        refine ⟨_, [((ubuf.drop ttl).take (ubuf.length - ttl)).map (pushWord 1)], hstep,
          ?_, ?_, ?_, ?_⟩
        · simp only [SPI_transfer, pw, List.map_cons, List.map_nil]
        · rw [hk]
          rfl
        · intro j hj
          have hj0 : j = 0 := by
            simp only [List.length_singleton] at hj
            omega
          subst hj0
          simp only [List.length_singleton, List.getD_cons_zero, List.length_map, hdl]
          simp
        · intro c hcm
          rw [List.mem_singleton.mp hcm, List.length_map, hdl]
          omega
    · -- nothing left
      have hk : (ubuf.length - ttl + cap - 1) / cap = 0 :=
        Nat.div_eq_of_lt (by omega)
      refine ⟨dpyH, [], ste2007_write_loop_done ubuf fuel ttl dpyH hlt, by simp, ?_, ?_, ?_⟩
      · rw [hk]
        rfl
      · intro j hj
        simp at hj
      · intro c hcm
        simp at hcm

/-- C25: on a row buffer of capacity `cap > 0`, `ste2007_write` of `len < 65536` bytes
returns once it is allowed more than `len` iterations, and the events it appends are exactly
`ceil(len / cap) = (len + cap - 1) / cap` transfers: every transfer but the last carries
`cap` words, the last carries `len - cap * (ceil(len / cap) - 1)` words, no transfer is
empty, and for `len = 0` there is no transfer and the trace is as it was. -/
theorem ste2007_write_transfer_count (fuel : Nat) (dpyH : Display_Handle) (buf : List Nat)
    (hcap : 0 < dpyH.object.rowbuffer.cap) (hcap32 : dpyH.object.rowbuffer.cap < 4294967296)
    (hlen : buf.length < 65536) (hfuel : buf.length < fuel) :
    ∃ (d' : Display_Handle) (chunks : List (List Nat)),
      ste2007_write fuel dpyH buf = some d' ∧
      d'.trace = dpyH.trace ++ chunks.map Event.SPI_transfer ∧
      chunks.length = (buf.length + dpyH.object.rowbuffer.cap - 1) / dpyH.object.rowbuffer.cap ∧
      (∀ j, j < chunks.length → (chunks.getD j []).length =
        if j + 1 < chunks.length then dpyH.object.rowbuffer.cap
        else buf.length - dpyH.object.rowbuffer.cap * (chunks.length - 1)) ∧
      (∀ c ∈ chunks, 0 < c.length) ∧
      (buf.length = 0 → chunks = [] ∧ d'.trace = dpyH.trace) := by
  obtain ⟨d', chunks, e1, e2, e3, e4, e5⟩ :=
    ste2007_write_loop_chunks buf hlen dpyH.object.rowbuffer.cap hcap hcap32 fuel 0 dpyH rfl
      (Nat.zero_le _) (by omega)
  rw [Nat.sub_zero] at e3 e4
  refine ⟨d', chunks, e1, e2, e3, e4, e5, ?_⟩
  intro h0
  have hk : chunks.length = 0 := by
    rw [e3, h0]
    exact Nat.div_eq_of_lt (by omega)
  have hnil : chunks = [] := List.length_eq_zero.mp hk
  refine ⟨hnil, ?_⟩
  rw [e2, hnil]
  simp

/-- C25, at a write of 200 bytes through the 96-word row buffer: 3 transfers, of 96, 96 and
8 words. -/
theorem ste2007_write_transfer_count_witness :
    (0 < staleSession.object.rowbuffer.cap ∧ staleSession.object.rowbuffer.cap < 4294967296 ∧
      (List.range 200).length < 65536 ∧ (List.range 200).length < 201) ∧
    ∃ (d' : Display_Handle) (chunks : List (List Nat)),
      ste2007_write 201 staleSession (List.range 200) = some d' ∧
      d'.trace = staleSession.trace ++ chunks.map Event.SPI_transfer ∧
      chunks.length =
        ((List.range 200).length + staleSession.object.rowbuffer.cap - 1) /
          staleSession.object.rowbuffer.cap ∧
      (∀ j, j < chunks.length → (chunks.getD j []).length =
        if j + 1 < chunks.length then staleSession.object.rowbuffer.cap
        else (List.range 200).length - staleSession.object.rowbuffer.cap * (chunks.length - 1)) ∧
      (∀ c ∈ chunks, 0 < c.length) ∧
      ((List.range 200).length = 0 → chunks = [] ∧ d'.trace = staleSession.trace) :=
  have h1 : 0 < staleSession.object.rowbuffer.cap := by decide
  have h2 : staleSession.object.rowbuffer.cap < 4294967296 := by decide
  have h3 : (List.range 200).length < 65536 := by simp
  have h4 : (List.range 200).length < 201 := by simp
  ⟨⟨h1, h2, h3, h4⟩, ste2007_write_transfer_count 201 staleSession (List.range 200) h1 h2 h3 h4⟩

/-! ## Session lock: bring-up -/

/-- C22: when `SPI_open` returns `NULL`, `ste2007_open` returns `NULL` with the session lock
still taken: the only lock event of the call is the acquisition, the semaphore is not
available at return, and a full clear called on the session afterwards never returns. -/
theorem ste2007_open_keeps_lock_on_bus_failure :
    ∃ d', ste2007_open busUnavailable staleSession
        ⟨Display_LineClearMode.DISPLAY_CLEAR_NONE⟩ = some (false, d') ∧
      d'.trace = [Event.SemaphoreP_pend] ∧
      d'.object.mutex = false ∧
      lockDiscipline false d'.trace = some true ∧
      ste2007_clear d' = none :=
  ⟨_, rfl, rfl, rfl, rfl, rfl⟩

/-! ## Session lock: the discipline along the events of an operation -/

theorem lockDiscipline_append (h : Bool) (e1 e2 : List Event) :
    lockDiscipline h (e1 ++ e2) =
      (lockDiscipline h e1).bind (fun h' => lockDiscipline h' e2) := by
  induction e1 generalizing h with
  | nil => simp [lockDiscipline]
  | cons e rest ih =>
    cases e <;> cases h <;> simp [lockDiscipline, ih]

/-- Transfers alone keep a held lock held. -/
theorem lockDiscipline_transfers (chunks : List (List Nat)) :
    lockDiscipline true (chunks.map Event.SPI_transfer) = some true := by
  induction chunks with
  | nil => rfl
  | cons c rest ih => simpa [lockDiscipline] using ih

theorem WhileHeld.idle (d : Display_Handle) : WhileHeld d d :=
  ⟨⟨[], by simp, rfl⟩, rfl, rfl⟩

theorem WhileHeld.andThen {a b c : Display_Handle} (h1 : WhileHeld a b) (h2 : WhileHeld b c) :
    WhileHeld a c := by
  obtain ⟨⟨e1, t1, l1⟩, m1, r1⟩ := h1
  obtain ⟨⟨e2, t2, l2⟩, m2, r2⟩ := h2
  refine ⟨⟨e1 ++ e2, by rw [t2, t1, List.append_assoc], ?_⟩, m2.trans m1, r2.trans r1⟩
  rw [lockDiscipline_append, l1]
  exact l2

/-- An operation that takes the lock, keeps the discipline while it holds it and releases
it before returning. -/
theorem WhileHeld.returnsUnlocked {d d1 d2 : Display_Handle}
    (hp : d1.trace = d.trace ++ [Event.SemaphoreP_pend]) (h : WhileHeld d1 d2) :
    ReturnsUnlocked d (some (SemaphoreP_post d2)) := by
  obtain ⟨⟨evs, t, l⟩, -, -⟩ := h
  refine ⟨_, [Event.SemaphoreP_pend] ++ evs ++ [Event.SemaphoreP_post], rfl, ?_, ?_, rfl⟩
  · show d2.trace ++ [Event.SemaphoreP_post] = _
    rw [t, hp]
    simp only [List.append_assoc]
  · rw [List.append_assoc, lockDiscipline_append]
    show (lockDiscipline true (evs ++ [Event.SemaphoreP_post])) = some false
    rw [lockDiscipline_append, l]
    rfl

theorem ste2007_chipselect_whileHeld (d : Display_Handle) (onoff : Nat) :
    WhileHeld d (ste2007_chipselect d onoff) :=
  ⟨⟨[Event.GPIO_write d.hwAttrs.csPin onoff], rfl, rfl⟩, rfl, rfl⟩

theorem SPI_transfer_whileHeld (d : Display_Handle) (count : Nat) (txBuf : Storage) :
    WhileHeld d (SPI_transfer d count txBuf) :=
  ⟨⟨[Event.SPI_transfer (txBuf.words count)], rfl, rfl⟩, rfl, rfl⟩

theorem GPIO_write_whileHeld (d : Display_Handle) (index value : Nat) :
    WhileHeld d (GPIO_write d index value) :=
  ⟨⟨[Event.GPIO_write index value], rfl, rfl⟩, rfl, rfl⟩

theorem whileHeld_cmdBuf (d : Display_Handle) (b : SpiTxn_buffer) :
    WhileHeld d { d with object := { d.object with cmdBuf := b } } :=
  ⟨⟨[], by simp, rfl⟩, rfl, rfl⟩

theorem ste2007_issuecmd_whileHeld (d : Display_Handle) (cmd arg argmask : Nat) :
    WhileHeld d (ste2007_issuecmd d cmd arg argmask) :=
  (((whileHeld_cmdBuf d _).andThen (ste2007_chipselect_whileHeld _ 0)).andThen
    (SPI_transfer_whileHeld _ _ _)).andThen (ste2007_chipselect_whileHeld _ 1)

theorem ste2007_issue_compoundcmd_whileHeld (d : Display_Handle) (cmd arg argmask : Nat) :
    WhileHeld d (ste2007_issue_compoundcmd d cmd arg argmask) :=
  (((whileHeld_cmdBuf d _).andThen (ste2007_chipselect_whileHeld _ 0)).andThen
    (SPI_transfer_whileHeld _ _ _)).andThen (ste2007_chipselect_whileHeld _ 1)

theorem ste2007_setxy_whileHeld (d : Display_Handle) (x y : Nat) :
    WhileHeld d (ste2007_setxy d x y) :=
  ((ste2007_issuecmd_whileHeld d _ _ _).andThen (ste2007_issuecmd_whileHeld _ _ _ _)).andThen
    (ste2007_issuecmd_whileHeld _ _ _ _)

theorem ste2007_refreshrate_whileHeld (d : Display_Handle) (val : Nat) :
    WhileHeld d (ste2007_refreshrate d val) := by
  unfold ste2007_refreshrate
  repeat' split
  all_goals exact ste2007_issue_compoundcmd_whileHeld _ _ _ _

theorem ste2007_powersave_whileHeld (d : Display_Handle) (onoff : Nat) :
    WhileHeld d (ste2007_powersave d onoff) :=
  (ste2007_issuecmd_whileHeld d _ _ _).andThen (ste2007_issuecmd_whileHeld _ _ _ _)

theorem ste2007_contrast_whileHeld (d : Display_Handle) (val : Nat) :
    WhileHeld d (ste2007_contrast d val) :=
  ste2007_issuecmd_whileHeld d _ _ _

theorem ste2007_invert_whileHeld (d : Display_Handle) (onoff : Nat) :
    WhileHeld d (ste2007_invert d onoff) :=
  ste2007_issuecmd_whileHeld d _ _ _

/-- Every path through `ste2007_control` keeps the discipline of a held lock. -/
theorem ste2007_control_whileHeld (K : Display_h) (d : Display_Handle) (cmd : Nat)
    (arg : Option Nat) : WhileHeld d (ste2007_control K d cmd arg).2 := by
  unfold ste2007_control
  by_cases h1 : cmd = NOKIA1202_CMD_CONTRAST K
  · rw [if_pos h1]
    cases arg with
    | none => exact WhileHeld.idle d
    | some v =>
      dsimp only
      by_cases hv : v > 31
      · rw [if_pos hv]
        exact WhileHeld.idle d
      · rw [if_neg hv]
        exact ste2007_contrast_whileHeld d v
  rw [if_neg h1]
  by_cases h2 : cmd = NOKIA1202_CMD_REFRESHRATE K
  · rw [if_pos h2]
    cases arg with
    | none => exact WhileHeld.idle d
    | some v =>
      dsimp only
      by_cases hv : v ≠ 65 ∧ v ≠ 70 ∧ v ≠ 75 ∧ v ≠ 80
      · rw [if_pos hv]
        exact WhileHeld.idle d
      · rw [if_neg hv]
        exact ste2007_refreshrate_whileHeld d v
  rw [if_neg h2]
  by_cases h3 : cmd = NOKIA1202_CMD_INVERT K
  · rw [if_pos h3]
    cases arg with
    | none => exact WhileHeld.idle d
    | some v =>
      dsimp only
      by_cases hv : v ≠ 0
      · rw [if_pos hv]
        exact ste2007_invert_whileHeld d 1
      · rw [if_neg hv]
        exact ste2007_invert_whileHeld d 0
  rw [if_neg h3]
  by_cases h4 : cmd = NOKIA1202_CMD_POWERSAVE K
  · rw [if_pos h4]
    cases arg with
    | none => exact WhileHeld.idle d
    | some v =>
      dsimp only
      by_cases hv : v ≠ 0
      · rw [if_pos hv]
        exact ste2007_powersave_whileHeld d 1
      · rw [if_neg hv]
        exact ste2007_powersave_whileHeld d 0
  rw [if_neg h4]
  by_cases h5 : cmd = NOKIA1202_CMD_BACKLIGHT K
  · rw [if_pos h5]
    cases arg with
    | none => exact WhileHeld.idle d
    | some v =>
      dsimp only
      by_cases hb : d.hwAttrs.useBacklight = false
      · rw [if_pos hb]
        exact WhileHeld.idle d
      · by_cases hv : v ≠ 0
        · rw [if_neg hb, if_pos hv]
          exact GPIO_write_whileHeld d _ 1
        · rw [if_neg hb, if_neg hv]
          exact GPIO_write_whileHeld d _ 0
  rw [if_neg h5]
  exact WhileHeld.idle d

/-- The transfer loop of `ste2007_clear` keeps the discipline of a held lock. -/
theorem ste2007_clear_loop_whileHeld (count : Nat) :
    ∀ (k i : Nat) (d : Display_Handle), 9 - i = k →
      WhileHeld d (ste2007_clear_loop count i d) := by
  intro k
  induction k with
  | zero =>
    intro i d hk
    rw [ste2007_clear_loop, if_neg (by omega)]
    exact WhileHeld.idle d
  | succ k ih =>
    intro i d hk
    rw [ste2007_clear_loop, if_pos (by omega)]
    exact (SPI_transfer_whileHeld d _ _).andThen (ih (i + 1) _ (by omega))

/-- The loop of `ste2007_clearLines` keeps the discipline of a held lock. -/
theorem ste2007_clearLines_loop_whileHeld (count end_ : Nat) :
    ∀ (k i : Nat) (d : Display_Handle), end_ + 1 - i = k →
      WhileHeld d (ste2007_clearLines_loop count end_ i d) := by
  intro k
  induction k with
  | zero =>
    intro i d hk
    rw [ste2007_clearLines_loop, if_neg (by omega)]
    exact WhileHeld.idle d
  | succ k ih =>
    intro i d hk
    rw [ste2007_clearLines_loop, if_pos (by omega)]
    exact ((((ste2007_setxy_whileHeld d _ _).andThen (ste2007_chipselect_whileHeld _ 0)).andThen
      (SPI_transfer_whileHeld _ _ _)).andThen (ste2007_chipselect_whileHeld _ 1)).andThen
      (ih (i + 1) _ (by omega))

/-- The state in which `ste2007_clear` and `ste2007_clearLines` start their transfers,
seen from the lock. -/
theorem RowBlanked.held {dpyH d1 : Display_Handle} (h : RowBlanked dpyH d1) :
    d1.trace = dpyH.trace ++ [Event.SemaphoreP_pend] ∧
    d1.object.rowbuffer.cap = dpyH.object.rowbuffer.cap :=
  ⟨h.1, h.2.2.2.2.1⟩

/-- With the lock free, `ste2007_clear` returns; it takes the lock, keeps the discipline
while it holds it, and releases it. -/
theorem ste2007_clear_locked (s : Display_Handle) (hmutex : s.object.mutex = true) :
    ∃ d1 d2, d1.trace = s.trace ++ [Event.SemaphoreP_pend] ∧ WhileHeld d1 d2 ∧
      d1.object.rowbuffer.cap = s.object.rowbuffer.cap ∧
      ste2007_clear s = some (SemaphoreP_post d2) := by
  obtain ⟨d1, hb, heq⟩ := ste2007_clear_unfold s hmutex
  refine ⟨d1, _, hb.held.1, ?_, hb.held.2, heq⟩
  exact (((ste2007_setxy_whileHeld d1 0 0).andThen (ste2007_chipselect_whileHeld _ 0)).andThen
    (ste2007_clear_loop_whileHeld 96 9 0 _ rfl)).andThen (ste2007_chipselect_whileHeld _ 1)

/-- With the lock free, `ste2007_clearLines` returns; it takes the lock, keeps the
discipline while it holds it, and releases it. -/
theorem ste2007_clearLines_locked (s : Display_Handle) (start end_ : Nat)
    (hmutex : s.object.mutex = true) :
    ∃ d1 d2, d1.trace = s.trace ++ [Event.SemaphoreP_pend] ∧ WhileHeld d1 d2 ∧
      d1.object.rowbuffer.cap = s.object.rowbuffer.cap ∧
      ste2007_clearLines s start end_ = some (SemaphoreP_post d2) := by
  obtain ⟨d1, hb, heq⟩ := ste2007_clearLines_unfold s start end_ hmutex
  exact ⟨d1, _, hb.held.1, ste2007_clearLines_loop_whileHeld 96 _ _ start d1 rfl, hb.held.2, heq⟩

/-- On a row buffer of capacity above 0, `ste2007_write` returns once it is allowed more
iterations than bytes, and keeps the discipline of a held lock. -/
theorem ste2007_write_whileHeld (fuel : Nat) (d : Display_Handle) (buf : List Nat)
    (hcap : 0 < d.object.rowbuffer.cap) (hcap32 : d.object.rowbuffer.cap < 4294967296)
    (hlen : buf.length < 65536) (hfuel : buf.length < fuel) :
    ∃ d', ste2007_write fuel d buf = some d' ∧ WhileHeld d d' := by
  obtain ⟨d', chunks, e1, e2, -, -, -, -, e7, e8⟩ :=
    ste2007_write_loop_spec buf hlen fuel 0 d hcap hcap32 (Nat.zero_le _) (by omega)
  exact ⟨d', e1, ⟨chunks.map Event.SPI_transfer, e2, lockDiscipline_transfers chunks⟩, e7, e8⟩

/-- The character loop of `ste2007_vprintf` on an array that holds a NUL: it ends, and keeps
the discipline of a held lock. -/
theorem ste2007_vprintf_loop_whileHeld (font_5x7 : Nat → List Nat) (fuel : Nat)
    (hfuel : 6 < fuel) :
    ∀ (s : List Nat) (d : Display_Handle), 0 ∈ s → 0 < d.object.rowbuffer.cap →
      d.object.rowbuffer.cap < 4294967296 →
      ∃ d', ste2007_vprintf_loop font_5x7 fuel s d = some d' ∧ WhileHeld d d' := by
  intro s
  induction s with
  | nil =>
    intro d h
    simp at h
  | cons c rest ih =>
    intro d h hcap hcap32
    by_cases hc : c = 0
    · exact ⟨d, by simp [ste2007_vprintf_loop, hc], WhileHeld.idle d⟩
    · have hmem : 0 ∈ rest := by
        rcases List.mem_cons.mp h with h0 | h0
        · exact absurd h0.symm hc
        · exact h0
      have hl : ((font_5x7 ((c + 4294967296 - 32) % 4294967296)).take 6).length ≤ 6 := by
        rw [List.length_take]
        omega
      obtain ⟨d1, w1, h1⟩ := ste2007_write_whileHeld fuel d
        ((font_5x7 ((c + 4294967296 - 32) % 4294967296)).take 6) hcap hcap32 (by omega)
        (by omega)
      obtain ⟨d2, w2, h2⟩ := ih d1 hmem (by rw [h1.2.2]; exact hcap)
        (by rw [h1.2.2]; exact hcap32)
      refine ⟨d2, ?_, h1.andThen h2⟩
      simp only [ste2007_vprintf_loop, hc, ne_eq, not_false_eq_true, if_true, w1]
      exact w2

/-- The rendering part of `ste2007_vprintf` returns and keeps the discipline of a held
lock. -/
theorem ste2007_vprintf_render_whileHeld (font_5x7 : Nat → List Nat) (fuel : Nat)
    (d : Display_Handle) (line col : Nat) (formatted : List Nat) (hfuel : 6 < fuel)
    (h0 : 0 ∈ formatted) (hcap : 0 < d.object.rowbuffer.cap)
    (hcap32 : d.object.rowbuffer.cap < 4294967296) :
    ∃ d', ste2007_vprintf_render font_5x7 fuel d line col formatted = some d' ∧
      WhileHeld d d' := by
  have e1 := (ste2007_setxy_whileHeld d col line).andThen (ste2007_chipselect_whileHeld _ 0)
  obtain ⟨d2, w2, h2⟩ := ste2007_vprintf_loop_whileHeld font_5x7 fuel hfuel formatted _ h0
    (by rw [e1.2.2]; exact hcap) (by rw [e1.2.2]; exact hcap32)
  refine ⟨_, ?_, (e1.andThen h2).andThen (ste2007_chipselect_whileHeld d2 1)⟩
  simp only [ste2007_vprintf_render, w2]

/-- The policy step of `ste2007_vprintf` under ClearBoth, entered with the lock held: the
lock is released, `ste2007_clearLines` runs from a free lock and leaves it free, and the
lock is taken again. -/
theorem ste2007_vprintf_clear_both (fuel : Nat) (d : Display_Handle) (line col : Nat)
    (dispStr : List Nat)
    (hmode : d.object.lineClearMode = Display_LineClearMode.DISPLAY_CLEAR_BOTH) :
    ∃ d2 evC d', ste2007_clearLines (SemaphoreP_post d) line line = some d2 ∧
      d2.trace = (SemaphoreP_post d).trace ++ evC ∧
      lockDiscipline false evC = some false ∧
      ste2007_vprintf_clear fuel d line col dispStr = some d' ∧
      d'.trace = d.trace ++ [Event.SemaphoreP_post] ++ evC ++ [Event.SemaphoreP_pend] ∧
      d'.object.mutex = false ∧
      d'.object.rowbuffer.cap = d.object.rowbuffer.cap := by
  obtain ⟨d1, d2, hp, hw, hc, heq⟩ := ste2007_clearLines_locked (SemaphoreP_post d) line line rfl
  obtain ⟨d3, evs, h3, t3, l3, m3⟩ := hw.returnsUnlocked hp
  have hd3 : d3 = SemaphoreP_post d2 := (Option.some.inj h3).symm
  have hpend := SemaphoreP_pend_free d3 m3
  refine ⟨d3, evs, { d3 with object := { d3.object with mutex := false },
                             trace := d3.trace ++ [Event.SemaphoreP_pend] },
    by rw [heq, hd3], t3, l3, ?_, ?_, rfl, ?_⟩
  · simp only [ste2007_vprintf_clear, hmode, heq, ← hd3]
    exact hpend
  · show d3.trace ++ [Event.SemaphoreP_pend] = _
    rw [t3]
    rfl
  · show d3.object.rowbuffer.cap = _
    rw [hd3]
    show d2.object.rowbuffer.cap = _
    rw [hw.2.2, hc]
    rfl

/-- The policy step of `ste2007_vprintf`, entered with the lock held, under each of the four
policies: it returns and keeps the discipline. Under ClearLeft the column is inside
`dispStr`; under ClearRight it is at most 16. -/
theorem ste2007_vprintf_clear_whileHeld (fuel : Nat) (d : Display_Handle) (line col : Nat)
    (dispStr : List Nat) (hm : d.object.mutex = false) (hfuel : 32 < fuel)
    (hstr : dispStr.length = 32) (hcap : 0 < d.object.rowbuffer.cap)
    (hcap32 : d.object.rowbuffer.cap < 4294967296)
    (hleft : d.object.lineClearMode = Display_LineClearMode.DISPLAY_CLEAR_LEFT → col ≤ 32)
    (hright : d.object.lineClearMode = Display_LineClearMode.DISPLAY_CLEAR_RIGHT → col ≤ 16) :
    ∃ d', ste2007_vprintf_clear fuel d line col dispStr = some d' ∧ WhileHeld d d' := by
  cases hmode : d.object.lineClearMode with
  | DISPLAY_CLEAR_NONE =>
    exact ⟨d, ste2007_vprintf_clear_none fuel d line col dispStr hmode, WhileHeld.idle d⟩
  | DISPLAY_CLEAR_LEFT =>
    have hcol := hleft hmode
    obtain ⟨ds', hz, hlen, -⟩ := ste2007_vprintf_zero_loop_take col dispStr (by omega)
    have e1 := (ste2007_setxy_whileHeld d 0 line).andThen (ste2007_chipselect_whileHeld _ 0)
    have hl : (ds'.take col).length ≤ 32 := by
      rw [List.length_take]
      omega
    obtain ⟨d2, w2, h2⟩ := ste2007_write_whileHeld fuel _ (ds'.take col)
      (by rw [e1.2.2]; exact hcap) (by rw [e1.2.2]; exact hcap32) (by omega) (by omega)
    have hcol2 : col ≤ ds'.length := by omega
    refine ⟨_, ?_, (e1.andThen h2).andThen (ste2007_chipselect_whileHeld d2 1)⟩
    simp only [ste2007_vprintf_clear, hmode, hz, ste2007_write_dispStr, hcol2, if_true, w2]
  | DISPLAY_CLEAR_RIGHT =>
    have hcol := hright hmode
    obtain ⟨ds', hz, hlen, -⟩ := ste2007_vprintf_zero_loop_take (16 - col) dispStr (by omega)
    have hI : (16 - (col : Int)) = ((16 - col : Nat) : Int) := by omega
    have hL : (((16 - col : Nat) : Int) % 65536).toNat = 16 - col := by omega
    have e1 := (ste2007_setxy_whileHeld d col line).andThen (ste2007_chipselect_whileHeld _ 0)
    have hl : (ds'.take (16 - col)).length ≤ 32 := by
      rw [List.length_take]
      omega
    obtain ⟨d2, w2, h2⟩ := ste2007_write_whileHeld fuel _ (ds'.take (16 - col))
      (by rw [e1.2.2]; exact hcap) (by rw [e1.2.2]; exact hcap32) (by omega) (by omega)
    have hcol2 : 16 - col ≤ ds'.length := by omega
    refine ⟨_, ?_, (e1.andThen h2).andThen (ste2007_chipselect_whileHeld d2 1)⟩
    simp only [ste2007_vprintf_clear, hmode, hI, hL, hz, ste2007_write_dispStr, hcol2, if_true,
      w2]
  | DISPLAY_CLEAR_BOTH =>
    obtain ⟨d2, evC, d', -, -, lC, hrun, ht, hmu, hcp⟩ :=
      ste2007_vprintf_clear_both fuel d line col dispStr hmode
    refine ⟨d', hrun, ⟨[Event.SemaphoreP_post] ++ evC ++ [Event.SemaphoreP_pend], ?_, ?_⟩,
      hmu.trans hm.symm, hcp⟩
    · rw [ht]
      simp only [List.append_assoc]
    · rw [List.append_assoc, lockDiscipline_append]
      show lockDiscipline false (evC ++ [Event.SemaphoreP_pend]) = some true
      rw [lockDiscipline_append, lC]
      rfl

/-- The whole `ste2007_vprintf`, started with the lock free. -/
theorem ste2007_vprintf_returnsUnlocked (font_5x7 : Nat → List Nat) (fuel : Nat)
    (dpyH : Display_Handle) (line col : Nat) (dispStr formatted : List Nat)
    (hmutex : dpyH.object.mutex = true) (hfuel : 32 < fuel) (hstr : dispStr.length = 32)
    (h0 : 0 ∈ formatted) (hcap : 0 < dpyH.object.rowbuffer.cap)
    (hcap32 : dpyH.object.rowbuffer.cap < 4294967296)
    (hleft : dpyH.object.lineClearMode = Display_LineClearMode.DISPLAY_CLEAR_LEFT → col ≤ 32)
    (hright : dpyH.object.lineClearMode = Display_LineClearMode.DISPLAY_CLEAR_RIGHT →
      col ≤ 16) :
    ReturnsUnlocked dpyH (ste2007_vprintf font_5x7 fuel dpyH line col dispStr formatted) := by
  have hpend := SemaphoreP_pend_free dpyH hmutex
  obtain ⟨d2, w2, h2⟩ := ste2007_vprintf_clear_whileHeld fuel _ line col dispStr
    (show ({ dpyH with object := { dpyH.object with mutex := false },
                       trace := dpyH.trace ++ [Event.SemaphoreP_pend] } :
      Display_Handle).object.mutex = false from rfl) hfuel hstr hcap hcap32 hleft hright
  obtain ⟨d3, w3, h3⟩ := ste2007_vprintf_render_whileHeld font_5x7 fuel d2 line col formatted
    (by omega) h0 (by rw [h2.2.2]; exact hcap) (by rw [h2.2.2]; exact hcap32)
  have hrun : ste2007_vprintf font_5x7 fuel dpyH line col dispStr formatted =
      some (SemaphoreP_post d3) := by
    simp only [ste2007_vprintf, hpend, w2, w3]
  rw [hrun]
  exact (h2.andThen h3).returnsUnlocked rfl

/-- The whole `ste2007_vprintf` under ClearBoth, with the window made explicit: the lock is
released immediately before the events of the nested `ste2007_clearLines` and taken again
immediately after them. -/
theorem ste2007_vprintf_both_window (font_5x7 : Nat → List Nat) (fuel : Nat)
    (dpyH : Display_Handle) (line col : Nat) (dispStr formatted : List Nat)
    (hmutex : dpyH.object.mutex = true) (hfuel : 6 < fuel) (h0 : 0 ∈ formatted)
    (hcap : 0 < dpyH.object.rowbuffer.cap) (hcap32 : dpyH.object.rowbuffer.cap < 4294967296)
    (hmode : dpyH.object.lineClearMode = Display_LineClearMode.DISPLAY_CLEAR_BOTH) :
    ∃ d1 d2 evC evR d', SemaphoreP_pend dpyH = some d1 ∧
      ste2007_clearLines (SemaphoreP_post d1) line line = some d2 ∧
      d2.trace = (SemaphoreP_post d1).trace ++ evC ∧
      ste2007_vprintf font_5x7 fuel dpyH line col dispStr formatted = some d' ∧
      d'.trace = dpyH.trace ++ [Event.SemaphoreP_pend] ++ [Event.SemaphoreP_post] ++ evC ++
        [Event.SemaphoreP_pend] ++ evR ++ [Event.SemaphoreP_post] ∧
      lockDiscipline false evC = some false ∧ lockDiscipline true evR = some true := by
  have hpend := SemaphoreP_pend_free dpyH hmutex
  obtain ⟨d2, evC, dc, hcl, tC, lC, hrun, ht, -, hcp⟩ :=
    ste2007_vprintf_clear_both fuel
      { dpyH with object := { dpyH.object with mutex := false },
                  trace := dpyH.trace ++ [Event.SemaphoreP_pend] } line col dispStr hmode
  obtain ⟨d3, w3, ⟨evR, tR, lR⟩, -, -⟩ :=
    ste2007_vprintf_render_whileHeld font_5x7 fuel dc line col formatted
      hfuel h0 (by rw [hcp]; exact hcap) (by rw [hcp]; exact hcap32)
  refine ⟨_, d2, evC, evR, SemaphoreP_post d3, hpend, hcl, tC, ?_, ?_, lC, lR⟩
  · simp only [ste2007_vprintf, hpend, hrun, w3]
  · show d3.trace ++ [Event.SemaphoreP_post] = _
    rw [tR, ht]

/-- C21: with the lock a boolean and the acquisition of a held lock a call that never
returns, on a session whose lock is free and whose row buffer has a capacity above 0: full
clear, `ste2007_clearLines` (any lines), `ste2007_vprintf` (whichever of the four policies
the session has), the mutex-wrapped control (any command, any argument) and close each
return, and the events of each, followed from a free lock, take the lock only when it is
free, make every transfer while it is held, and leave it free; the semaphore is available
in the session each leaves. Under ClearBoth the events of `ste2007_vprintf` are: lock taken,
lock released, the events of the nested `ste2007_clearLines`, lock taken, rendering events,
lock released. For `ste2007_vprintf` the column is one for which the accesses to the 32
bytes of `dispStr` stay inside the array (at most 32 under ClearLeft, at most 16 under
ClearRight), the formatted string holds its terminating NUL, and more than 32 iterations are
allowed to each write. -/
theorem session_lock_discipline (K : Display_h) (font_5x7 : Nat → List Nat) (fuel : Nat)
    (dpyH : Display_Handle) (start end_ line col cmd : Nat) (arg : Option Nat)
    (dispStr formatted : List Nat)
    (hmutex : dpyH.object.mutex = true)
    (hcap : 0 < dpyH.object.rowbuffer.cap) (hcap32 : dpyH.object.rowbuffer.cap < 4294967296)
    (hfuel : 32 < fuel) (hstr : dispStr.length = 32) (h0 : 0 ∈ formatted)
    (hleft : dpyH.object.lineClearMode = Display_LineClearMode.DISPLAY_CLEAR_LEFT → col ≤ 32)
    (hright : dpyH.object.lineClearMode = Display_LineClearMode.DISPLAY_CLEAR_RIGHT →
      col ≤ 16) :
    ReturnsUnlocked dpyH (ste2007_clear dpyH) ∧
    ReturnsUnlocked dpyH (ste2007_clearLines dpyH start end_) ∧
    ReturnsUnlocked dpyH (ste2007_vprintf font_5x7 fuel dpyH line col dispStr formatted) ∧
    ReturnsUnlocked dpyH ((ste2007_control_mutexwrapped K dpyH cmd arg).map Prod.snd) ∧
    ReturnsUnlocked dpyH (ste2007_close dpyH) ∧
    (dpyH.object.lineClearMode = Display_LineClearMode.DISPLAY_CLEAR_BOTH →
      ∃ d1 d2 evC evR d', SemaphoreP_pend dpyH = some d1 ∧
        ste2007_clearLines (SemaphoreP_post d1) line line = some d2 ∧
        d2.trace = (SemaphoreP_post d1).trace ++ evC ∧
        ste2007_vprintf font_5x7 fuel dpyH line col dispStr formatted = some d' ∧
        d'.trace = dpyH.trace ++ [Event.SemaphoreP_pend] ++ [Event.SemaphoreP_post] ++ evC ++
          [Event.SemaphoreP_pend] ++ evR ++ [Event.SemaphoreP_post] ∧
        lockDiscipline false evC = some false ∧ lockDiscipline true evR = some true) := by
  have hpend := SemaphoreP_pend_free dpyH hmutex
  refine ⟨?_, ?_, ?_, ?_, ?_, ?_⟩
  · obtain ⟨d1, d2, hp, hw, -, heq⟩ := ste2007_clear_locked dpyH hmutex
    rw [heq]
    exact hw.returnsUnlocked hp
  · obtain ⟨d1, d2, hp, hw, -, heq⟩ := ste2007_clearLines_locked dpyH start end_ hmutex
    rw [heq]
    exact hw.returnsUnlocked hp
  · exact ste2007_vprintf_returnsUnlocked font_5x7 fuel dpyH line col dispStr formatted hmutex
      hfuel hstr h0 hcap hcap32 hleft hright
  · have hrun : (ste2007_control_mutexwrapped K dpyH cmd arg).map Prod.snd =
        some (SemaphoreP_post (ste2007_control K
          { dpyH with object := { dpyH.object with mutex := false },
                      trace := dpyH.trace ++ [Event.SemaphoreP_pend] } cmd arg).2) := by
      simp only [ste2007_control_mutexwrapped, hpend, Option.map_some']
    rw [hrun]
    exact (ste2007_control_whileHeld K _ cmd arg).returnsUnlocked rfl
  · have hrun : ste2007_close dpyH =
        some (SemaphoreP_post
          { (ste2007_chipselect
              { dpyH with object := { dpyH.object with mutex := false },
                          trace := dpyH.trace ++ [Event.SemaphoreP_pend] } 1) with
            object :=
              { (ste2007_chipselect
                  { dpyH with object := { dpyH.object with mutex := false },
                              trace := dpyH.trace ++ [Event.SemaphoreP_pend] } 1).object with
                bus := none } }) := by
      simp only [ste2007_close, hpend]
    rw [hrun]
    have hbus : WhileHeld
        (ste2007_chipselect
          { dpyH with object := { dpyH.object with mutex := false },
                      trace := dpyH.trace ++ [Event.SemaphoreP_pend] } 1)
        { (ste2007_chipselect
            { dpyH with object := { dpyH.object with mutex := false },
                        trace := dpyH.trace ++ [Event.SemaphoreP_pend] } 1) with
          object :=
            { (ste2007_chipselect
                { dpyH with object := { dpyH.object with mutex := false },
                            trace := dpyH.trace ++ [Event.SemaphoreP_pend] } 1).object with
              bus := none } } :=
      ⟨⟨[], by simp, rfl⟩, rfl, rfl⟩
    exact ((ste2007_chipselect_whileHeld _ 1).andThen hbus).returnsUnlocked rfl
  · intro hmode
    exact ste2007_vprintf_both_window font_5x7 fuel dpyH line col dispStr formatted hmutex
      (by omega) h0 hcap hcap32 hmode

/-- C21, on the session of the worked instances under ClearBoth: "Hi" drawn at column 12
of line 2, the contrast set to 20, and the session closed. -/
theorem session_lock_discipline_witness :
    (clearBothSession.object.mutex = true ∧ 0 < clearBothSession.object.rowbuffer.cap ∧
      clearBothSession.object.rowbuffer.cap < 4294967296 ∧ 32 < 33 ∧
      (List.replicate 32 0x55).length = 32 ∧ 0 ∈ [0x48, 0x69] ++ 0 :: List.replicate 29 0) ∧
    ReturnsUnlocked clearBothSession
      (ste2007_vprintf sampleFont 33 clearBothSession 2 12 (List.replicate 32 0x55)
        ([0x48, 0x69] ++ 0 :: List.replicate 29 0)) ∧
    ReturnsUnlocked clearBothSession
      ((ste2007_control_mutexwrapped sampleDisplay_h clearBothSession 32 (some 20)).map
        Prod.snd) ∧
    ReturnsUnlocked clearBothSession (ste2007_close clearBothSession) :=
  have h1 : 0 < clearBothSession.object.rowbuffer.cap := by decide
  have h2 : clearBothSession.object.rowbuffer.cap < 4294967296 := by decide
  have h3 : (List.replicate 32 0x55).length = 32 := by decide
  have h4 : 0 ∈ [0x48, 0x69] ++ 0 :: List.replicate 29 0 := by decide
  have h := session_lock_discipline sampleDisplay_h sampleFont 33 clearBothSession 7 8 2 12 32
    (some 20) (List.replicate 32 0x55) ([0x48, 0x69] ++ 0 :: List.replicate 29 0) rfl h1 h2
    (by decide) h3 h4 (fun _ => by decide) (fun _ => by decide)
  ⟨⟨rfl, h1, h2, by decide, h3, h4⟩, h.2.2.1, h.2.2.2.1, h.2.2.2.2.1⟩

/-! ## Session lock: two threads under ClearBoth -/

/-- With no other thread in the window, the statements listed in
`ste2007_vprintf_clearBoth_with` are `ste2007_vprintf` on a session under ClearBoth. -/
theorem ste2007_vprintf_clearBoth_with_some (font_5x7 : Nat → List Nat) (fuel : Nat)
    (dpyH : Display_Handle) (line col : Nat) (dispStr formatted : List Nat)
    (hmode : dpyH.object.lineClearMode = Display_LineClearMode.DISPLAY_CLEAR_BOTH) :
    ste2007_vprintf_clearBoth_with some font_5x7 fuel dpyH line col formatted =
      ste2007_vprintf font_5x7 fuel dpyH line col dispStr formatted := by
  by_cases hm : dpyH.object.mutex = true
  · have hpend := SemaphoreP_pend_free dpyH hm
    simp only [ste2007_vprintf_clearBoth_with, ste2007_vprintf, hpend, ste2007_vprintf_clear,
      hmode]
    cases ste2007_clearLines (SemaphoreP_post
      { dpyH with object := { dpyH.object with mutex := false },
                  trace := dpyH.trace ++ [Event.SemaphoreP_pend] }) line line with
    | none => rfl
    | some d2 =>
      cases SemaphoreP_pend d2 with
      | none => rfl
      | some d3 => rfl
  · have hpend : SemaphoreP_pend dpyH = none := by
      simp only [SemaphoreP_pend, hm]
      rfl
    simp only [ste2007_vprintf_clearBoth_with, ste2007_vprintf, hpend]

theorem Emits.clearLine {a d : Display_Handle} {e : List Event} (h : Emits a d e)
    (hcap : a.object.cmdBuf.cap = 4) (hm : d.object.mutex = true) (line : Nat)
    (hline : line < 256) :
    ∃ d', ste2007_clearLines d line line = some d' ∧
      Emits a d' (e ++ ([Event.SemaphoreP_pend] ++ lineClearEvents a.hwAttrs.csPin line ++
        [Event.SemaphoreP_post])) ∧
      d'.object.mutex = true := by
  obtain ⟨d1, ⟨p1, p2, p3, -, p5, p6, -, p8, p9⟩, heq⟩ := ste2007_clearLines_unfold d line line hm
  rw [if_neg (Nat.lt_irrefl _)] at heq
  have hpro : Emits d d1 [Event.SemaphoreP_pend] :=
    ⟨p1, p2, congrArg SpiTxn_buffer.cap p3, p5, p8, p9⟩
  obtain ⟨e1, -⟩ := ste2007_clearLines_loop_spec 96 line hline 1 line d1 (by omega)
    (((congrArg SpiTxn_buffer.cap p3).trans h.2.2.1).trans hcap)
  rw [p6, p2, h.2.1] at e1
  have hall := (h.trans (hpro.trans e1)).post
  refine ⟨_, heq, ?_, rfl⟩
  simpa [lineClearEvents, List.append_assoc] using hall

theorem Emits.draw_clearBoth {a d : Display_Handle} {e : List Event} (h : Emits a d e)
    (hm : d.object.mutex = true)
    (hmode : a.object.lineClearMode = Display_LineClearMode.DISPLAY_CLEAR_BOTH)
    (font_5x7 : Nat → List Nat) (fuel line col : Nat) (s rest dispStr : List Nat)
    (hfuel : 2 ≤ fuel) (hcol : col < 256) (hline : line < 256)
    (hcap : a.object.cmdBuf.cap = 4) (hrow : 6 ≤ a.object.rowbuffer.cap)
    (hcap32 : a.object.rowbuffer.cap < 4294967296)
    (hp : ∀ c ∈ s, 32 ≤ c ∧ c ≤ 126)
    (hf : ∀ c ∈ s, (font_5x7 (c - 32)).length = 6 ∧ ∀ b ∈ font_5x7 (c - 32), b < 256) :
    ∃ d', ste2007_vprintf font_5x7 fuel d line col dispStr (s ++ 0 :: rest) = some d' ∧
      Emits a d' (e ++ clearBothDrawEvents a.hwAttrs.csPin font_5x7 col line s) ∧
      d'.object.mutex = true := by
  obtain ⟨d1, w1, e1, -, -, -⟩ := h.pend hm
  obtain ⟨d2, w2, e2, m2⟩ := e1.post.clearLine hcap rfl line hline
  obtain ⟨d3, w3, e3, -, -, -⟩ := e2.pend m2
  obtain ⟨d4, w4, e4⟩ := e3.render font_5x7 fuel line col s rest hfuel hcol hline hcap hrow
    hcap32 hp hf
  refine ⟨SemaphoreP_post d4, ?_, ?_, rfl⟩
  · simp only [ste2007_vprintf, w1, ste2007_vprintf_clear, e1.2.2.2.2.1.trans hmode, w2, w3, w4]
  · simpa [clearBothDrawEvents, List.append_assoc] using e4.post

theorem transfersOf_lineClear (csPin line : Nat) :
    transfersOf (lineClearEvents csPin line) =
      [[0xB0 ||| (line &&& 0x0F)], [0x10], [0x00], blankRow] := by
  simp only [lineClearEvents, cursorSequence, transfersOf_append, transfersOf_simpleCommand]
  rfl

/-- C23: two text draws on one session under ClearBoth, "A" at line 1 by thread A and "B" at
line 2 by thread B. Thread A runs as far as the return of its nested `ste2007_clearLines`,
where it has released the lock; thread B then runs its whole call; thread A then runs the
rest of its call. Every acquisition finds the lock free, and the transport sees the words of
B between the words of A: the blank row of line 1, then all of B, then the glyph of "A".
This is the sequence of neither serial order of the two calls. -/
theorem ste2007_vprintf_words_interleave :
    ∃ d dAB dBA,
      ste2007_vprintf_clearBoth_with
        (fun s => ste2007_vprintf sampleFont 2 s 2 0 (List.replicate 32 0x55)
          ([0x42] ++ 0 :: List.replicate 30 0))
        sampleFont 2 clearBothSession 1 0 ([0x41] ++ 0 :: List.replicate 30 0) = some d ∧
      (ste2007_vprintf sampleFont 2 clearBothSession 1 0 (List.replicate 32 0x55)
          ([0x41] ++ 0 :: List.replicate 30 0)).bind
        (fun s => ste2007_vprintf sampleFont 2 s 2 0 (List.replicate 32 0x55)
          ([0x42] ++ 0 :: List.replicate 30 0)) = some dAB ∧
      (ste2007_vprintf sampleFont 2 clearBothSession 2 0 (List.replicate 32 0x55)
          ([0x42] ++ 0 :: List.replicate 30 0)).bind
        (fun s => ste2007_vprintf sampleFont 2 s 1 0 (List.replicate 32 0x55)
          ([0x41] ++ 0 :: List.replicate 30 0)) = some dBA ∧
      lockDiscipline false d.trace = some false ∧
      transfersOf d.trace =
        transfersOf (lineClearEvents 5 1) ++
        (transfersOf (lineClearEvents 5 2) ++ transfersOf (renderEvents 5 sampleFont 0 2 [0x42])) ++
        transfersOf (renderEvents 5 sampleFont 0 1 [0x41]) ∧
      transfersOf dAB.trace =
        (transfersOf (lineClearEvents 5 1) ++ transfersOf (renderEvents 5 sampleFont 0 1 [0x41])) ++
        (transfersOf (lineClearEvents 5 2) ++ transfersOf (renderEvents 5 sampleFont 0 2 [0x42])) ∧
      transfersOf dBA.trace =
        (transfersOf (lineClearEvents 5 2) ++ transfersOf (renderEvents 5 sampleFont 0 2 [0x42])) ++
        (transfersOf (lineClearEvents 5 1) ++ transfersOf (renderEvents 5 sampleFont 0 1 [0x41])) ∧
      transfersOf d.trace ≠ transfersOf dAB.trace ∧
      transfersOf d.trace ≠ transfersOf dBA.trace := by
  have hpA : ∀ c ∈ [0x41], 32 ≤ c ∧ c ≤ 126 := by decide
  have hfA : ∀ c ∈ [0x41],
      (sampleFont (c - 32)).length = 6 ∧ ∀ b ∈ sampleFont (c - 32), b < 256 := by decide
  have hpB : ∀ c ∈ [0x42], 32 ≤ c ∧ c ≤ 126 := by decide
  have hfB : ∀ c ∈ [0x42],
      (sampleFont (c - 32)).length = 6 ∧ ∀ b ∈ sampleFont (c - 32), b < 256 := by decide
  -- the run with thread B in the window of thread A
  obtain ⟨d1, w1, e1, -, -, -⟩ := (Emits.refl clearBothSession).pend rfl
  obtain ⟨d2, w2, e2, m2⟩ := e1.post.clearLine rfl rfl 1 (by decide)
  obtain ⟨d3, w3, e3, m3⟩ := e2.draw_clearBoth m2 rfl sampleFont 2 2 0 [0x42]
    (List.replicate 30 0) (List.replicate 32 0x55) (by decide) (by decide) (by decide) rfl
    (by decide) (by decide) hpB hfB
  obtain ⟨d4, w4, e4, -, -, -⟩ := e3.pend m3
  obtain ⟨d5, w5, e5⟩ := e4.render sampleFont 2 1 0 [0x41] (List.replicate 30 0) (by decide)
    (by decide) (by decide) rfl (by decide) (by decide) hpA hfA
  have t := e5.post.1
  -- thread A, then thread B
  obtain ⟨a1, v1, f1, n1⟩ := (Emits.refl clearBothSession).draw_clearBoth rfl rfl sampleFont 2 1
    0 [0x41] (List.replicate 30 0) (List.replicate 32 0x55) (by decide) (by decide) (by decide)
    rfl (by decide) (by decide) hpA hfA
  obtain ⟨a2, v2, f2, -⟩ := f1.draw_clearBoth n1 rfl sampleFont 2 2 0 [0x42]
    (List.replicate 30 0) (List.replicate 32 0x55) (by decide) (by decide) (by decide) rfl
    (by decide) (by decide) hpB hfB
  -- thread B, then thread A
  obtain ⟨b1, u1, g1, k1⟩ := (Emits.refl clearBothSession).draw_clearBoth rfl rfl sampleFont 2 2
    0 [0x42] (List.replicate 30 0) (List.replicate 32 0x55) (by decide) (by decide) (by decide)
    rfl (by decide) (by decide) hpB hfB
  obtain ⟨b2, u2, g2, -⟩ := g1.draw_clearBoth k1 rfl sampleFont 2 1 0 [0x41]
    (List.replicate 30 0) (List.replicate 32 0x55) (by decide) (by decide) (by decide) rfl
    (by decide) (by decide) hpA hfA
  have hd : transfersOf (SemaphoreP_post d5).trace =
      transfersOf (lineClearEvents 5 1) ++
      (transfersOf (lineClearEvents 5 2) ++ transfersOf (renderEvents 5 sampleFont 0 2 [0x42])) ++
      transfersOf (renderEvents 5 sampleFont 0 1 [0x41]) := by
    rw [t]
    simp [clearBothSession, clearBothDrawEvents, transfersOf_append, transfersOf]
  have hab : transfersOf a2.trace =
      (transfersOf (lineClearEvents 5 1) ++ transfersOf (renderEvents 5 sampleFont 0 1 [0x41])) ++
      (transfersOf (lineClearEvents 5 2) ++ transfersOf (renderEvents 5 sampleFont 0 2 [0x42])) := by
    rw [f2.1]
    simp [clearBothSession, clearBothDrawEvents, transfersOf_append, transfersOf]
  have hba : transfersOf b2.trace =
      (transfersOf (lineClearEvents 5 2) ++ transfersOf (renderEvents 5 sampleFont 0 2 [0x42])) ++
      (transfersOf (lineClearEvents 5 1) ++ transfersOf (renderEvents 5 sampleFont 0 1 [0x41])) := by
    rw [g2.1]
    simp [clearBothSession, clearBothDrawEvents, transfersOf_append, transfersOf]
  refine ⟨SemaphoreP_post d5, a2, b2, ?_, ?_, ?_, ?_, hd, hab, hba, ?_, ?_⟩
  · simp only [ste2007_vprintf_clearBoth_with, w1, w2, w3, w4, w5]
  · rw [v1]
    exact v2
  · rw [u1]
    exact u2
  · rw [t]
    rfl
  · rw [hd, hab]
    decide
  · rw [hd, hba]
    decide

end Nokia1202
